import Mathlib

/-!
# osymapi: authentication core

A shallow embedding of the `auth` package (`src/auth/auth.go`), of the role middleware
(`src/middleware/auth_middleware.go`), of the role handlers of
`src/handlers/user_handler.go`, of the filter of `GetQuestions`
(`src/handlers/question_handler.go`) and of the helpers they call
(`src/utils/response.go`), followed by theorems about the revocation store, the `JwtVerify`
middleware, the role middleware, `Logout`, the role handlers and the question filter.

Conventions of the embedding:

* `time.Time` is an `Int`: the wall-clock instant in nanoseconds since the Unix epoch.
  `time.Now()` is an explicit argument (every clock reading is its own argument).
* The package-level variable `blacklistedTokens.tokens` (a Go `map[string]time.Time`) is an
  association list that is passed in and returned. The `sync.RWMutex` serialises the
  operations; every operation below is one critical section.
* Go strings are Lean strings, Go `int` and `int64` are integers, and a `float64` is the
  rational it denotes.
* Handlers return the list of the effects they perform, in order.
* The library `jwt-go` and the user store are outside the repository: `JwtVerify` takes
  `jwt.Parse` and the user-store query as parameters; `jwtParse` models the library.
  The role store of `RequireAdmin` is a parameter as well: what `pool.Query` and
  `rows.Scan` report.
-/

namespace Osym

/-! ## `time` -/

/-- A `time.Time`: nanoseconds since the Unix epoch. -/
abbrev Time := Int

/-- `t.After(u)`. -/
def Time.After (t u : Time) : Bool := decide (u < t)

/-- `t.Unix()`: whole seconds since the epoch (rounded down). -/
def Time.Unix (t : Time) : Int := t / 1000000000

/-- `time.Unix(sec, 0)`. -/
def timeUnix (sec : Int) : Time := sec * 1000000000

/-- `t.Add(d)` with `d` in nanoseconds. -/
def Time.Add (t : Time) (d : Int) : Time := t + d

/-- `time.Hour`. -/
def timeHour : Int := 3600 * 1000000000

/-! ## The Go map `map[string]time.Time` -/

/-- The field `blacklistedTokens.tokens`. -/
abbrev TokenMap := List (String × Time)

/-- `m[k]` in its two-result form: the value when the key is present. -/
def mapLookup (m : TokenMap) (k : String) : Option Time :=
  match m with
  | [] => none
  | e :: rest => if e.1 = k then some e.2 else mapLookup rest k

/-- `delete(m, k)`. -/
def mapDelete (m : TokenMap) (k : String) : TokenMap :=
  m.filter (fun e => decide (e.1 ≠ k))

/-- `m[k] = v`. -/
def mapSet (m : TokenMap) (k : String) (v : Time) : TokenMap :=
  (k, v) :: mapDelete m k

/-- A Go map holds one entry per key. -/
def NodupKeys (m : TokenMap) : Prop := (m.map Prod.fst).Nodup

/-! ## The revocation store (`auth.go`, lines 20-74) -/

/-- The initial value `make(map[string]time.Time)`. -/
def emptyTokens : TokenMap := []

/-- `cleanupBlacklistedTokens` with `now := time.Now()`: ranges over the entries of the map
and deletes the key of each entry that `now` is after. -/
def cleanupBlacklistedTokens (now : Time) (m : TokenMap) : TokenMap :=
  m.foldl (fun acc e => if now.After e.2 then mapDelete acc e.1 else acc) m

/-- `BlacklistToken(tokenString, expiry)`. -/
def BlacklistToken (m : TokenMap) (tokenString : String) (expiry : Time) : TokenMap :=
  mapSet m tokenString expiry

/-- `IsTokenBlacklisted(tokenString)`. -/
def IsTokenBlacklisted (m : TokenMap) (tokenString : String) : Bool :=
  (mapLookup m tokenString).isSome

/-- One mutation of the store. -/
inductive StoreOp where
  | blacklist (tokenString : String) (expiry : Time)
  | cleanup (now : Time)
  deriving DecidableEq, Repr

/-- The effect of one mutation. -/
def StoreOp.apply (m : TokenMap) : StoreOp → TokenMap
  | .blacklist t e => BlacklistToken m t e
  | .cleanup now => cleanupBlacklistedTokens now m

/-- A sequence of mutations, applied from left to right. -/
def runOps (ops : List StoreOp) (m : TokenMap) : TokenMap :=
  ops.foldl StoreOp.apply m

/-- The mutation leaves the token `t`, revoked until `exp`, alone: it revokes another token,
or it is a cleanup whose clock reading is not after `exp`. -/
def StoreOp.spares (t : String) (exp : Time) : StoreOp → Bool
  | .blacklist t' _ => decide (t' ≠ t)
  | .cleanup now => !now.After exp

/-- The mutation does not revoke `t`. -/
def StoreOp.notRevoking (t : String) : StoreOp → Bool
  | .blacklist t' _ => decide (t' ≠ t)
  | .cleanup _ => true

/-! ### The store together with the clock -/

/-- The store observed with a clock: the background goroutine of `init` (lines 43-48) and
the request handlers act on the store while time passes. -/
structure World where
  store : TokenMap
  clock : Time
  deriving DecidableEq, Repr

/-- The process right after `init`. -/
def World.initial (start : Time) : World := ⟨emptyTokens, start⟩

/-- The transitions of the store and the clock. -/
inductive World.Step : World → World → Prop where
  | blacklist (w : World) (t : String) (exp : Time) :
      World.Step w ⟨BlacklistToken w.store t exp, w.clock⟩
  | cleanup (w : World) :
      World.Step w ⟨cleanupBlacklistedTokens w.clock w.store, w.clock⟩
  | tick (w : World) (d : Int) (hd : 0 ≤ d) :
      World.Step w ⟨w.store, w.clock + d⟩

/-- States reachable from the initial one. -/
def World.Reachable (start : Time) (w : World) : Prop :=
  Relation.ReflTransGen World.Step (World.initial start) w

/-- A store revoked at second 0 until second 5 and looked at, with no cleanup run in
between, at second 10. -/
def lingeringWorld : World := ⟨[("t", timeUnix 5)], timeUnix 10⟩

/-! ## Go values and JSON claims -/

/-- A dynamically typed Go value (`interface{}`), as far as claims and context values need
it. `float64` values are the rationals they denote; `composite` stands for a decoded JSON
array or object. -/
inductive GoVal where
  | nil
  | bool (b : Bool)
  | int (n : Int)
  | int64 (n : Int)
  | float64 (x : ℚ)
  | string (s : String)
  | composite (raw : String)
  deriving DecidableEq

/-- The type assertion `v.(float64)`. -/
def GoVal.asFloat64 : GoVal → Option ℚ
  | .float64 x => some x
  | _ => none

/-- The type assertion `v.(bool)`. -/
def GoVal.asBool : GoVal → Option Bool
  | .bool b => some b
  | _ => none

/-- The type assertion `v.(string)`. -/
def GoVal.asString : GoVal → Option String
  | .string s => some s
  | _ => none

/-- The type assertion `v.(int)`. -/
def GoVal.asInt : GoVal → Option Int
  | .int n => some n
  | _ => none

/-- The conversions `int64(x)` and `int(x)` of a `float64` on a 64-bit platform: the fraction
is discarded (truncation towards zero). Go leaves the result for a value outside the range of
`int64` to the implementation; amd64 yields the least `int64`. -/
def int64OfFloat64 (x : ℚ) : Int :=
  let t := Int.tdiv x.num x.den
  if -(2 : Int) ^ 63 ≤ t ∧ t < (2 : Int) ^ 63 then t else -(2 : Int) ^ 63

/-- The `float64` nearest to an integer that fits a 64-bit `int` (ties to the even
mantissa), which is what decoding a JSON integer literal into `interface{}` yields:
integers of magnitude up to `2^53` are exact, beyond that the low bits are rounded off. -/
def float64OfInt (n : Int) : Int :=
  let a := n.natAbs
  if a ≤ 2 ^ 53 then n
  else
    let e := ((List.range 12).find? (fun e => decide (a / 2 ^ e < 2 ^ 53))).getD 11
    let q := a / 2 ^ e
    let r := a % 2 ^ e
    let half := 2 ^ (e - 1)
    let q' := if half < r ∨ (r = half ∧ q % 2 = 1) then q + 1 else q
    Int.sign n * ((q' * 2 ^ e : Nat) : Int)

/-- What `json.Marshal` followed by `json.Unmarshal` into `interface{}` makes of a claim
value: every number comes back as a `float64`. -/
def jsonRoundTrip : GoVal → GoVal
  | .int n => .float64 ((float64OfInt n : Int) : ℚ)
  | .int64 n => .float64 ((float64OfInt n : Int) : ℚ)
  | v => v

/-- `jwt.MapClaims`, a `map[string]interface{}`. -/
abbrev MapClaims := List (String × GoVal)

/-- The index expression `m[k]`: the nil interface when the key is absent. -/
def MapClaims.get (m : MapClaims) (k : String) : GoVal :=
  match m with
  | [] => .nil
  | e :: rest => if e.1 = k then e.2 else MapClaims.get rest k

/-- The claims after encoding and decoding. -/
def MapClaims.roundTrip (m : MapClaims) : MapClaims :=
  m.map (fun e => (e.1, jsonRoundTrip e.2))

/-! ## The library `github.com/dgrijalva/jwt-go` (v3)

The library is not part of the repository. Its control flow (`Parser.ParseWithClaims`,
`MapClaims.Valid`) is modelled below; base64, JSON and the signature primitives are the
fields of a `Codec`. `JwtVerify` itself takes `jwt.Parse` as a parameter, so that what does
not depend on the library is proved for every behaviour of `jwt.Parse`. -/

/-- The signing methods that the library registers; `HS256`, `HS384` and `HS512` are the
values of type `*jwt.SigningMethodHMAC`. -/
inductive SigningMethod where
  | HS256 | HS384 | HS512
  | RS256 | RS384 | RS512
  | PS256 | PS384 | PS512
  | ES256 | ES384 | ES512
  | unsecured
  deriving DecidableEq, Repr

/-- The type assertion `method.(*jwt.SigningMethodHMAC)` succeeds. -/
def SigningMethod.isHMAC : SigningMethod → Bool
  | .HS256 | .HS384 | .HS512 => true
  | _ => false

/-- `method.Alg()`, the value of the header field `alg`. -/
def SigningMethod.Alg : SigningMethod → String
  | .HS256 => "HS256" | .HS384 => "HS384" | .HS512 => "HS512"
  | .RS256 => "RS256" | .RS384 => "RS384" | .RS512 => "RS512"
  | .PS256 => "PS256" | .PS384 => "PS384" | .PS512 => "PS512"
  | .ES256 => "ES256" | .ES384 => "ES384" | .ES512 => "ES512"
  | .unsecured => "none"

/-- The key material: `jwtKey`, the bytes of the secret. -/
abbrev Key := String

/-- The dynamic type of `token.Claims`. -/
inductive Claims where
  | map (m : MapClaims)
  | other
  deriving DecidableEq

/-- `jwt.Token`. -/
structure Token where
  Raw : String
  Method : SigningMethod
  Claims : Claims
  Valid : Bool
  deriving DecidableEq

/-- The two results of `jwt.Parse`: the token pointer (possibly nil) and the error. -/
structure ParseResult where
  token : Option Token
  err : Option String
  deriving DecidableEq

/-- The encoding layer of the library. -/
structure Codec where
  /-- Decoding of the header and claims segments of a three-segment token, with the lookup
  of the signing method named by the header (`Parser.ParseUnverified`). -/
  decodeSegments : String → Option (SigningMethod × MapClaims)
  /-- The check `token.Method.Verify(signingString, signature, key) == nil`. -/
  verify : SigningMethod → String → Key → Bool
  /-- The serialisation `jwt.NewWithClaims(method, claims).SignedString(key)`. -/
  signedString : SigningMethod → MapClaims → Key → Except String String

/-- `strings.Split(s, ".")` on the characters of `s`. -/
def splitDots : List Char → List (List Char)
  | [] => [[]]
  | c :: cs =>
    match splitDots cs with
    | [] => [[]]
    | seg :: segs => if c = '.' then [] :: seg :: segs else (c :: seg) :: segs

/-- The library function `verifyExp`. -/
def verifyExp (exp now : Int) (required : Bool) : Bool :=
  if exp = 0 then !required else decide (now ≤ exp)

/-- The library function `verifyIat`. -/
def verifyIat (iat now : Int) (required : Bool) : Bool :=
  if iat = 0 then !required else decide (iat ≤ now)

/-- The library function `verifyNbf`. -/
def verifyNbf (nbf now : Int) (required : Bool) : Bool :=
  if nbf = 0 then !required else decide (nbf ≤ now)

/-- `MapClaims.VerifyExpiresAt(cmp, req)`. -/
def MapClaims.VerifyExpiresAt (m : MapClaims) (cmp : Int) (req : Bool) : Bool :=
  match m.get "exp" with
  | .float64 x => verifyExp (int64OfFloat64 x) cmp req
  | _ => !req

/-- `MapClaims.VerifyIssuedAt(cmp, req)`. -/
def MapClaims.VerifyIssuedAt (m : MapClaims) (cmp : Int) (req : Bool) : Bool :=
  match m.get "iat" with
  | .float64 x => verifyIat (int64OfFloat64 x) cmp req
  | _ => !req

/-- `MapClaims.VerifyNotBefore(cmp, req)`. -/
def MapClaims.VerifyNotBefore (m : MapClaims) (cmp : Int) (req : Bool) : Bool :=
  match m.get "nbf" with
  | .float64 x => verifyNbf (int64OfFloat64 x) cmp req
  | _ => !req

/-- `MapClaims.Valid() == nil`, with `now := TimeFunc().Unix()`. -/
def MapClaims.Valid (m : MapClaims) (now : Int) : Bool :=
  m.VerifyExpiresAt now false && m.VerifyIssuedAt now false && m.VerifyNotBefore now false

/-- `jwt.Parse(tokenString, keyFunc)` with the default parser: three segments, decoding,
key lookup, claims validation at the library's clock reading `now` (Unix seconds) and
signature check. The token is marked valid, and no error is returned, only when all of them
pass. -/
def jwtParse (c : Codec) (now : Int) (tokenString : String)
    (keyFunc : Token → Except String Key) : ParseResult :=
  if (splitDots tokenString.data).length ≠ 3 then
    ⟨none, some "token contains an invalid number of segments"⟩
  else
    match c.decodeSegments tokenString with
    | none => ⟨none, some "token is malformed"⟩
    | some (method, claims) =>
      let token : Token := ⟨tokenString, method, .map claims, false⟩
      match keyFunc token with
      | .error e => ⟨some token, some e⟩
      | .ok key =>
        let claimsOk := claims.Valid now
        let sigOk := c.verify method tokenString key
        if claimsOk && sigOk then ⟨some { token with Valid := true }, none⟩
        else ⟨some token, some "token is invalid"⟩

/-! ## `net/http` and `utils/response.go` -/

/-- The values attached to a request context, most recent first. -/
abbrev Context := List (String × GoVal)

/-- `context.WithValue(ctx, key, val)`. -/
def Context.WithValue (ctx : Context) (key : String) (val : GoVal) : Context :=
  (key, val) :: ctx

/-- `ctx.Value(key)`: the most recent value under the key, else the nil interface. -/
def Context.Value (ctx : Context) (key : String) : GoVal :=
  match ctx with
  | [] => .nil
  | e :: rest => if e.1 = key then e.2 else Context.Value rest key

/-- The parts of an `*http.Request` that the package reads. -/
structure Request where
  Header : List (String × String)
  Cookies : List (String × String)
  ctx : Context

/-- `r.Header.Get(key)`: the first value under the key, else the empty string. -/
def Request.HeaderGet (r : Request) (key : String) : String :=
  match r.Header.find? (fun h => decide (h.1 = key)) with
  | some h => h.2
  | none => ""

/-- `r.Cookie(name)`: the value of the first cookie of that name, if there is one. -/
def Request.Cookie (r : Request) (name : String) : Option String :=
  (r.Cookies.find? (fun c => decide (c.1 = name))).map Prod.snd

/-- `models.Response`, the JSON envelope. -/
structure Response where
  Success : Bool
  Message : String
  Data : GoVal
  Error : String
  deriving DecidableEq

/-- The fields of an `http.Cookie` that the package sets. -/
structure HttpCookie where
  Name : String
  Value : String
  Path : String
  MaxAge : Int
  HttpOnly : Bool
  deriving DecidableEq

/-- What a handler does, in order. -/
inductive Effect where
  /-- A call of `jwt.Parse` on the token string. -/
  | parse (tokenString : String)
  /-- The query `SELECT EXISTS(... WHERE id = $1 AND username = $2)` on the user store. -/
  | queryUser (userID : Int) (username : String)
  /-- The response written by `utils.SendResponse`. -/
  | write (contentType : String) (statusCode : Nat) (body : Response)
  /-- The call `next.ServeHTTP(w, r.WithContext(ctx))`. -/
  | next (ctx : Context)
  /-- A run-time panic (failed type assertion, nil dereference). -/
  | panic (reason : String)
  /-- The role query `SELECT r.name ... WHERE ur.user_id = $1` on the role store. -/
  | queryRoles (userID : Int)
  /-- The header added by `http.SetCookie(w, cookie)`. -/
  | setCookie (cookie : HttpCookie)
  deriving DecidableEq

/-- `http.StatusUnauthorized`. -/
def StatusUnauthorized : Nat := 401

/-- `http.StatusOK`. -/
def StatusOK : Nat := 200

/-- `utils.SendResponse`. -/
def SendResponse (statusCode : Nat) (success : Bool) (message : String) (data : GoVal)
    (err : String) : Effect :=
  .write "application/json" statusCode ⟨success, message, data, err⟩

/-- `utils.SendSuccess`. -/
def SendSuccess (message : String) (data : GoVal) : Effect :=
  SendResponse StatusOK true message data ""

/-- `utils.SendError`. -/
def SendError (statusCode : Nat) (message : String) : Effect :=
  SendResponse statusCode false "" .nil message

/-- The effect is a call of the next handler. -/
def Effect.isNext : Effect → Bool
  | .next _ => true
  | _ => false

/-- The effect is a user-store query. -/
def Effect.isQuery : Effect → Bool
  | .queryUser _ _ => true
  | _ => false

/-- The effect is a call of `jwt.Parse`. -/
def Effect.isParse : Effect → Bool
  | .parse _ => true
  | _ => false

/-- The effect is a written response. -/
def Effect.isWrite : Effect → Bool
  | .write _ _ _ => true
  | _ => false

/-- The effect is a panic. -/
def Effect.isPanic : Effect → Bool
  | .panic _ => true
  | _ => false

/-! ## Token issue and the middleware (`auth.go`, lines 76-206) -/

/-- The claims literal of `GenerateJWT` (lines 77-83). The two calls of `time.Now()` and the
fresh UUID are arguments. -/
def userClaims (nowExp nowIat : Time) (jti : String) (userID : Int) (username : String) :
    MapClaims :=
  [("user_id", .int userID),
   ("username", .string username),
   ("exp", .int64 (nowExp.Add (timeHour * 24)).Unix),
   ("iat", .int64 nowIat.Unix),
   ("jti", .string jti)]

/-- `GenerateJWT(userID, username)`. -/
def GenerateJWT (c : Codec) (jwtKey : Key) (nowExp nowIat : Time) (jti : String)
    (userID : Int) (username : String) : Except String String :=
  let claims := userClaims nowExp nowIat jti userID username
  match c.signedString .HS256 claims jwtKey with
  | .error err => .error err
  | .ok tokenString => .ok tokenString

/-- `extractToken(r)`. The Go code compares and slices bytes; since `"Bearer "` is seven
one-byte characters, the test and the slice agree with their character-wise reading. -/
def extractToken (r : Request) : String :=
  let tokenString := r.HeaderGet "Authorization"
  if tokenString.data.length > 7 ∧ tokenString.data.take 7 = "Bearer ".data then
    String.mk (tokenString.data.drop 7)
  else
    match r.Cookie "token" with
    | some value => value
    | none => ""

/-- The key function that `JwtVerify` hands to `jwt.Parse` (lines 141-146). -/
def jwtVerifyKeyFunc (jwtKey : Key) (token : Token) : Except String Key :=
  if !token.Method.isHMAC then
    .error ("beklenmeyen imza metodu: " ++ token.Method.Alg)
  else
    .ok jwtKey

/-- What `JwtVerify` reads from its environment. -/
structure Env where
  /-- The package variable `jwtKey`. -/
  jwtKey : Key
  /-- The function `jwt.Parse`. -/
  parse : String → (Token → Except String Key) → ParseResult
  /-- The reading `time.Now()` of line 166. -/
  now : Time
  /-- The result of `QueryRow(...).Scan(&exists)`: an error or the flag. -/
  userExists : Int → String → Except String Bool

/-- The expiry re-check of lines 165-169: the `exp` claim is a `float64` and the current
Unix second is greater than `int64(exp)`. The clock is read only when the claim is a
`float64`. -/
def tokenExpired (now : Time) (claims : MapClaims) : Bool :=
  match (claims.get "exp").asFloat64 with
  | some exp => decide (now.Unix > int64OfFloat64 exp)
  | none => false

/-- The flag of line 173, `isGuest, _ := claims["is_guest"].(bool)`. -/
def isGuestClaim (claims : MapClaims) : Bool :=
  ((claims.get "is_guest").asBool).getD false

/-- The context built for a guest (lines 176-178). -/
def guestContext (r : Request) (claims : MapClaims) : Context :=
  let ctx := r.ctx.WithValue "userID" (claims.get "user_id")
  let ctx := ctx.WithValue "username" (.string "guest")
  ctx.WithValue "is_guest" (.bool true)

/-- The context built for a member (lines 200-202). -/
def userContext (r : Request) (userID : Int) (username : String) : Context :=
  let ctx := r.ctx.WithValue "userID" (.int userID)
  let ctx := ctx.WithValue "username" (.string username)
  ctx.WithValue "is_guest" (.bool false)

/-- The handler returned by `JwtVerify(next)`, run on the request `r` with the revocation
store `store`. -/
def JwtVerify (env : Env) (store : TokenMap) (r : Request) : List Effect :=
  let tokenString := extractToken r
  if tokenString = "" then
    [SendError StatusUnauthorized "Token bulunamadı"]
  else if IsTokenBlacklisted store tokenString then
    [SendError StatusUnauthorized "Token geçersiz kılınmış"]
  else
    let res := env.parse tokenString (jwtVerifyKeyFunc env.jwtKey)
    Effect.parse tokenString ::
    match res.err with
    | some _ => [SendError StatusUnauthorized "Geçersiz token"]
    | none =>
      match res.token with
      | none => [Effect.panic "nil pointer dereference"]
      | some token =>
        if !token.Valid then
          [SendError StatusUnauthorized "Token geçersiz"]
        else
          match token.Claims with
          | .other => [SendError StatusUnauthorized "Token içeriği geçersiz"]
          | .map claims =>
            if tokenExpired env.now claims then
              [SendError StatusUnauthorized "Token süresi dolmuş"]
            else
              let isGuest := isGuestClaim claims
              if isGuest then
                [Effect.next (guestContext r claims)]
              else
                match (claims.get "user_id").asFloat64 with
                | none => [Effect.panic "interface conversion: user_id is not float64"]
                | some uid =>
                  let userID := int64OfFloat64 uid
                  match (claims.get "username").asString with
                  | none => [Effect.panic "interface conversion: username is not string"]
                  | some username =>
                    Effect.queryUser userID username ::
                    match env.userExists userID username with
                    | .error _ =>
                      [SendError StatusUnauthorized "Kullanıcı bulunamadı veya pasif durumda"]
                    | .ok false =>
                      [SendError StatusUnauthorized "Kullanıcı bulunamadı veya pasif durumda"]
                    | .ok true =>
                      [Effect.next (userContext r userID username)]

/-- The request carries a non-empty, non-revoked token for which `jwt.Parse` returns, without
error, a valid token with the map claims `claims`: `JwtVerify` gets to line 164. -/
def ReachesClaims (env : Env) (store : TokenMap) (r : Request) (claims : MapClaims) : Prop :=
  extractToken r ≠ "" ∧ IsTokenBlacklisted store (extractToken r) = false ∧
    ∃ t, (env.parse (extractToken r) (jwtVerifyKeyFunc env.jwtKey)).err = none ∧
      (env.parse (extractToken r) (jwtVerifyKeyFunc env.jwtKey)).token = some t ∧
      t.Valid = true ∧ t.Claims = .map claims

/-- The token `t`, revoked until `exp`, has an entry and every entry under the key `t`
records `exp`. -/
def RevokedUntil (m : TokenMap) (t : String) (exp : Time) : Prop :=
  mapLookup m t = some exp ∧ ∀ e ∈ m, e.1 = t → e.2 = exp

/-- The environment of `JwtVerify` with the library's `jwt.Parse`, whose clock reading is
`nowParse` (Unix seconds). -/
def libEnv (c : Codec) (jwtKey : Key) (nowParse : Int) (now : Time)
    (userExists : Int → String → Except String Bool) : Env :=
  ⟨jwtKey, jwtParse c nowParse, now, userExists⟩

/-! ## Sample data -/

/-- A token as a codec knows it: the string, and the method, claims and key it was signed
with. -/
structure Issued where
  tokenString : String
  method : SigningMethod
  claims : MapClaims
  key : Key

/-- The codec that knows exactly the tokens of `issued`: signing hands out the string of the
matching entry, decoding returns the method and the claims of the entry after the JSON round
trip, and a signature verifies under the method and key of the entry only. -/
def registryCodec (issued : List Issued) : Codec where
  decodeSegments := fun s =>
    (issued.find? (fun i => decide (i.tokenString = s))).map
      (fun i => (i.method, i.claims.roundTrip))
  verify := fun m s key =>
    issued.any (fun i => decide (i.tokenString = s ∧ i.method = m ∧ i.key = key))
  signedString := fun m claims key =>
    match issued.find? (fun i => decide (i.method = m ∧ i.claims = claims ∧ i.key = key)) with
    | some i => .ok i.tokenString
    | none => .error "key is invalid"

/-- A process secret. -/
def demoKey : Key := "secret"

/-- Three tokens signed with the process secret at second 1000: the one of
`GenerateJWT(42, "alice")`, the one of `GenerateJWT(9007199254740993, "bob")` (the user id
is `2^53 + 1`), and one with the claims of the first but signed with HS384; and an unsigned
token (header `alg: none`, empty signature segment) with the claims of the first. -/
def demoIssued : List Issued :=
  [⟨"aGRy.YWxpY2U.c2ln", .HS256,
      userClaims (timeUnix 1000) (timeUnix 1000) "jti-1" 42 "alice", demoKey⟩,
   ⟨"aGRy.YmlnaWQ.c2ln", .HS256,
      userClaims (timeUnix 1000) (timeUnix 1000) "jti-2" 9007199254740993 "bob", demoKey⟩,
   ⟨"aDM4.YWxpY2U.c2ln", .HS384,
      userClaims (timeUnix 1000) (timeUnix 1000) "jti-3" 42 "alice", demoKey⟩,
   ⟨"bm9u.YWxpY2U.", .unsecured,
      userClaims (timeUnix 1000) (timeUnix 1000) "jti-4" 42 "alice", ""⟩]

/-- The codec of the sample tokens. -/
def demoCodec : Codec := registryCodec demoIssued

/-- A request that carries `token` in the header `Authorization: Bearer <token>`. -/
def bearerRequest (token : String) : Request :=
  ⟨[("Authorization", "Bearer " ++ token)], [], []⟩

/-- The request with the header `Authorization: Bearer not-a-jwt`. -/
def bearerNotAJwt : Request := bearerRequest "not-a-jwt"

/-- A user store whose only row is `(userID, username)`. -/
def singleUserStore (userID : Int) (username : String) : Int → String → Except String Bool :=
  fun id name => .ok (decide (id = userID ∧ name = username))

/-- The codec reads back the token `tok` that it issued for the method, claims and key: the
string has three segments, decodes to the method and to the claims after the JSON round
trip, and its signature verifies under the key. -/
def Codec.ReadsBack (c : Codec) (m : SigningMethod) (claims : MapClaims) (key : Key)
    (tok : String) : Prop :=
  (splitDots tok.data).length = 3 ∧
    c.decodeSegments tok = some (m, claims.roundTrip) ∧
    c.verify m tok key = true

/-! ## The role middleware (`middleware/auth_middleware.go`) -/

/-- `http.StatusForbidden`. -/
def StatusForbidden : Nat := 403

/-- `http.StatusInternalServerError`. -/
def StatusInternalServerError : Nat := 500

/-- The effect is a role query. -/
def Effect.isRoleQuery : Effect → Bool
  | .queryRoles _ => true
  | _ => false

/-- The effect is a `Set-Cookie` header. -/
def Effect.isSetCookie : Effect → Bool
  | .setCookie _ => true
  | _ => false

/-- The status code of a written response. -/
def Effect.status : Effect → Option Nat
  | .write _ statusCode _ => some statusCode
  | _ => none

/-- The rows of a query as the loop `for rows.Next()` meets them: the rows that
`rows.Next()` delivers, each of which `rows.Scan(&role)` reads as a role name or fails to
read, and the error `rows.Err()` with which the iteration ended, if any. `rows.Next()`
returns false at the end of the rows and also when reading them fails. -/
structure RoleRows where
  rows : List (Except String String)
  err : Option String

/-- What the role store answers to the query of `RequireAdmin`: the error of `pool.Query`,
or the rows. -/
abbrev RoleStore := Int → Except String RoleRows

/-- `RequireNonGuest(next)`, run on the request `r`. -/
def RequireNonGuest (r : Request) : List Effect :=
  match (r.ctx.Value "is_guest").asBool with
  | some false => [Effect.next r.ctx]
  | _ => [SendError StatusForbidden "Bu işlem için üye girişi yapmanız gerekmektedir"]

/-- The loop of `RequireAdmin` over the rows (lines 49-60): a row that cannot be read ends
the handler with an error, the first row `"Admin"` ends the loop with the flag set, and the
end of the rows leaves the flag unset. -/
def scanRoles : List (Except String String) → Except String Bool
  | [] => .ok false
  | .error e :: _ => .error e
  | .ok role :: rest => if role = "Admin" then .ok true else scanRoles rest

/-- `RequireAdmin(next)`, run on the request `r` with the role store `roles`. The handler
never calls `rows.Err()`: the field `err` of the rows is not read. -/
def RequireAdmin (roles : RoleStore) (r : Request) : List Effect :=
  match (r.ctx.Value "is_guest").asBool with
  | some false =>
    match (r.ctx.Value "userID").asInt with
    | none => [Effect.panic "interface conversion: userID is not int"]
    | some userID =>
      Effect.queryRoles userID ::
      match roles userID with
      | .error _ =>
        [SendError StatusInternalServerError "Kullanıcı rolleri kontrol edilirken hata oluştu"]
      | .ok res =>
        match scanRoles res.rows with
        | .error _ => [SendError StatusInternalServerError "Rol bilgisi okunurken hata"]
        | .ok isAdmin =>
          if !isAdmin then
            [SendError StatusForbidden "Bu işlem için admin yetkisi gerekmektedir"]
          else
            [Effect.next r.ctx]
  | _ => [SendError StatusForbidden "Bu işlem için üye girişi yapmanız gerekmektedir"]

/-! ## Guest tokens and logout (`auth.go`, lines 93-111 and 208-233) -/

/-- The claims literal of `GenerateGuestJWT` (lines 94-103). The two fresh UUIDs and the two
calls of `time.Now()` are arguments. -/
def guestClaims (nowExp nowIat : Time) (guestUuid jti : String) : MapClaims :=
  [("user_id", .string ("guest_" ++ guestUuid)),
   ("username", .string "guest"),
   ("is_guest", .bool true),
   ("exp", .int64 (nowExp.Add (timeHour * 24)).Unix),
   ("iat", .int64 nowIat.Unix),
   ("jti", .string jti)]

/-- A value of `uuid.New()` (`github.com/google/uuid`): sixteen bytes. -/
abbrev UUID := Fin 16 → Fin 256

/-- A hexadecimal digit in lower case. -/
def hexDigit (n : Nat) : Char := "0123456789abcdef".data.getD n '0'

/-- The two hexadecimal digits of a byte. -/
def hexByte (b : Fin 256) : List Char := [hexDigit (b.val / 16), hexDigit (b.val % 16)]

/-- `UUID.String()`: the form `xxxxxxxx-xxxx-xxxx-xxxx-xxxxxxxxxxxx` of the sixteen bytes. -/
def uuidString (u : UUID) : String :=
  String.mk (hexByte (u 0) ++ hexByte (u 1) ++ hexByte (u 2) ++ hexByte (u 3) ++ ['-'] ++
    hexByte (u 4) ++ hexByte (u 5) ++ ['-'] ++ hexByte (u 6) ++ hexByte (u 7) ++ ['-'] ++
    hexByte (u 8) ++ hexByte (u 9) ++ ['-'] ++ hexByte (u 10) ++ hexByte (u 11) ++
    hexByte (u 12) ++ hexByte (u 13) ++ hexByte (u 14) ++ hexByte (u 15))

/-- `GenerateGuestJWT()`. The two values of `uuid.New()` (for the guest id and for `jti`)
and the two calls of `time.Now()` are arguments. -/
def GenerateGuestJWT (c : Codec) (jwtKey : Key) (nowExp nowIat : Time)
    (guestUuid jti : UUID) : Except String String :=
  let claims := guestClaims nowExp nowIat (uuidString guestUuid) (uuidString jti)
  match c.signedString .HS256 claims jwtKey with
  | .error err => .error err
  | .ok tokenString => .ok tokenString

/-- The key function that `Logout` hands to `jwt.Parse` (lines 211-213). -/
def logoutKeyFunc (jwtKey : Key) (_token : Token) : Except String Key :=
  .ok jwtKey

/-- The cookie that `Logout` sets (lines 223-229). -/
def clearedCookie : HttpCookie :=
  { Name := "token", Value := "", Path := "/", MaxAge := -1, HttpOnly := true }

/-- The store after the body of `if err == nil && token.Valid` (lines 215-220); `none` when
the unchecked accesses of that body panic. -/
def logoutStore (store : TokenMap) (tokenString : String) (res : ParseResult) :
    Option TokenMap :=
  match res.err with
  | some _ => some store
  | none =>
    match res.token with
    | none => none
    | some token =>
      if token.Valid then
        match token.Claims with
        | .other => none
        | .map claims =>
          match (claims.get "exp").asFloat64 with
          | some exp => some (BlacklistToken store tokenString (timeUnix (int64OfFloat64 exp)))
          | none => some store
      else some store

/-- `Logout(w, r)`, run on the request `r` with the revocation store `store`: the store
afterwards and the effects. -/
def Logout (env : Env) (store : TokenMap) (r : Request) : TokenMap × List Effect :=
  let tokenString := extractToken r
  if tokenString ≠ "" then
    let res := env.parse tokenString (logoutKeyFunc env.jwtKey)
    match logoutStore store tokenString res with
    | none => (store, [Effect.parse tokenString, Effect.panic "invalid memory or interface"])
    | some store' =>
      (store', [Effect.parse tokenString, Effect.setCookie clearedCookie,
        SendSuccess "Başarıyla çıkış yapıldı" .nil])
  else
    (store, [SendSuccess "Başarıyla çıkış yapıldı" .nil])

/-! ## Sample data for the guest branch, the role middleware and logout -/

/-- The token of `GenerateGuestJWT()` issued at second 1000, and a token with the same
claims but for the member name `"mallory"` in the claim `username`. -/
def demoGuestIssued : List Issued :=
  [⟨"aGRy.Z3Vlc3Q.c2ln", .HS256,
      guestClaims (timeUnix 1000) (timeUnix 1000) "u-1" "jti-5", demoKey⟩,
   ⟨"aGRy.bWFsbG9yeQ.c2ln", .HS256,
      [("user_id", .string "guest_u-2"), ("username", .string "mallory"),
       ("is_guest", .bool true), ("exp", .int64 87400), ("iat", .int64 1000)], demoKey⟩]

/-- The codec of the sample tokens, the guest tokens included. -/
def demoGuestCodec : Codec := registryCodec (demoIssued ++ demoGuestIssued)

/-- A request that carries `token` in the cookie `token` and no `Authorization` header. -/
def cookieRequest (token : String) : Request :=
  ⟨[], [("token", token)], []⟩

/-- A request without `Authorization` header and without cookies. -/
def bareRequest : Request := ⟨[], [], []⟩

/-- A request whose context is the one that `JwtVerify` builds for the member
`(userID, username)`. -/
def memberRequest (userID : Int) (username : String) : Request :=
  ⟨[], [], userContext bareRequest userID username⟩

/-- A role store that answers every query with the same role names, read to the end
without error. -/
def constRoles (names : List String) : RoleStore :=
  fun _ => .ok ⟨names.map Except.ok, none⟩

/-- A user store that is down: every query returns an error. -/
def failingUserStore : Int → String → Except String Bool :=
  fun _ _ => .error "connection refused"

/-! ## The question filter of `GetQuestions` (`handlers/question_handler.go`, lines 79-146) -/

/-- `fmt.Sprintf(format, n, ..., n)` for a format whose verbs are all `$%d`: the pieces of
the format between the verbs, joined by `$` and the decimal digits of `n`. -/
def sprintfPlaceholder (pieces : List String) (n : Nat) : String :=
  String.intercalate ("$" ++ toString n) pieces

/-- The pieces of the format of the search condition (line 106). -/
def searchFormat : List String :=
  ["(q.path_url ILIKE ", " OR q.solution_url ILIKE ", ")"]

/-- The pieces of the format of the sub-category condition (lines 113-119). -/
def subCategoryFormat : List String :=
  ["\n\t\t\tEXISTS (\n\t\t\t\tSELECT 1 FROM question_categories qc \n\t\t\t\tWHERE qc.question_id = q.id AND qc.category_id IN (\n\t\t\t\t\tSELECT id FROM categories WHERE sub_category_id = ", "\n\t\t\t\t)\n\t\t\t)"]

/-- The pieces of the format of the category condition (lines 126-130). -/
def categoryFormat : List String :=
  ["\n\t\t\tEXISTS (\n\t\t\t\tSELECT 1 FROM question_categories qc \n\t\t\t\tWHERE qc.question_id = q.id AND qc.category_id = ", "\n\t\t\t)"]

/-- The pieces of the format of the difficulty condition (line 137). -/
def difficultyFormat : List String :=
  ["q.difficulty_level = ", ""]

/-- The local variables `conditions`, `args` and `argCount` of `GetQuestions`. -/
structure FilterState where
  conditions : List String
  args : List String
  argCount : Nat
  deriving DecidableEq

/-- One of the four blocks `if value != "" ...` of `GetQuestions`: append the condition,
append the argument, increment `argCount`. -/
def addFilter (st : FilterState) (value : String) (format : List String) (arg : String) :
    FilterState :=
  if value ≠ "" then
    ⟨st.conditions ++ [sprintfPlaceholder format st.argCount], st.args ++ [arg],
      st.argCount + 1⟩
  else st

/-- The conditions and arguments that `GetQuestions` builds from the query parameters
`search`, `sub_category_id`, `category_id` and `difficulty` (lines 100-140). -/
def questionFilter (search subCategoryID categoryID difficulty : String) : FilterState :=
  let st : FilterState := ⟨[], [], 1⟩
  let st := addFilter st search searchFormat ("%" ++ search ++ "%")
  let st := addFilter st subCategoryID subCategoryFormat subCategoryID
  let st := addFilter st categoryID categoryFormat categoryID
  addFilter st difficulty difficultyFormat difficulty

/-- The literal `baseQuery` (lines 86-98). -/
def baseQuery : String :=
  "\n\t\tSELECT q.id, q.path_url, q.answer, q.popularity, \n\t\t\t   q.created_user_id, q.updated_user_id, q.solution_url, \n\t\t\t   q.publisher_id, q.difficulty_level,\n\t\t\t   q.created_at, q.updated_at,\n\t\t\t   COALESCE(\n\t\t\t\t   (SELECT json_agg(qc.category_id)\n\t\t\t\t\tFROM question_categories qc\n\t\t\t\t\tWHERE qc.question_id = q.id), \n\t\t\t\t   '[]'::json\n\t\t\t   ) as categories\n\t\tFROM public.questions q\n\t\tWHERE 1=1"

/-- The query text that `GetQuestions` sends (lines 142-146). -/
def questionsQuery (search subCategoryID categoryID difficulty : String) : String :=
  let st := questionFilter search subCategoryID categoryID difficulty
  let q := if st.conditions.length > 0 then
      baseQuery ++ " AND " ++ String.intercalate " AND " st.conditions
    else baseQuery
  q ++ " ORDER BY q.id DESC"

/-- A filter of `GetQuestions` as the claim describes it: the format of its condition and
the argument it binds, present when its value is not empty. -/
def filterEntry (value : String) (format : List String) (arg : String) :
    List (List String × String) :=
  if value ≠ "" then [(format, arg)] else []

/-- The filters that are set, in the fixed order search, sub-category, category,
difficulty. -/
def activeFilters (search subCategoryID categoryID difficulty : String) :
    List (List String × String) :=
  filterEntry search searchFormat ("%" ++ search ++ "%") ++
    filterEntry subCategoryID subCategoryFormat subCategoryID ++
    filterEntry categoryID categoryFormat categoryID ++
    filterEntry difficulty difficultyFormat difficulty

/-- The conditions as the claim describes them: the condition of the `i`-th filter that is
set is its format with the placeholder `$i`, counting from 1. -/
def numberedConditions (start : Nat) : List (List String × String) → List String
  | [] => []
  | f :: rest => sprintfPlaceholder f.1 start :: numberedConditions (start + 1) rest

/-! ## The role handlers (`handlers/user_handler.go`, lines 75-225) -/

/-- What a handler of `user_handler.go` does, in order. -/
inductive HandlerEffect where
  /-- The call `pool.Begin`. -/
  | dbBegin
  /-- A call of `Exec` with the statement and its arguments. -/
  | dbExec (sql : String) (args : List GoVal)
  /-- A call of `QueryRow(...).Scan` with the statement and its arguments. -/
  | dbQueryRow (sql : String) (args : List GoVal)
  /-- The call `tx.Commit`. -/
  | dbCommit
  /-- The deferred call `tx.Rollback`. -/
  | dbRollback
  /-- A response written by `utils.SendResponse`. -/
  | respond (response : Effect)
  deriving DecidableEq

/-- The effect is a database operation. -/
def HandlerEffect.isDb : HandlerEffect → Bool
  | .respond _ => false
  | _ => true

/-- What the database answers to the role handlers. -/
structure RoleDb where
  /-- The error of `pool.Begin`, if any. -/
  begin : Option String
  /-- The error of an `Exec`, if any. -/
  exec : String → List GoVal → Option String
  /-- The result of `SELECT id FROM public.roles WHERE name = $1` scanned into `roleID`. -/
  roleID : String → Except String Int
  /-- The error of `tx.Commit`, if any. -/
  commit : Option String

/-- `http.StatusBadRequest`. -/
def StatusBadRequest : Nat := 400

/-- `http.StatusNotFound`. -/
def StatusNotFound : Nat := 404

/-- The statement that deletes the roles of a user other than `User` (lines 104-110). -/
def deleteRolesSql : String :=
  "\n\t\tDELETE FROM public.users_roles \n\t\tWHERE user_id = $1 \n\t\tAND role_id IN (\n\t\t\tSELECT id FROM public.roles \n\t\t\tWHERE name != 'User'\n\t\t)"

/-- The statement that looks a role up by name. -/
def selectRoleSql : String := "SELECT id FROM public.roles WHERE name = $1"

/-- The statement that assigns a role to a user. -/
def insertRoleSql : String :=
  "INSERT INTO public.users_roles (user_id, role_id) VALUES ($1, $2)"

/-- The statement that takes a role from a user. -/
def deleteRoleSql : String :=
  "DELETE FROM public.users_roles WHERE user_id = $1 AND role_id = $2"

/-- The loop of lines 88-93: some element of the list is `"User"`. -/
def hasUserRole : List String → Bool
  | [] => false
  | role :: rest => if role = "User" then true else hasUserRole rest

/-- The loop of lines 117-133 followed by the commit (lines 135-140), inside the
transaction. -/
def insertRoles (db : RoleDb) (userID : String) : List String → List HandlerEffect
  | [] =>
    .dbCommit ::
    match db.commit with
    | some _ =>
      [.respond (SendError StatusInternalServerError "Error committing transaction")]
    | none => [.respond (SendSuccess "User roles updated successfully" .nil)]
  | roleName :: rest =>
    .dbQueryRow selectRoleSql [.string roleName] ::
    match db.roleID roleName with
    | .error _ => [.respond (SendError StatusBadRequest ("Invalid role: " ++ roleName))]
    | .ok roleID =>
      .dbExec insertRoleSql [.string userID, .int roleID] ::
      match db.exec insertRoleSql [.string userID, .int roleID] with
      | some _ =>
        [.respond (SendError StatusInternalServerError ("Error assigning role: " ++ roleName))]
      | none => insertRoles db userID rest

/-- `UpdateUserRoles`, run with the URL parameter `userId` and the result of decoding the
request body into the list `roles`. -/
def UpdateUserRoles (db : RoleDb) (userID : String) (body : Except String (List String)) :
    List HandlerEffect :=
  match body with
  | .error _ => [.respond (SendError StatusBadRequest "Invalid request body")]
  | .ok roles =>
    if hasUserRole roles then
      [.respond (SendError StatusForbidden "Cannot modify User role")]
    else
      .dbBegin ::
      match db.begin with
      | some _ =>
        [.respond (SendError StatusInternalServerError "Error starting transaction")]
      | none =>
        (.dbExec deleteRolesSql [.string userID] ::
          match db.exec deleteRolesSql [.string userID] with
          | some _ =>
            [.respond (SendError StatusInternalServerError "Error removing existing roles")]
          | none => insertRoles db userID roles) ++ [.dbRollback]

/-- `AddUserRole`, run with the URL parameter `userId` and the result of decoding the
request body into `role_name`. -/
def AddUserRole (db : RoleDb) (userID : String) (body : Except String String) :
    List HandlerEffect :=
  match body with
  | .error _ => [.respond (SendError StatusBadRequest "Invalid request body")]
  | .ok roleName =>
    if roleName = "User" then
      [.respond (SendError StatusForbidden "Cannot modify User role")]
    else
      .dbQueryRow selectRoleSql [.string roleName] ::
      match db.roleID roleName with
      | .error _ => [.respond (SendError StatusNotFound "Role not found")]
      | .ok roleID =>
        .dbExec insertRoleSql [.string userID, .int roleID] ::
        match db.exec insertRoleSql [.string userID, .int roleID] with
        | some _ => [.respond (SendError StatusInternalServerError "Error adding role")]
        | none => [.respond (SendSuccess "Role added successfully" .nil)]

/-- `RemoveUserRole`, run with the URL parameter `userId` and the result of decoding the
request body into `role_name`. -/
def RemoveUserRole (db : RoleDb) (userID : String) (body : Except String String) :
    List HandlerEffect :=
  match body with
  | .error _ => [.respond (SendError StatusBadRequest "Invalid request body")]
  | .ok roleName =>
    if roleName = "User" then
      [.respond (SendError StatusForbidden "Cannot remove User role")]
    else
      .dbQueryRow selectRoleSql [.string roleName] ::
      match db.roleID roleName with
      | .error _ => [.respond (SendError StatusNotFound "Role not found")]
      | .ok roleID =>
        .dbExec deleteRoleSql [.string userID, .int roleID] ::
        match db.exec deleteRoleSql [.string userID, .int roleID] with
        | some _ => [.respond (SendError StatusInternalServerError "Error removing role")]
        | none => [.respond (SendSuccess "Role removed successfully" .nil)]

/-- A role database that accepts everything and knows every role under the id 7. -/
def permissiveRoleDb : RoleDb :=
  ⟨none, fun _ _ => none, fun _ => .ok 7, none⟩

/-! ## The store as explicit state, and issue-time claims -/

/-- `IsTokenBlacklisted(tokenString)` with the store it leaves: the answer and the store
after the call. The function only reads the map. -/
def IsTokenBlacklistedSt (m : TokenMap) (tokenString : String) : Bool × TokenMap :=
  (IsTokenBlacklisted m tokenString, m)

/-- The `int64` that a claim value was issued with. -/
def GoVal.asInt64 : GoVal → Option Int
  | .int64 n => some n
  | _ => none

/-- The codec that knows one token of `GenerateJWT(42, "alice")`, issued with the clock
reading for `exp` one nanosecond before second 1001 and the reading for `iat` at second
1001. -/
def straddleCodec : Codec :=
  registryCodec
    [⟨"aGRy.c3RyYWRkbGU.c2ln", .HS256,
      userClaims 1000999999999 1001000000000 "jti-6" 42 "alice", demoKey⟩]

/-- Sixteen sample bytes for a guest id. -/
def demoUuid : UUID := fun i => ⟨(i.val * 37 + 11) % 256, Nat.mod_lt _ (by decide)⟩

/-- Sixteen sample bytes for a `jti`. -/
def demoJtiUuid : UUID := fun i => ⟨(i.val * 91 + 5) % 256, Nat.mod_lt _ (by decide)⟩

/-- The codec that knows the token of `GenerateJWT(42, "alice")` and the token of
`GenerateGuestJWT()` for the sample UUIDs, both issued at second 1000. -/
def issuedCodec : Codec :=
  registryCodec
    [⟨"aGRy.YWxpY2U.c2ln", .HS256,
        userClaims (timeUnix 1000) (timeUnix 1000) "jti-1" 42 "alice", demoKey⟩,
     ⟨"aGRy.Z3V1aWQ.c2ln", .HS256,
        guestClaims (timeUnix 1000) (timeUnix 1000) (uuidString demoUuid)
          (uuidString demoJtiUuid), demoKey⟩]

/-! ## Lemmas on the map -/

theorem mapLookup_eq_none_iff (m : TokenMap) (k : String) :
    mapLookup m k = none ↔ ∀ e ∈ m, e.1 ≠ k := by
  induction m with
  | nil => simp [mapLookup]
  | cons e rest ih =>
    by_cases h : e.1 = k
    · simp [mapLookup, h]
    · simp [mapLookup, h, ih]

theorem mapLookup_mem (m : TokenMap) (k : String) (v : Time) (h : mapLookup m k = some v) :
    (k, v) ∈ m := by
  induction m with
  | nil => simp [mapLookup] at h
  | cons e rest ih =>
    by_cases hk : e.1 = k
    · simp [mapLookup, hk] at h
      have : e = (k, v) := by
        cases e; simp_all
      simp [this]
    · simp [mapLookup, hk] at h
      exact List.mem_cons_of_mem _ (ih h)

theorem mapLookup_mapDelete_self (m : TokenMap) (k : String) :
    mapLookup (mapDelete m k) k = none := by
  rw [mapLookup_eq_none_iff]
  intro e he
  simp [mapDelete] at he
  exact he.2

theorem mapDelete_cons (e : String × Time) (rest : TokenMap) (k : String) :
    mapDelete (e :: rest) k = if e.1 = k then mapDelete rest k else e :: mapDelete rest k := by
  by_cases h : e.1 = k <;> simp [mapDelete, h]

theorem mapLookup_mapDelete_of_ne (m : TokenMap) (k k' : String) (h : k' ≠ k) :
    mapLookup (mapDelete m k') k = mapLookup m k := by
  induction m with
  | nil => simp [mapDelete, mapLookup]
  | cons e rest ih =>
    rw [mapDelete_cons]
    by_cases he : e.1 = k'
    · have hne : e.1 ≠ k := by rw [he]; exact h
      rw [if_pos he, ih]
      simp [mapLookup, hne]
    · rw [if_neg he]
      by_cases hk : e.1 = k
      · simp [mapLookup, hk]
      · simp [mapLookup, hk, ih]

theorem mapLookup_mapSet_self (m : TokenMap) (k : String) (v : Time) :
    mapLookup (mapSet m k v) k = some v := by
  simp [mapSet, mapLookup]

theorem mapLookup_mapSet_of_ne (m : TokenMap) (k k' : String) (v : Time) (h : k' ≠ k) :
    mapLookup (mapSet m k' v) k = mapLookup m k := by
  simp [mapSet, mapLookup, h, mapLookup_mapDelete_of_ne m k k' h]

/-- The loop of `cleanupBlacklistedTokens` over the entries `l`, started on `acc`, keeps the
entries of `acc` whose key no entry of `l` that `now` is after carries. -/
theorem cleanup_foldl (now : Time) (l acc : TokenMap) :
    l.foldl (fun acc e => if now.After e.2 then mapDelete acc e.1 else acc) acc
      = acc.filter (fun x => l.all (fun e => !(now.After e.2 && decide (e.1 = x.1)))) := by
  induction l generalizing acc with
  | nil => simp
  | cons e rest ih =>
    rw [List.foldl_cons, ih]
    by_cases h : now.After e.2 = true
    · simp only [h, if_true, mapDelete, List.filter_filter, List.all_cons, Bool.true_and]
      congr 1
      funext x
      by_cases hx : e.1 = x.1
      · simp [hx]
      · have hx' : ¬ x.1 = e.1 := fun h => hx h.symm
        simp [hx, hx', Bool.and_comm]
    · simp only [Bool.not_eq_true] at h
      simp [h]

theorem mem_cleanup (now : Time) (m : TokenMap) (x : String × Time) :
    x ∈ cleanupBlacklistedTokens now m ↔
      x ∈ m ∧ ∀ e ∈ m, now.After e.2 = true → e.1 ≠ x.1 := by
  simp only [cleanupBlacklistedTokens, cleanup_foldl, List.mem_filter, List.all_eq_true]
  constructor
  · rintro ⟨hx, h⟩
    refine ⟨hx, fun e he ha => ?_⟩
    have := h e he
    simpa [ha] using this
  · rintro ⟨hx, h⟩
    refine ⟨hx, fun e he => ?_⟩
    by_cases ha : now.After e.2 = true
    · simp [ha, h e he ha]
    · simp only [Bool.not_eq_true] at ha
      simp [ha]

theorem mapLookup_filter_of_key (m : TokenMap) (k : String) (p : String × Time → Bool)
    (h : ∀ e ∈ m, e.1 = k → p e = true) :
    mapLookup (m.filter p) k = mapLookup m k := by
  induction m with
  | nil => simp [mapLookup]
  | cons e rest ih =>
    have ih' := ih (fun x hx => h x (List.mem_cons_of_mem _ hx))
    by_cases hk : e.1 = k
    · have hp : p e = true := h e (List.mem_cons_self _ _) hk
      simp [List.filter_cons, hp, mapLookup, hk]
    · by_cases hp : p e = true
      · simp [List.filter_cons, hp, mapLookup, hk, ih']
      · simp [List.filter_cons, hp, mapLookup, hk, ih']

theorem mapLookup_filter_none (m : TokenMap) (k : String) (p : String × Time → Bool)
    (h : mapLookup m k = none) : mapLookup (m.filter p) k = none := by
  rw [mapLookup_eq_none_iff] at h ⊢
  intro e he
  exact h e (List.mem_of_mem_filter he)

theorem cleanup_eq_filter (now : Time) (m : TokenMap) :
    cleanupBlacklistedTokens now m
      = m.filter (fun x => m.all (fun e => !(now.After e.2 && decide (e.1 = x.1)))) := by
  simp [cleanupBlacklistedTokens, cleanup_foldl]

/-- A cleanup deletes the key whose recorded expiry the clock reading is after. -/
theorem mapLookup_cleanup_expired (now : Time) (m : TokenMap) (t : String) (exp : Time)
    (h : mapLookup m t = some exp) (hnow : now.After exp = true) :
    mapLookup (cleanupBlacklistedTokens now m) t = none := by
  rw [mapLookup_eq_none_iff]
  intro x hx hxt
  rw [mem_cleanup] at hx
  exact hx.2 (t, exp) (mapLookup_mem m t exp h) hnow hxt.symm

/-- A mutation that does not revoke `t` leaves `t` absent. -/
theorem mapLookup_apply_none (m : TokenMap) (t : String) (op : StoreOp)
    (h : mapLookup m t = none) (hop : op.notRevoking t = true) :
    mapLookup (op.apply m) t = none := by
  cases op with
  | blacklist t' e =>
    have hne : t' ≠ t := by simpa [StoreOp.notRevoking] using hop
    simp only [StoreOp.apply, BlacklistToken]
    rw [mapLookup_mapSet_of_ne m t t' e hne]; exact h
  | cleanup now =>
    simp only [StoreOp.apply]
    rw [cleanup_eq_filter]
    exact mapLookup_filter_none m t _ h

theorem mapLookup_runOps_none (ops : List StoreOp) (m : TokenMap) (t : String)
    (h : mapLookup m t = none) (hops : ∀ op ∈ ops, op.notRevoking t = true) :
    mapLookup (runOps ops m) t = none := by
  induction ops generalizing m with
  | nil => simpa [runOps] using h
  | cons op rest ih =>
    simp only [runOps, List.foldl_cons]
    exact ih (op.apply m)
      (mapLookup_apply_none m t op h (hops op (List.mem_cons_self _ _)))
      (fun o ho => hops o (List.mem_cons_of_mem _ ho))

theorem revokedUntil_blacklist (m : TokenMap) (t : String) (exp : Time) :
    RevokedUntil (BlacklistToken m t exp) t exp := by
  refine ⟨mapLookup_mapSet_self m t exp, ?_⟩
  intro e he hk
  simp only [BlacklistToken, mapSet, List.mem_cons] at he
  rcases he with rfl | he
  · rfl
  · simp [mapDelete] at he
    exact absurd hk he.2

theorem revokedUntil_apply (m : TokenMap) (t : String) (exp : Time) (op : StoreOp)
    (h : RevokedUntil m t exp) (hop : op.spares t exp = true) :
    RevokedUntil (op.apply m) t exp := by
  obtain ⟨hl, hall⟩ := h
  cases op with
  | blacklist t' e =>
    have hne : t' ≠ t := by simpa [StoreOp.spares] using hop
    refine ⟨?_, ?_⟩
    · simp only [StoreOp.apply, BlacklistToken]
      rw [mapLookup_mapSet_of_ne m t t' e hne]; exact hl
    · intro x hx hk
      simp only [StoreOp.apply, BlacklistToken, mapSet, List.mem_cons] at hx
      rcases hx with rfl | hx
      · exact absurd hk hne
      · simp only [mapDelete] at hx
        exact hall x (List.mem_of_mem_filter hx) hk
  | cleanup now =>
    have hna : now.After exp = false := by simpa [StoreOp.spares] using hop
    simp only [StoreOp.apply]
    rw [cleanup_eq_filter]
    refine ⟨?_, ?_⟩
    · rw [mapLookup_filter_of_key m t _ ?_]
      · exact hl
      · intro x _ hxk
        rw [List.all_eq_true]
        intro e he
        by_cases hek : e.1 = x.1
        · have : e.2 = exp := hall e he (hek.trans hxk)
          simp [this, hna]
        · simp [hek]
    · intro x hx hk
      exact hall x (List.mem_of_mem_filter hx) hk

theorem revokedUntil_runOps (ops : List StoreOp) (m : TokenMap) (t : String) (exp : Time)
    (h : RevokedUntil m t exp) (hops : ∀ op ∈ ops, op.spares t exp = true) :
    RevokedUntil (runOps ops m) t exp := by
  induction ops generalizing m with
  | nil => simpa [runOps] using h
  | cons op rest ih =>
    simp only [runOps, List.foldl_cons]
    exact ih (op.apply m)
      (revokedUntil_apply m t exp op h (hops op (List.mem_cons_self _ _)))
      (fun o ho => hops o (List.mem_cons_of_mem _ ho))

/-! ## The revocation store: claims -/

/-- C1: after `BlacklistToken(t, exp)`, on any store, `IsTokenBlacklisted(t)` returns true,
and it still returns true after any sequence of `BlacklistToken` calls on other tokens and
`cleanupBlacklistedTokens` runs whose clock reading is not after `exp`. -/
theorem blacklisted_until_expiry (m : TokenMap) (t : String) (exp : Time)
    (ops : List StoreOp) (hops : ∀ op ∈ ops, op.spares t exp = true) :
    IsTokenBlacklisted (BlacklistToken m t exp) t = true ∧
      IsTokenBlacklisted (runOps ops (BlacklistToken m t exp)) t = true := by
  have h0 := revokedUntil_blacklist m t exp
  have h1 := revokedUntil_runOps ops _ t exp h0 hops
  exact ⟨by simp [IsTokenBlacklisted, h0.1], by simp [IsTokenBlacklisted, h1.1]⟩

theorem blacklisted_until_expiry_witness :
    (∀ op ∈ [StoreOp.blacklist "u" 1, StoreOp.cleanup 10, StoreOp.blacklist "v" 0,
        StoreOp.cleanup 7], op.spares "t" 10 = true) ∧
    (IsTokenBlacklisted (BlacklistToken [("u", 3), ("t", 2)] "t" 10) "t" = true ∧
      IsTokenBlacklisted (runOps [StoreOp.blacklist "u" 1, StoreOp.cleanup 10,
        StoreOp.blacklist "v" 0, StoreOp.cleanup 7]
        (BlacklistToken [("u", 3), ("t", 2)] "t" 10)) "t" = true) :=
  ⟨by decide, blacklisted_until_expiry [("u", 3), ("t", 2)] "t" 10 _ (by decide)⟩

/-- C2: when the store records `exp` for `t` (as it does right after `BlacklistToken(t, exp)`),
a `cleanupBlacklistedTokens` run whose clock reading is strictly after `exp` removes the
entry: `IsTokenBlacklisted(t)` is false afterwards, and stays false under any further
mutations that do not revoke `t` again. -/
theorem cleanup_removes_expired (m : TokenMap) (t : String) (exp now : Time)
    (ops : List StoreOp) (hnow : exp < now)
    (hops : ∀ op ∈ ops, op.notRevoking t = true) :
    IsTokenBlacklisted (cleanupBlacklistedTokens now (BlacklistToken m t exp)) t = false ∧
      IsTokenBlacklisted
        (runOps ops (cleanupBlacklistedTokens now (BlacklistToken m t exp))) t = false ∧
      (∀ m', mapLookup m' t = some exp →
        IsTokenBlacklisted (cleanupBlacklistedTokens now m') t = false) := by
  have ha : now.After exp = true := by simp [Time.After, hnow]
  have key : ∀ m', mapLookup m' t = some exp →
      mapLookup (cleanupBlacklistedTokens now m') t = none :=
    fun m' h => mapLookup_cleanup_expired now m' t exp h ha
  have h0 := key _ (mapLookup_mapSet_self m t exp)
  refine ⟨?_, ?_, ?_⟩
  · simp only [BlacklistToken, IsTokenBlacklisted, h0]; rfl
  · have := mapLookup_runOps_none ops _ t h0 hops
    simp only [BlacklistToken, IsTokenBlacklisted, this]; rfl
  · intro m' h
    simp only [IsTokenBlacklisted, key m' h]; rfl

theorem cleanup_removes_expired_witness :
    (10 : Time) < 11 ∧
    (∀ op ∈ [StoreOp.blacklist "u" 50, StoreOp.cleanup 12], op.notRevoking "t" = true) ∧
    (IsTokenBlacklisted (cleanupBlacklistedTokens 11 (BlacklistToken [("u", 30)] "t" 10)) "t"
        = false ∧
      IsTokenBlacklisted (runOps [StoreOp.blacklist "u" 50, StoreOp.cleanup 12]
        (cleanupBlacklistedTokens 11 (BlacklistToken [("u", 30)] "t" 10))) "t" = false ∧
      (∀ m', mapLookup m' "t" = some 10 →
        IsTokenBlacklisted (cleanupBlacklistedTokens 11 m') "t" = false)) :=
  ⟨by decide, by decide,
    cleanup_removes_expired [("u", 30)] "t" 10 11 _ (by decide) (by decide)⟩

/-- C3 (as stated, refuted): a state reachable from the initial one (revoke `"t"` until
second 5, then let ten seconds pass before the hourly cleanup has run) still holds the
entry of `"t"` although its recorded expiry is before the clock, and `IsTokenBlacklisted`
answers true. -/
theorem expired_entry_lingers :
    World.Reachable 0 lingeringWorld ∧
      mapLookup lingeringWorld.store "t" = some (timeUnix 5) ∧
      timeUnix 5 < lingeringWorld.clock ∧
      IsTokenBlacklisted lingeringWorld.store "t" = true := by
  refine ⟨?_, by decide, by decide, by decide⟩
  have s1 : World.Step (World.initial 0) ⟨[("t", timeUnix 5)], 0⟩ :=
    World.Step.blacklist (World.initial 0) "t" (timeUnix 5)
  have s2 : World.Step ⟨[("t", timeUnix 5)], 0⟩ lingeringWorld :=
    World.Step.tick ⟨[("t", timeUnix 5)], 0⟩ (timeUnix 10) (by decide)
  exact Relation.ReflTransGen.tail (Relation.ReflTransGen.single s1) s2

/-- C3 (amended): in every state, the state that a `cleanupBlacklistedTokens` run leaves
holds no entry whose recorded expiry is before the clock reading of that run, and
`IsTokenBlacklisted(t)` is false there for every `t` whose recorded expiry was before it.
Entries are purged by the cleanup run, not at the moment they expire. -/
theorem cleanup_purges_expired (w w' : World)
    (hstep : w' = ⟨cleanupBlacklistedTokens w.clock w.store, w.clock⟩) :
    (∀ e ∈ w'.store, ¬ e.2 < w'.clock) ∧
      (∀ t exp, mapLookup w.store t = some exp → exp < w'.clock →
        IsTokenBlacklisted w'.store t = false) := by
  subst hstep
  refine ⟨?_, ?_⟩
  · intro e he hlt
    rw [mem_cleanup] at he
    exact he.2 e he.1 (by simp [Time.After, hlt]) rfl
  · intro t exp h hlt
    have := mapLookup_cleanup_expired w.clock w.store t exp h (by simp [Time.After, hlt])
    simp only [IsTokenBlacklisted, this]; rfl

theorem cleanup_purges_expired_witness :
    ((⟨[("u", 20)], 10⟩ : World)
        = ⟨cleanupBlacklistedTokens (World.mk [("t", 5), ("u", 20)] 10).clock
            (World.mk [("t", 5), ("u", 20)] 10).store, (World.mk [("t", 5), ("u", 20)] 10).clock⟩) ∧
    ((∀ e ∈ (World.mk [("u", 20)] 10).store, ¬ e.2 < (World.mk [("u", 20)] 10).clock) ∧
      (∀ t exp, mapLookup (World.mk [("t", 5), ("u", 20)] 10).store t = some exp →
        exp < (World.mk [("u", 20)] 10).clock →
        IsTokenBlacklisted (World.mk [("u", 20)] 10).store t = false)) :=
  ⟨by decide, cleanup_purges_expired ⟨[("t", 5), ("u", 20)], 10⟩ ⟨[("u", 20)], 10⟩ (by decide)⟩

/-- C4: `IsTokenBlacklisted` is a total function that returns false for every token
without an entry: for every token on the initial store, for every token that no
`BlacklistToken` call of the history named, and for every token absent from a store. -/
theorem not_blacklisted_without_entry (ops : List StoreOp) (t : String)
    (hops : ∀ op ∈ ops, op.notRevoking t = true) :
    IsTokenBlacklisted emptyTokens t = false ∧
      IsTokenBlacklisted (runOps ops emptyTokens) t = false ∧
      (∀ m, mapLookup m t = none → IsTokenBlacklisted m t = false) := by
  refine ⟨rfl, ?_, ?_⟩
  · have := mapLookup_runOps_none ops emptyTokens t rfl hops
    simp only [IsTokenBlacklisted, this]; rfl
  · intro m h
    simp only [IsTokenBlacklisted, h]; rfl

theorem not_blacklisted_without_entry_witness :
    (∀ op ∈ [StoreOp.blacklist "a" 5, StoreOp.cleanup 3, StoreOp.blacklist "b" 1],
        op.notRevoking "t" = true) ∧
    (IsTokenBlacklisted emptyTokens "t" = false ∧
      IsTokenBlacklisted (runOps [StoreOp.blacklist "a" 5, StoreOp.cleanup 3,
        StoreOp.blacklist "b" 1] emptyTokens) "t" = false ∧
      (∀ m, mapLookup m "t" = none → IsTokenBlacklisted m "t" = false)) :=
  ⟨by decide, not_blacklisted_without_entry _ "t" (by decide)⟩

/-! ## `JwtVerify`: claims -/

/-- C5: for every request whose extracted token is non-empty and present in the revocation
store, and whatever `jwt.Parse` and the user store would answer, `JwtVerify` performs exactly
one effect, the 401 response with the revoked-token message: it does not call `jwt.Parse`,
does not query the user store and does not invoke the next handler. -/
theorem revoked_rejected_first (env : Env) (store : TokenMap) (r : Request)
    (hne : extractToken r ≠ "")
    (hrev : IsTokenBlacklisted store (extractToken r) = true) :
    JwtVerify env store r
        = [Effect.write "application/json" 401 ⟨false, "", .nil, "Token geçersiz kılınmış"⟩] ∧
      (JwtVerify env store r).any Effect.isParse = false ∧
      (JwtVerify env store r).any Effect.isQuery = false ∧
      (JwtVerify env store r).any Effect.isNext = false := by
  have h : JwtVerify env store r
      = [Effect.write "application/json" 401 ⟨false, "", .nil, "Token geçersiz kılınmış"⟩] := by
    simp [JwtVerify, hne, hrev, SendError, SendResponse, StatusUnauthorized]
  rw [h]
  simp [Effect.isParse, Effect.isQuery, Effect.isNext]

theorem revoked_rejected_first_witness :
    extractToken bearerNotAJwt ≠ "" ∧
    IsTokenBlacklisted [("not-a-jwt", timeUnix 100)] (extractToken bearerNotAJwt) = true ∧
    (JwtVerify (libEnv demoCodec demoKey 50 (timeUnix 50) (fun _ _ => .ok true))
          [("not-a-jwt", timeUnix 100)] bearerNotAJwt
        = [Effect.write "application/json" 401 ⟨false, "", .nil, "Token geçersiz kılınmış"⟩] ∧
      (JwtVerify (libEnv demoCodec demoKey 50 (timeUnix 50) (fun _ _ => .ok true))
          [("not-a-jwt", timeUnix 100)] bearerNotAJwt).any Effect.isParse = false ∧
      (JwtVerify (libEnv demoCodec demoKey 50 (timeUnix 50) (fun _ _ => .ok true))
          [("not-a-jwt", timeUnix 100)] bearerNotAJwt).any Effect.isQuery = false ∧
      (JwtVerify (libEnv demoCodec demoKey 50 (timeUnix 50) (fun _ _ => .ok true))
          [("not-a-jwt", timeUnix 100)] bearerNotAJwt).any Effect.isNext = false) :=
  ⟨by decide, by decide,
    revoked_rejected_first _ [("not-a-jwt", timeUnix 100)] bearerNotAJwt (by decide) (by decide)⟩

/-- The library's `jwt.Parse` returns no error only together with a valid token that carries
the decoded claims. -/
theorem jwtParse_ok (c : Codec) (nowParse : Int) (tok : String)
    (keyFunc : Token → Except String Key)
    (h : (jwtParse c nowParse tok keyFunc).err = none) :
    ∃ m claims key, c.decodeSegments tok = some (m, claims) ∧
      keyFunc ⟨tok, m, .map claims, false⟩ = .ok key ∧
      claims.Valid nowParse = true ∧ c.verify m tok key = true ∧
      (jwtParse c nowParse tok keyFunc).token = some ⟨tok, m, .map claims, true⟩ := by
  unfold jwtParse at h ⊢
  split at h
  · simp at h
  · rename_i hseg
    rw [if_neg hseg]
    split at h
    · simp at h
    · rename_i method claims hd
      rw [hd]
      cases hk : keyFunc ⟨tok, method, .map claims, false⟩ with
      | error e => simp [hk] at h
      | ok key =>
        simp only [hk] at h ⊢
        by_cases hv : (claims.Valid nowParse && c.verify method tok key) = true
        · simp only [hv, if_true]
          simp only [Bool.and_eq_true] at hv
          exact ⟨method, claims, key, rfl, hk, hv.1, hv.2, rfl⟩
        · simp [hv] at h

/-- The effects of `JwtVerify` once `jwt.Parse` has returned an error. -/
theorem JwtVerify_of_parse_err (env : Env) (store : TokenMap) (r : Request)
    (hne : extractToken r ≠ "")
    (hrev : IsTokenBlacklisted store (extractToken r) = false)
    (herr : (env.parse (extractToken r) (jwtVerifyKeyFunc env.jwtKey)).err ≠ none) :
    JwtVerify env store r
      = [Effect.parse (extractToken r),
         Effect.write "application/json" 401 ⟨false, "", .nil, "Geçersiz token"⟩] := by
  cases h : (env.parse (extractToken r) (jwtVerifyKeyFunc env.jwtKey)).err with
  | none => exact absurd h herr
  | some e => simp [JwtVerify, hne, hrev, h, SendError, SendResponse, StatusUnauthorized]

/-- The effects of `JwtVerify` once `jwt.Parse` has returned a valid token whose numeric
`exp` claim the current Unix second has passed. -/
theorem JwtVerify_of_expired (env : Env) (store : TokenMap) (r : Request) (t : Token)
    (claims : MapClaims) (x : ℚ)
    (hne : extractToken r ≠ "")
    (hrev : IsTokenBlacklisted store (extractToken r) = false)
    (herr : (env.parse (extractToken r) (jwtVerifyKeyFunc env.jwtKey)).err = none)
    (htok : (env.parse (extractToken r) (jwtVerifyKeyFunc env.jwtKey)).token = some t)
    (hvalid : t.Valid = true) (hclaims : t.Claims = .map claims)
    (hexp : claims.get "exp" = .float64 x) (hlt : int64OfFloat64 x < env.now.Unix) :
    JwtVerify env store r
      = [Effect.parse (extractToken r),
         Effect.write "application/json" 401 ⟨false, "", .nil, "Token süresi dolmuş"⟩] := by
  simp [JwtVerify, hne, hrev, herr, htok, hvalid, hclaims, hexp, GoVal.asFloat64, hlt,
    tokenExpired, SendError, SendResponse, StatusUnauthorized]

/-- With the library's `jwt.Parse`, a token whose numeric `exp` is not 0 and has been passed
by the library's clock reading does not parse. -/
theorem jwtParse_err_of_expired (c : Codec) (nowParse : Int) (tok : String)
    (keyFunc : Token → Except String Key) (m : SigningMethod) (claims : MapClaims) (x : ℚ)
    (hdec : c.decodeSegments tok = some (m, claims))
    (hexp : claims.get "exp" = .float64 x)
    (hnz : int64OfFloat64 x ≠ 0) (hlt : int64OfFloat64 x < nowParse) :
    (jwtParse c nowParse tok keyFunc).err ≠ none := by
  intro herr
  obtain ⟨m', claims', key, hd, _, hvalid, _, _⟩ := jwtParse_ok c nowParse tok keyFunc herr
  rw [hdec] at hd
  simp only [Option.some.injEq, Prod.mk.injEq] at hd
  obtain ⟨rfl, rfl⟩ := hd
  have hnle : ¬ nowParse ≤ int64OfFloat64 x := not_le.2 hlt
  simp [MapClaims.Valid, MapClaims.VerifyExpiresAt, hexp, verifyExp, hnz, hnle] at hvalid

/-- C9 (as stated, refuted): the token of `GenerateJWT(42, "alice")` with `exp = 87400`,
not revoked, presented half a second after second 87400: its expiry is earlier than the
current time, yet `jwt.Parse` and the re-check compare whole seconds and `JwtVerify` accepts
it (user-store query, next handler). And when it is presented at second 90000 the 401 carries
the message `Geçersiz token` of a failed parse, not the message `Token süresi dolmuş`. -/
theorem expired_within_second_accepted :
    (userClaims (timeUnix 1000) (timeUnix 1000) "jti-1" 42 "alice").roundTrip.get "exp"
      = .float64 87400 ∧
    timeUnix 87400 < timeUnix 87400 + 500000000 ∧
    (timeUnix 87400 + 500000000 : Time).Unix = 87400 ∧
    IsTokenBlacklisted emptyTokens "aGRy.YWxpY2U.c2ln" = false ∧
    JwtVerify (libEnv demoCodec demoKey 87400 (timeUnix 87400 + 500000000)
        (singleUserStore 42 "alice")) emptyTokens (bearerRequest "aGRy.YWxpY2U.c2ln")
      = [Effect.parse "aGRy.YWxpY2U.c2ln", Effect.queryUser 42 "alice",
         Effect.next (userContext (bearerRequest "aGRy.YWxpY2U.c2ln") 42 "alice")] ∧
    JwtVerify (libEnv demoCodec demoKey 90000 (timeUnix 90000) (singleUserStore 42 "alice"))
        emptyTokens (bearerRequest "aGRy.YWxpY2U.c2ln")
      = [Effect.parse "aGRy.YWxpY2U.c2ln",
         Effect.write "application/json" 401 ⟨false, "", .nil, "Geçersiz token"⟩] := by
  refine ⟨by decide, by decide, by decide, by decide, by decide, by decide⟩

/-- C9 (amended): for every non-revoked token that decodes with a numeric `exp` claim which,
read in whole seconds as the code reads it (`int64(exp)`), is earlier than the current Unix
second, `JwtVerify` calls `jwt.Parse` and then writes a 401 response, and that is all it
does: it invokes no next handler (so no guest branch) and makes no user-store query. The
message is `Geçersiz token` when `jwt.Parse` itself rejects the token, as it does whenever
`int64(exp)` is not 0 and the library's own clock reading has passed it, and
`Token süresi dolmuş` when `jwt.Parse` lets the token through and the explicit re-check
rejects it. -/
theorem expired_rejected (c : Codec) (jwtKey : Key) (nowParse : Int) (now : Time)
    (userExists : Int → String → Except String Bool) (store : TokenMap) (r : Request)
    (m : SigningMethod) (claims : MapClaims) (x : ℚ)
    (hne : extractToken r ≠ "")
    (hrev : IsTokenBlacklisted store (extractToken r) = false)
    (hdec : c.decodeSegments (extractToken r) = some (m, claims))
    (hexp : claims.get "exp" = .float64 x)
    (hlt : int64OfFloat64 x < now.Unix) :
    (((jwtParse c nowParse (extractToken r) (jwtVerifyKeyFunc jwtKey)).err ≠ none ∧
        JwtVerify (libEnv c jwtKey nowParse now userExists) store r
          = [Effect.parse (extractToken r),
             Effect.write "application/json" 401 ⟨false, "", .nil, "Geçersiz token"⟩]) ∨
      ((jwtParse c nowParse (extractToken r) (jwtVerifyKeyFunc jwtKey)).err = none ∧
        JwtVerify (libEnv c jwtKey nowParse now userExists) store r
          = [Effect.parse (extractToken r),
             Effect.write "application/json" 401
               ⟨false, "", .nil, "Token süresi dolmuş"⟩])) ∧
      (JwtVerify (libEnv c jwtKey nowParse now userExists) store r).any Effect.isNext = false ∧
      (JwtVerify (libEnv c jwtKey nowParse now userExists) store r).any Effect.isQuery
        = false ∧
      (int64OfFloat64 x ≠ 0 → int64OfFloat64 x < nowParse →
        JwtVerify (libEnv c jwtKey nowParse now userExists) store r
          = [Effect.parse (extractToken r),
             Effect.write "application/json" 401 ⟨false, "", .nil, "Geçersiz token"⟩]) := by
  have key : ((jwtParse c nowParse (extractToken r) (jwtVerifyKeyFunc jwtKey)).err ≠ none ∧
        JwtVerify (libEnv c jwtKey nowParse now userExists) store r
          = [Effect.parse (extractToken r),
             Effect.write "application/json" 401 ⟨false, "", .nil, "Geçersiz token"⟩]) ∨
      ((jwtParse c nowParse (extractToken r) (jwtVerifyKeyFunc jwtKey)).err = none ∧
        JwtVerify (libEnv c jwtKey nowParse now userExists) store r
          = [Effect.parse (extractToken r),
             Effect.write "application/json" 401
               ⟨false, "", .nil, "Token süresi dolmuş"⟩]) := by
    by_cases herr : (jwtParse c nowParse (extractToken r) (jwtVerifyKeyFunc jwtKey)).err = none
    · right
      obtain ⟨m', claims', key, hd, _, _, _, htok⟩ := jwtParse_ok c nowParse _ _ herr
      rw [hdec] at hd
      simp only [Option.some.injEq, Prod.mk.injEq] at hd
      obtain ⟨rfl, rfl⟩ := hd
      exact ⟨herr,
        JwtVerify_of_expired (libEnv c jwtKey nowParse now userExists) store r _ claims x
          hne hrev herr htok rfl rfl hexp hlt⟩
    · left
      exact ⟨herr, JwtVerify_of_parse_err (libEnv c jwtKey nowParse now userExists) store r
        hne hrev herr⟩
  refine ⟨key, ?_, ?_, ?_⟩
  · rcases key with ⟨_, h⟩ | ⟨_, h⟩ <;> rw [h] <;> simp [Effect.isNext]
  · rcases key with ⟨_, h⟩ | ⟨_, h⟩ <;> rw [h] <;> simp [Effect.isQuery]
  · intro hnz hlib
    exact JwtVerify_of_parse_err (libEnv c jwtKey nowParse now userExists) store r hne hrev
      (jwtParse_err_of_expired c nowParse _ _ m claims x hdec hexp hnz hlib)

theorem expired_rejected_witness :
    extractToken (bearerRequest "aGRy.YWxpY2U.c2ln") ≠ "" ∧
    IsTokenBlacklisted emptyTokens (extractToken (bearerRequest "aGRy.YWxpY2U.c2ln")) = false ∧
    demoCodec.decodeSegments (extractToken (bearerRequest "aGRy.YWxpY2U.c2ln"))
      = some (.HS256,
          (userClaims (timeUnix 1000) (timeUnix 1000) "jti-1" 42 "alice").roundTrip) ∧
    (userClaims (timeUnix 1000) (timeUnix 1000) "jti-1" 42 "alice").roundTrip.get "exp"
      = .float64 87400 ∧
    int64OfFloat64 87400 < (timeUnix 90000).Unix ∧
    (int64OfFloat64 87400 ≠ 0 ∧ int64OfFloat64 87400 < 90000) ∧
    JwtVerify (libEnv demoCodec demoKey 90000 (timeUnix 90000) (fun _ _ => .ok true))
        emptyTokens (bearerRequest "aGRy.YWxpY2U.c2ln")
      = [Effect.parse (extractToken (bearerRequest "aGRy.YWxpY2U.c2ln")),
         Effect.write "application/json" 401 ⟨false, "", .nil, "Geçersiz token"⟩] ∧
    (JwtVerify (libEnv demoCodec demoKey 90000 (timeUnix 90000) (fun _ _ => .ok true))
        emptyTokens (bearerRequest "aGRy.YWxpY2U.c2ln")).any Effect.isNext = false ∧
    (JwtVerify (libEnv demoCodec demoKey 90000 (timeUnix 90000) (fun _ _ => .ok true))
        emptyTokens (bearerRequest "aGRy.YWxpY2U.c2ln")).any Effect.isQuery = false :=
  ⟨by decide, by decide, by decide, by decide, by decide, ⟨by decide, by decide⟩,
    (expired_rejected demoCodec demoKey 90000 (timeUnix 90000) (fun _ _ => .ok true)
      emptyTokens (bearerRequest "aGRy.YWxpY2U.c2ln") .HS256
      (userClaims (timeUnix 1000) (timeUnix 1000) "jti-1" 42 "alice").roundTrip 87400
      (by decide) (by decide) (by decide) (by decide) (by decide)).2.2.2
      (by decide) (by decide),
    (expired_rejected demoCodec demoKey 90000 (timeUnix 90000) (fun _ _ => .ok true)
      emptyTokens (bearerRequest "aGRy.YWxpY2U.c2ln") .HS256
      (userClaims (timeUnix 1000) (timeUnix 1000) "jti-1" 42 "alice").roundTrip 87400
      (by decide) (by decide) (by decide) (by decide) (by decide)).2.1,
    (expired_rejected demoCodec demoKey 90000 (timeUnix 90000) (fun _ _ => .ok true)
      emptyTokens (bearerRequest "aGRy.YWxpY2U.c2ln") .HS256
      (userClaims (timeUnix 1000) (timeUnix 1000) "jti-1" 42 "alice").roundTrip 87400
      (by decide) (by decide) (by decide) (by decide) (by decide)).2.2.1⟩

/-- C10: for every non-revoked token string that does not parse as a JWT (it has not three
segments or does not decode) or whose signature does not verify under the process secret,
`JwtVerify` calls `jwt.Parse` and writes the 401 response with the invalid-token message,
and that is all it does: it makes no user-store query and invokes no next handler. -/
theorem unparsable_rejected (c : Codec) (jwtKey : Key) (nowParse : Int) (now : Time)
    (userExists : Int → String → Except String Bool) (store : TokenMap) (r : Request)
    (hne : extractToken r ≠ "")
    (hrev : IsTokenBlacklisted store (extractToken r) = false)
    (hbad : (splitDots (extractToken r).data).length ≠ 3 ∨
      ∀ m claims, c.decodeSegments (extractToken r) = some (m, claims) →
        c.verify m (extractToken r) jwtKey = false) :
    JwtVerify (libEnv c jwtKey nowParse now userExists) store r
        = [Effect.parse (extractToken r),
           Effect.write "application/json" 401 ⟨false, "", .nil, "Geçersiz token"⟩] ∧
      (JwtVerify (libEnv c jwtKey nowParse now userExists) store r).any Effect.isQuery
        = false ∧
      (JwtVerify (libEnv c jwtKey nowParse now userExists) store r).any Effect.isNext
        = false := by
  have herr : (jwtParse c nowParse (extractToken r) (jwtVerifyKeyFunc jwtKey)).err ≠ none := by
    intro h
    obtain ⟨m, claims, key, hd, hk, _, hv, _⟩ := jwtParse_ok c nowParse _ _ h
    rcases hbad with hseg | hsig
    · unfold jwtParse at h
      rw [if_pos hseg] at h
      simp at h
    · have hkey : key = jwtKey := by
        unfold jwtVerifyKeyFunc at hk
        split at hk
        · simp at hk
        · simpa using hk.symm
      rw [hkey, hsig m claims hd] at hv
      simp at hv
  have h := JwtVerify_of_parse_err (libEnv c jwtKey nowParse now userExists) store r
    hne hrev herr
  rw [h]
  simp [Effect.isNext, Effect.isQuery]

theorem unparsable_rejected_witness :
    extractToken bearerNotAJwt ≠ "" ∧
    IsTokenBlacklisted emptyTokens (extractToken bearerNotAJwt) = false ∧
    (splitDots (extractToken bearerNotAJwt).data).length ≠ 3 ∧
    (JwtVerify (libEnv demoCodec demoKey 50 (timeUnix 50) (fun _ _ => .ok true))
          emptyTokens bearerNotAJwt
        = [Effect.parse (extractToken bearerNotAJwt),
           Effect.write "application/json" 401 ⟨false, "", .nil, "Geçersiz token"⟩] ∧
      (JwtVerify (libEnv demoCodec demoKey 50 (timeUnix 50) (fun _ _ => .ok true))
          emptyTokens bearerNotAJwt).any Effect.isQuery = false ∧
      (JwtVerify (libEnv demoCodec demoKey 50 (timeUnix 50) (fun _ _ => .ok true))
          emptyTokens bearerNotAJwt).any Effect.isNext = false) :=
  ⟨by decide, by decide, by decide,
    unparsable_rejected demoCodec demoKey 50 (timeUnix 50) (fun _ _ => .ok true)
      emptyTokens bearerNotAJwt (by decide) (by decide) (Or.inl (by decide))⟩

/-- The possible effect lists of `JwtVerify`. -/
theorem JwtVerify_shape (env : Env) (store : TokenMap) (r : Request) :
    (∃ msg, JwtVerify env store r = [SendError StatusUnauthorized msg]) ∨
    (∃ msg, JwtVerify env store r
      = [Effect.parse (extractToken r), SendError StatusUnauthorized msg]) ∨
    (∃ why, JwtVerify env store r = [Effect.parse (extractToken r), Effect.panic why]) ∨
    (∃ ctx, JwtVerify env store r = [Effect.parse (extractToken r), Effect.next ctx]) ∨
    (∃ u n msg, JwtVerify env store r
      = [Effect.parse (extractToken r), Effect.queryUser u n,
         SendError StatusUnauthorized msg]) ∨
    (∃ u n ctx, JwtVerify env store r
      = [Effect.parse (extractToken r), Effect.queryUser u n, Effect.next ctx]) := by
  unfold JwtVerify
  simp only []
  repeat' split
  all_goals simp

/-- The effects of `JwtVerify` on a request that gets to the claims checks. -/
theorem JwtVerify_of_reaches (env : Env) (store : TokenMap) (r : Request) (claims : MapClaims)
    (h : ReachesClaims env store r claims) :
    JwtVerify env store r = Effect.parse (extractToken r) ::
      (if tokenExpired env.now claims then
        [SendError StatusUnauthorized "Token süresi dolmuş"]
      else if isGuestClaim claims then
        [Effect.next (guestContext r claims)]
      else
        match (claims.get "user_id").asFloat64 with
        | none => [Effect.panic "interface conversion: user_id is not float64"]
        | some uid =>
          match (claims.get "username").asString with
          | none => [Effect.panic "interface conversion: username is not string"]
          | some username =>
            Effect.queryUser (int64OfFloat64 uid) username ::
            match env.userExists (int64OfFloat64 uid) username with
            | .error _ =>
              [SendError StatusUnauthorized "Kullanıcı bulunamadı veya pasif durumda"]
            | .ok false =>
              [SendError StatusUnauthorized "Kullanıcı bulunamadı veya pasif durumda"]
            | .ok true => [Effect.next (userContext r (int64OfFloat64 uid) username)]) := by
  obtain ⟨hne, hrev, t, herr, htok, hvalid, hclaims⟩ := h
  simp only [JwtVerify, hne, hrev, herr, htok, hvalid, hclaims, if_false, Bool.not_true,
    Bool.false_eq_true]

/-- C6: for every request, `JwtVerify` invokes the next handler at most once; every response
it writes is a 401 error and is not accompanied by a call of the next handler; the next
handler is invoked only on the guest-authenticated and the authenticated outcome; and on each
rejection path (no token, revoked, parse or signature failure, token not valid, claims of the
wrong shape, expired, user not found) its last effect is the 401 response of that path, with
no call of the next handler. -/
theorem next_only_when_accepted (env : Env) (store : TokenMap) (r : Request) :
    (JwtVerify env store r).countP Effect.isNext ≤ 1 ∧
    (∀ e ∈ JwtVerify env store r, e.isWrite = true →
      (∃ msg, e = SendError 401 msg) ∧ (JwtVerify env store r).any Effect.isNext = false) ∧
    ((JwtVerify env store r).any Effect.isNext = true →
      ∃ claims, ReachesClaims env store r claims ∧ tokenExpired env.now claims = false ∧
        ((isGuestClaim claims = true ∧
            JwtVerify env store r
              = [Effect.parse (extractToken r), Effect.next (guestContext r claims)]) ∨
          (isGuestClaim claims = false ∧ ∃ uid username,
            claims.get "user_id" = .float64 uid ∧ claims.get "username" = .string username ∧
            env.userExists (int64OfFloat64 uid) username = .ok true ∧
            JwtVerify env store r
              = [Effect.parse (extractToken r),
                 Effect.queryUser (int64OfFloat64 uid) username,
                 Effect.next (userContext r (int64OfFloat64 uid) username)]))) ∧
    (extractToken r = "" →
      JwtVerify env store r = [SendError 401 "Token bulunamadı"]) ∧
    (extractToken r ≠ "" → IsTokenBlacklisted store (extractToken r) = true →
      JwtVerify env store r = [SendError 401 "Token geçersiz kılınmış"]) ∧
    (extractToken r ≠ "" → IsTokenBlacklisted store (extractToken r) = false →
      (env.parse (extractToken r) (jwtVerifyKeyFunc env.jwtKey)).err ≠ none →
      JwtVerify env store r
        = [Effect.parse (extractToken r), SendError 401 "Geçersiz token"]) ∧
    (extractToken r ≠ "" → IsTokenBlacklisted store (extractToken r) = false →
      ∀ t, (env.parse (extractToken r) (jwtVerifyKeyFunc env.jwtKey)).err = none →
        (env.parse (extractToken r) (jwtVerifyKeyFunc env.jwtKey)).token = some t →
        (t.Valid = false →
          JwtVerify env store r
            = [Effect.parse (extractToken r), SendError 401 "Token geçersiz"]) ∧
        (t.Valid = true → t.Claims = .other →
          JwtVerify env store r
            = [Effect.parse (extractToken r), SendError 401 "Token içeriği geçersiz"])) ∧
    (∀ claims, ReachesClaims env store r claims →
      (tokenExpired env.now claims = true →
        JwtVerify env store r
          = [Effect.parse (extractToken r), SendError 401 "Token süresi dolmuş"]) ∧
      (∀ uid username, tokenExpired env.now claims = false → isGuestClaim claims = false →
        claims.get "user_id" = .float64 uid → claims.get "username" = .string username →
        env.userExists (int64OfFloat64 uid) username = .ok false →
        JwtVerify env store r
          = [Effect.parse (extractToken r), Effect.queryUser (int64OfFloat64 uid) username,
             SendError 401 "Kullanıcı bulunamadı veya pasif durumda"])) := by
  refine ⟨?_, ?_, ?_, ?_, ?_, ?_, ?_, ?_⟩
  · rcases JwtVerify_shape env store r with ⟨m, h⟩ | ⟨m, h⟩ | ⟨m, h⟩ | ⟨m, h⟩ | ⟨u, n, m, h⟩ |
      ⟨u, n, m, h⟩ <;> rw [h] <;>
      simp [List.countP_cons, Effect.isNext, SendError, SendResponse]
  · intro e he hw
    rcases JwtVerify_shape env store r with ⟨m, h⟩ | ⟨m, h⟩ | ⟨m, h⟩ | ⟨m, h⟩ | ⟨u, n, m, h⟩ |
      ⟨u, n, m, h⟩ <;> rw [h] at he ⊢ <;>
      simp only [List.mem_cons, List.mem_singleton, List.not_mem_nil, or_false] at he
    · subst he
      exact ⟨⟨m, rfl⟩, by simp [Effect.isNext, SendError, SendResponse]⟩
    · rcases he with rfl | rfl
      · simp [Effect.isWrite] at hw
      · exact ⟨⟨m, rfl⟩, by simp [Effect.isNext, SendError, SendResponse]⟩
    · rcases he with rfl | rfl <;> simp [Effect.isWrite] at hw
    · rcases he with rfl | rfl <;> simp [Effect.isWrite] at hw
    · rcases he with rfl | rfl | rfl
      · simp [Effect.isWrite] at hw
      · simp [Effect.isWrite] at hw
      · exact ⟨⟨m, rfl⟩, by simp [Effect.isNext, SendError, SendResponse]⟩
    · rcases he with rfl | rfl | rfl <;> simp [Effect.isWrite] at hw
  · intro hnext
    by_cases h1 : extractToken r = ""
    · simp [JwtVerify, h1, SendError, SendResponse, Effect.isNext] at hnext
    by_cases h2 : IsTokenBlacklisted store (extractToken r) = true
    · simp [JwtVerify, h1, h2, SendError, SendResponse, Effect.isNext] at hnext
    simp only [Bool.not_eq_true] at h2
    cases h3 : (env.parse (extractToken r) (jwtVerifyKeyFunc env.jwtKey)).err with
    | some e => simp [JwtVerify, h1, h2, h3, SendError, SendResponse, Effect.isNext] at hnext
    | none =>
      cases h4 : (env.parse (extractToken r) (jwtVerifyKeyFunc env.jwtKey)).token with
      | none => simp [JwtVerify, h1, h2, h3, h4, Effect.isNext] at hnext
      | some t =>
        by_cases h5 : t.Valid = true
        swap
        · simp [JwtVerify, h1, h2, h3, h4, h5, SendError, SendResponse, Effect.isNext] at hnext
        cases h6 : t.Claims with
        | other =>
          simp [JwtVerify, h1, h2, h3, h4, h5, h6, SendError, SendResponse,
            Effect.isNext] at hnext
        | map claims =>
          have hr : ReachesClaims env store r claims := ⟨h1, h2, t, h3, h4, h5, h6⟩
          have htr := JwtVerify_of_reaches env store r claims hr
          refine ⟨claims, hr, ?_⟩
          rw [htr] at hnext ⊢
          by_cases h7 : tokenExpired env.now claims = true
          · simp [h7, SendError, SendResponse, Effect.isNext] at hnext
          simp only [Bool.not_eq_true] at h7
          refine ⟨h7, ?_⟩
          by_cases h8 : isGuestClaim claims = true
          · left
            exact ⟨h8, by simp [h7, h8]⟩
          simp only [Bool.not_eq_true] at h8
          right
          refine ⟨h8, ?_⟩
          cases h9 : claims.get "user_id" with
          | float64 uid =>
            cases h10 : claims.get "username" with
            | string username =>
              cases h11 : env.userExists (int64OfFloat64 uid) username with
              | error e =>
                simp [h7, h8, h9, h10, h11, GoVal.asFloat64, GoVal.asString, SendError,
                  SendResponse, Effect.isNext] at hnext
              | ok b =>
                cases b with
                | false =>
                  simp [h7, h8, h9, h10, h11, GoVal.asFloat64, GoVal.asString, SendError,
                    SendResponse, Effect.isNext] at hnext
                | true =>
                  exact ⟨uid, username, rfl, rfl, h11,
                    by simp [h7, h8, h9, h10, h11, GoVal.asFloat64, GoVal.asString]⟩
            | _ =>
              simp [h7, h8, h9, h10, GoVal.asFloat64, GoVal.asString, Effect.isNext] at hnext
          | _ => simp [h7, h8, h9, GoVal.asFloat64, Effect.isNext] at hnext
  · intro h1
    simp [JwtVerify, h1, StatusUnauthorized]
  · intro h1 h2
    simp [JwtVerify, h1, h2, StatusUnauthorized]
  · intro h1 h2 h3
    cases h : (env.parse (extractToken r) (jwtVerifyKeyFunc env.jwtKey)).err with
    | none => exact absurd h h3
    | some e => simp [JwtVerify, h1, h2, h, StatusUnauthorized]
  · intro h1 h2 t h3 h4
    refine ⟨?_, ?_⟩
    · intro h5
      simp [JwtVerify, h1, h2, h3, h4, h5, StatusUnauthorized]
    · intro h5 h6
      simp [JwtVerify, h1, h2, h3, h4, h5, h6, StatusUnauthorized]
  · intro claims hr
    have htr := JwtVerify_of_reaches env store r claims hr
    refine ⟨?_, ?_⟩
    · intro h7
      rw [htr]; simp [h7, StatusUnauthorized]
    · intro uid username h7 h8 h9 h10 h11
      rw [htr]
      simp [h7, h8, h9, h10, h11, GoVal.asFloat64, GoVal.asString, StatusUnauthorized]

theorem next_only_when_accepted_witness :
    extractToken bearerNotAJwt ≠ "" ∧
    IsTokenBlacklisted emptyTokens (extractToken bearerNotAJwt) = false ∧
    ((libEnv demoCodec demoKey 50 (timeUnix 50) (fun _ _ => .ok true)).parse
        (extractToken bearerNotAJwt)
        (jwtVerifyKeyFunc (libEnv demoCodec demoKey 50 (timeUnix 50)
          (fun _ _ => .ok true)).jwtKey)).err ≠ none ∧
    JwtVerify (libEnv demoCodec demoKey 50 (timeUnix 50) (fun _ _ => .ok true))
        emptyTokens bearerNotAJwt
      = [Effect.parse (extractToken bearerNotAJwt), SendError 401 "Geçersiz token"] :=
  ⟨by decide, by decide, by decide,
    (next_only_when_accepted (libEnv demoCodec demoKey 50 (timeUnix 50) (fun _ _ => .ok true))
      emptyTokens bearerNotAJwt).2.2.2.2.2.1 (by decide) (by decide) (by decide)⟩

/-- C7 (as stated, refuted): the token that `GenerateJWT(9007199254740993, "bob")` returns,
presented before its expiry, not revoked, to a user store that holds the row
`(9007199254740993, "bob")`, is rejected: the user id comes back from the JSON claims as the
`float64` `9007199254740992`, and that is the id the user store is asked for. -/
theorem big_user_id_rejected :
    GenerateJWT demoCodec demoKey (timeUnix 1000) (timeUnix 1000) "jti-2"
        9007199254740993 "bob" = .ok "aGRy.YmlnaWQ.c2ln" ∧
    extractToken (bearerRequest "aGRy.YmlnaWQ.c2ln") = "aGRy.YmlnaWQ.c2ln" ∧
    IsTokenBlacklisted emptyTokens "aGRy.YmlnaWQ.c2ln" = false ∧
    singleUserStore 9007199254740993 "bob" 9007199254740993 "bob" = .ok true ∧
    JwtVerify (libEnv demoCodec demoKey 2000 (timeUnix 2000)
        (singleUserStore 9007199254740993 "bob")) emptyTokens
        (bearerRequest "aGRy.YmlnaWQ.c2ln")
      = [Effect.parse "aGRy.YmlnaWQ.c2ln",
         Effect.queryUser 9007199254740992 "bob",
         SendError 401 "Kullanıcı bulunamadı veya pasif durumda"] := by
  refine ⟨by rfl, by decide, by decide, by rfl, by decide⟩

/-- C8 (as stated, refuted): a token whose header declares HS384, signed with the process
secret, is accepted: the key function returns the secret for it, `jwt.Parse` succeeds and
the next handler is invoked. -/
theorem hs384_token_accepted :
    demoCodec.decodeSegments "aDM4.YWxpY2U.c2ln"
      = some (.HS384,
          (userClaims (timeUnix 1000) (timeUnix 1000) "jti-3" 42 "alice").roundTrip) ∧
    jwtVerifyKeyFunc demoKey
        ⟨"aDM4.YWxpY2U.c2ln", .HS384,
          .map (userClaims (timeUnix 1000) (timeUnix 1000) "jti-3" 42 "alice").roundTrip,
          false⟩ = .ok demoKey ∧
    JwtVerify (libEnv demoCodec demoKey 2000 (timeUnix 2000) (singleUserStore 42 "alice"))
        emptyTokens (bearerRequest "aDM4.YWxpY2U.c2ln")
      = [Effect.parse "aDM4.YWxpY2U.c2ln",
         Effect.queryUser 42 "alice",
         Effect.next (userContext (bearerRequest "aDM4.YWxpY2U.c2ln") 42 "alice")] := by
  refine ⟨by decide, by rfl, by decide⟩

/-- An integer of magnitude at most `2^53` survives the JSON round trip and the conversion
back from `float64`. -/
theorem int64OfFloat64_float64OfInt (n : Int) (h1 : -9007199254740992 ≤ n)
    (h2 : n ≤ 9007199254740992) :
    int64OfFloat64 ((float64OfInt n : Int) : ℚ) = n := by
  have hf : float64OfInt n = n := by
    unfold float64OfInt
    have : n.natAbs ≤ 2 ^ 53 := by
      norm_num
      omega
    simp only [this, if_true]
  rw [hf]
  unfold int64OfFloat64
  simp only [Rat.num_intCast, Rat.den_intCast, Nat.cast_one, Int.tdiv_one]
  rw [if_pos]
  norm_num
  constructor <;> omega

theorem get_userClaims_roundTrip (nowExp nowIat : Time) (jti : String) (userID : Int)
    (username : String) :
    (userClaims nowExp nowIat jti userID username).roundTrip.get "user_id"
        = .float64 ((float64OfInt userID : Int) : ℚ) ∧
      (userClaims nowExp nowIat jti userID username).roundTrip.get "username"
        = .string username ∧
      (userClaims nowExp nowIat jti userID username).roundTrip.get "exp"
        = .float64 ((float64OfInt (nowExp.Add (timeHour * 24)).Unix : Int) : ℚ) ∧
      (userClaims nowExp nowIat jti userID username).roundTrip.get "iat"
        = .float64 ((float64OfInt nowIat.Unix : Int) : ℚ) ∧
      (userClaims nowExp nowIat jti userID username).roundTrip.get "nbf" = .nil ∧
      (userClaims nowExp nowIat jti userID username).roundTrip.get "is_guest" = .nil := by
  simp [userClaims, MapClaims.roundTrip, MapClaims.get, jsonRoundTrip]

/-- The library's `jwt.Parse` on a token that the codec reads back, under an HMAC method and
the key it was signed with, at a clock reading at which the claims are valid. -/
theorem jwtParse_of_readsBack (c : Codec) (m : SigningMethod) (claims : MapClaims)
    (jwtKey : Key) (tok : String) (nowParse : Int)
    (hback : c.ReadsBack m claims jwtKey tok) (hm : m.isHMAC = true)
    (hvalid : claims.roundTrip.Valid nowParse = true) :
    jwtParse c nowParse tok (jwtVerifyKeyFunc jwtKey)
      = ⟨some ⟨tok, m, .map claims.roundTrip, true⟩, none⟩ := by
  obtain ⟨hseg, hdec, hver⟩ := hback
  simp [jwtParse, hseg, hdec, jwtVerifyKeyFunc, hm, hvalid, hver]

/-- C7 (amended): for every `userID` of magnitude at most `2^53` and every `username`, the
token returned by `GenerateJWT(userID, username)` (issued at clock readings whose `iat` and
`exp` seconds are of magnitude at most `2^53` as well, and read back by the codec), presented
to `JwtVerify` after issue and not after its expiry, while it is not revoked and while the
user store reports a row matching `(userID, username)`, is accepted: `JwtVerify` parses it,
queries the user store for `(userID, username)` and invokes the next handler with the context
values `userID = userID`, `username = username` and `is_guest = false`. -/
theorem issued_token_accepted (c : Codec) (jwtKey : Key) (nowExp nowIat : Time) (jti : String)
    (userID : Int) (username : String) (tok : String) (nowParse : Int) (now : Time)
    (userExists : Int → String → Except String Bool) (store : TokenMap) (r : Request)
    (hid : -9007199254740992 ≤ userID ∧ userID ≤ 9007199254740992)
    (hgen : GenerateJWT c jwtKey nowExp nowIat jti userID username = .ok tok)
    (hback : c.ReadsBack .HS256 (userClaims nowExp nowIat jti userID username) jwtKey tok)
    (hreq : extractToken r = tok)
    (hrev : IsTokenBlacklisted store tok = false)
    (hclock : -9007199254740992 ≤ nowIat.Unix ∧
      (nowExp.Add (timeHour * 24)).Unix ≤ 9007199254740992)
    (hissued : nowIat.Unix ≤ nowParse)
    (hbefore : nowParse ≤ (nowExp.Add (timeHour * 24)).Unix ∧
      now.Unix ≤ (nowExp.Add (timeHour * 24)).Unix)
    (hrow : userExists userID username = .ok true) :
    c.signedString .HS256 (userClaims nowExp nowIat jti userID username) jwtKey = .ok tok ∧
    JwtVerify (libEnv c jwtKey nowParse now userExists) store r
        = [Effect.parse tok, Effect.queryUser userID username,
           Effect.next (userContext r userID username)] ∧
      (userContext r userID username).Value "userID" = .int userID ∧
      (userContext r userID username).Value "username" = .string username ∧
      (userContext r userID username).Value "is_guest" = .bool false := by
  obtain ⟨huid, huname, hexp, hiat, hnbf, hguest⟩ :=
    get_userClaims_roundTrip nowExp nowIat jti userID username
  have hsign : c.signedString .HS256 (userClaims nowExp nowIat jti userID username) jwtKey
      = .ok tok := by
    unfold GenerateJWT at hgen
    simp only at hgen
    split at hgen
    · simp at hgen
    · rename_i s hs
      rw [hs]
      simpa using hgen
  have hseg3 := hback.1
  have hne : tok ≠ "" := by
    intro h
    rw [h] at hseg3
    simp [splitDots] at hseg3
  have hexpv := int64OfFloat64_float64OfInt (nowExp.Add (timeHour * 24)).Unix
    (by omega) hclock.2
  have hiatv := int64OfFloat64_float64OfInt nowIat.Unix hclock.1 (by omega)
  have huidv := int64OfFloat64_float64OfInt userID hid.1 hid.2
  have hvalid : (userClaims nowExp nowIat jti userID username).roundTrip.Valid nowParse
      = true := by
    simp only [MapClaims.Valid, MapClaims.VerifyExpiresAt, MapClaims.VerifyIssuedAt,
      MapClaims.VerifyNotBefore, hexp, hiat, hnbf, hexpv, hiatv, verifyExp, verifyIat]
    have h1 := hbefore.1
    by_cases he : (nowExp.Add (timeHour * 24)).Unix = 0 <;>
      by_cases hi : nowIat.Unix = 0 <;> simp [he, hi, h1, hissued]
  have hparse := jwtParse_of_readsBack c .HS256 _ jwtKey tok nowParse hback rfl hvalid
  have hr : ReachesClaims (libEnv c jwtKey nowParse now userExists) store r
      (userClaims nowExp nowIat jti userID username).roundTrip := by
    refine ⟨by rw [hreq]; exact hne, by rw [hreq]; exact hrev, ⟨tok, .HS256, _, true⟩, ?_, ?_,
      rfl, rfl⟩
    · simp only [libEnv, hreq, hparse]
    · simp only [libEnv, hreq, hparse]
  have hnotexp : tokenExpired now
      (userClaims nowExp nowIat jti userID username).roundTrip = false := by
    have h2 := hbefore.2
    simp only [tokenExpired, hexp, GoVal.asFloat64, hexpv]
    simp
    omega
  have hng : isGuestClaim (userClaims nowExp nowIat jti userID username).roundTrip = false := by
    simp [isGuestClaim, hguest, GoVal.asBool]
  refine ⟨hsign, ?_, by simp [userContext, Context.WithValue, Context.Value],
    by simp [userContext, Context.WithValue, Context.Value],
    by simp [userContext, Context.WithValue, Context.Value]⟩
  rw [JwtVerify_of_reaches _ store r _ hr]
  simp [hnotexp, hng, huid, huname, GoVal.asFloat64, GoVal.asString, huidv, hreq, libEnv, hrow]

theorem issued_token_accepted_witness :
    (-9007199254740992 ≤ (42 : Int) ∧ (42 : Int) ≤ 9007199254740992) ∧
    GenerateJWT demoCodec demoKey (timeUnix 1000) (timeUnix 1000) "jti-1" 42 "alice"
      = .ok "aGRy.YWxpY2U.c2ln" ∧
    demoCodec.ReadsBack .HS256 (userClaims (timeUnix 1000) (timeUnix 1000) "jti-1" 42 "alice")
      demoKey "aGRy.YWxpY2U.c2ln" ∧
    extractToken (bearerRequest "aGRy.YWxpY2U.c2ln") = "aGRy.YWxpY2U.c2ln" ∧
    IsTokenBlacklisted emptyTokens "aGRy.YWxpY2U.c2ln" = false ∧
    (-9007199254740992 ≤ (timeUnix 1000).Unix ∧
      ((timeUnix 1000).Add (timeHour * 24)).Unix ≤ 9007199254740992) ∧
    (timeUnix 1000).Unix ≤ 2000 ∧
    (2000 ≤ ((timeUnix 1000).Add (timeHour * 24)).Unix ∧
      (timeUnix 2000).Unix ≤ ((timeUnix 1000).Add (timeHour * 24)).Unix) ∧
    singleUserStore 42 "alice" 42 "alice" = .ok true ∧
    (demoCodec.signedString .HS256
        (userClaims (timeUnix 1000) (timeUnix 1000) "jti-1" 42 "alice") demoKey
      = .ok "aGRy.YWxpY2U.c2ln" ∧
    JwtVerify (libEnv demoCodec demoKey 2000 (timeUnix 2000) (singleUserStore 42 "alice"))
        emptyTokens (bearerRequest "aGRy.YWxpY2U.c2ln")
      = [Effect.parse "aGRy.YWxpY2U.c2ln", Effect.queryUser 42 "alice",
         Effect.next (userContext (bearerRequest "aGRy.YWxpY2U.c2ln") 42 "alice")] ∧
    (userContext (bearerRequest "aGRy.YWxpY2U.c2ln") 42 "alice").Value "userID" = .int 42 ∧
    (userContext (bearerRequest "aGRy.YWxpY2U.c2ln") 42 "alice").Value "username"
      = .string "alice" ∧
    (userContext (bearerRequest "aGRy.YWxpY2U.c2ln") 42 "alice").Value "is_guest"
      = .bool false) :=
  ⟨by decide, by rfl, ⟨by decide, by decide, by decide⟩, by decide, by decide, by decide,
    by decide, by decide, by rfl,
    issued_token_accepted demoCodec demoKey (timeUnix 1000) (timeUnix 1000) "jti-1" 42 "alice"
      "aGRy.YWxpY2U.c2ln" 2000 (timeUnix 2000) (singleUserStore 42 "alice") emptyTokens
      (bearerRequest "aGRy.YWxpY2U.c2ln")
      (by decide) (by rfl) ⟨by decide, by decide, by decide⟩ (by decide) (by decide)
      (by decide) (by decide) (by decide) (by rfl)⟩

/-- C8 (amended): `JwtVerify` never accepts a token whose declared signing method is outside
the HMAC family (HS256, HS384, HS512): for every request whose token decodes with such a
method, whatever its signature, the key function fails, and the request ends in a 401
response (no token, revoked, or `Geçersiz token` after the failed parse) without a call of
the next handler. Within the family the key function hands out the process secret whatever
the variant. -/
theorem non_hmac_rejected (c : Codec) (jwtKey : Key) (nowParse : Int) (now : Time)
    (userExists : Int → String → Except String Bool) (store : TokenMap) (r : Request)
    (m : SigningMethod) (claims : MapClaims)
    (hdec : c.decodeSegments (extractToken r) = some (m, claims)) :
    (m.isHMAC = false →
      jwtVerifyKeyFunc jwtKey ⟨extractToken r, m, .map claims, false⟩
          = .error ("beklenmeyen imza metodu: " ++ m.Alg) ∧
        (JwtVerify (libEnv c jwtKey nowParse now userExists) store r).any Effect.isNext
          = false ∧
        (JwtVerify (libEnv c jwtKey nowParse now userExists) store r
            = [SendError 401 "Token bulunamadı"] ∨
          JwtVerify (libEnv c jwtKey nowParse now userExists) store r
            = [SendError 401 "Token geçersiz kılınmış"] ∨
          JwtVerify (libEnv c jwtKey nowParse now userExists) store r
            = [Effect.parse (extractToken r), SendError 401 "Geçersiz token"])) ∧
    (m.isHMAC = true →
      jwtVerifyKeyFunc jwtKey ⟨extractToken r, m, .map claims, false⟩ = .ok jwtKey) := by
  refine ⟨?_, ?_⟩
  · intro hm
    have hkf : jwtVerifyKeyFunc jwtKey ⟨extractToken r, m, .map claims, false⟩
        = .error ("beklenmeyen imza metodu: " ++ m.Alg) := by
      simp [jwtVerifyKeyFunc, hm]
    have hshape : JwtVerify (libEnv c jwtKey nowParse now userExists) store r
            = [SendError 401 "Token bulunamadı"] ∨
          JwtVerify (libEnv c jwtKey nowParse now userExists) store r
            = [SendError 401 "Token geçersiz kılınmış"] ∨
          JwtVerify (libEnv c jwtKey nowParse now userExists) store r
            = [Effect.parse (extractToken r), SendError 401 "Geçersiz token"] := by
      by_cases h1 : extractToken r = ""
      · left; simp [JwtVerify, h1, StatusUnauthorized]
      by_cases h2 : IsTokenBlacklisted store (extractToken r) = true
      · right; left; simp [JwtVerify, h1, h2, StatusUnauthorized]
      simp only [Bool.not_eq_true] at h2
      right; right
      have herr : (jwtParse c nowParse (extractToken r) (jwtVerifyKeyFunc jwtKey)).err
          ≠ none := by
        intro h
        obtain ⟨m', claims', key, hd, hk, _⟩ := jwtParse_ok c nowParse _ _ h
        rw [hdec] at hd
        simp only [Option.some.injEq, Prod.mk.injEq] at hd
        obtain ⟨rfl, rfl⟩ := hd
        rw [hkf] at hk
        simp at hk
      have := JwtVerify_of_parse_err (libEnv c jwtKey nowParse now userExists) store r h1 h2 herr
      rw [this]
      simp [SendError, SendResponse]
    refine ⟨hkf, ?_, hshape⟩
    rcases hshape with h | h | h <;> rw [h] <;> simp [Effect.isNext, SendError, SendResponse]
  · intro hm
    simp [jwtVerifyKeyFunc, hm]

theorem non_hmac_rejected_witness :
    demoCodec.decodeSegments (extractToken (bearerRequest "bm9u.YWxpY2U."))
      = some (.unsecured,
          (userClaims (timeUnix 1000) (timeUnix 1000) "jti-4" 42 "alice").roundTrip) ∧
    SigningMethod.unsecured.isHMAC = false ∧
    (JwtVerify (libEnv demoCodec demoKey 2000 (timeUnix 2000) (singleUserStore 42 "alice"))
        emptyTokens (bearerRequest "bm9u.YWxpY2U.")).any Effect.isNext = false :=
  ⟨by decide, by decide,
    ((non_hmac_rejected demoCodec demoKey 2000 (timeUnix 2000) (singleUserStore 42 "alice")
      emptyTokens (bearerRequest "bm9u.YWxpY2U.") .unsecured
      (userClaims (timeUnix 1000) (timeUnix 1000) "jti-4" 42 "alice").roundTrip
      (by decide)).1 (by decide)).2.1⟩

/-! ## `JwtVerify`: the guest branch and the user-store check -/

theorem isGuestClaim_eq_true_iff (claims : MapClaims) :
    isGuestClaim claims = true ↔ claims.get "is_guest" = .bool true := by
  unfold isGuestClaim
  cases h : claims.get "is_guest" <;> simp [GoVal.asBool]

/-- C11: for every request whose non-revoked token `jwt.Parse` returns as valid, whose expiry
re-check passes and whose claim `is_guest` is the boolean true, `JwtVerify` calls `jwt.Parse`
and then the next handler, and that is all it does: no user-store query is made, whatever
the user store would answer. The context handed on has `userID` = the claim `user_id`,
`username = "guest"` whatever the claim `username` is, and `is_guest = true`. -/
theorem guest_accepted_without_query (env : Env) (store : TokenMap) (r : Request)
    (claims : MapClaims) (hr : ReachesClaims env store r claims)
    (hexp : tokenExpired env.now claims = false)
    (hguest : claims.get "is_guest" = .bool true) :
    JwtVerify env store r
        = [Effect.parse (extractToken r), Effect.next (guestContext r claims)] ∧
      (JwtVerify env store r).any Effect.isQuery = false ∧
      (guestContext r claims).Value "userID" = claims.get "user_id" ∧
      (guestContext r claims).Value "username" = .string "guest" ∧
      (guestContext r claims).Value "is_guest" = .bool true := by
  have hg : isGuestClaim claims = true := (isGuestClaim_eq_true_iff claims).2 hguest
  have htr : JwtVerify env store r
      = [Effect.parse (extractToken r), Effect.next (guestContext r claims)] := by
    rw [JwtVerify_of_reaches env store r claims hr]
    simp [hexp, hg]
  refine ⟨htr, ?_, ?_, ?_, ?_⟩
  · rw [htr]; simp [Effect.isQuery]
  · simp [guestContext, Context.WithValue, Context.Value]
  · simp [guestContext, Context.WithValue, Context.Value]
  · simp [guestContext, Context.WithValue, Context.Value]

theorem guest_accepted_without_query_witness :
    ReachesClaims (libEnv demoGuestCodec demoKey 2000 (timeUnix 2000) failingUserStore)
      emptyTokens (bearerRequest "aGRy.bWFsbG9yeQ.c2ln")
      [("user_id", .string "guest_u-2"), ("username", .string "mallory"),
       ("is_guest", .bool true), ("exp", .float64 87400), ("iat", .float64 1000)] ∧
    JwtVerify (libEnv demoGuestCodec demoKey 2000 (timeUnix 2000) failingUserStore)
        emptyTokens (bearerRequest "aGRy.bWFsbG9yeQ.c2ln")
      = [Effect.parse "aGRy.bWFsbG9yeQ.c2ln",
         Effect.next [("is_guest", .bool true), ("username", .string "guest"),
           ("userID", .string "guest_u-2")]] :=
  have hr : ReachesClaims (libEnv demoGuestCodec demoKey 2000 (timeUnix 2000) failingUserStore)
      emptyTokens (bearerRequest "aGRy.bWFsbG9yeQ.c2ln")
      [("user_id", .string "guest_u-2"), ("username", .string "mallory"),
       ("is_guest", .bool true), ("exp", .float64 87400), ("iat", .float64 1000)] :=
    ⟨by decide, by decide,
      ⟨"aGRy.bWFsbG9yeQ.c2ln", .HS256,
        .map [("user_id", .string "guest_u-2"), ("username", .string "mallory"),
          ("is_guest", .bool true), ("exp", .float64 87400), ("iat", .float64 1000)], true⟩,
      by decide, by decide, rfl, rfl⟩
  ⟨hr, (guest_accepted_without_query _ emptyTokens (bearerRequest "aGRy.bWFsbG9yeQ.c2ln") _
    hr (by decide) (by decide)).1⟩

/-- C12: for every request whose non-revoked token `jwt.Parse` returns as valid, whose
expiry re-check passes and whose claims do not mark a guest, `JwtVerify` invokes the next
handler only if the user store, asked for the claimed id together with the claimed
username, answers that the row exists; when it answers that it does not, the effects are
the parse, the query and the 401 response, and the next handler is not invoked. -/
theorem member_needs_user_row (env : Env) (store : TokenMap) (r : Request)
    (claims : MapClaims) (hr : ReachesClaims env store r claims)
    (hexp : tokenExpired env.now claims = false)
    (hng : isGuestClaim claims = false) :
    ((JwtVerify env store r).any Effect.isNext = true →
      ∃ uid username, claims.get "user_id" = .float64 uid ∧
        claims.get "username" = .string username ∧
        env.userExists (int64OfFloat64 uid) username = .ok true ∧
        JwtVerify env store r
          = [Effect.parse (extractToken r), Effect.queryUser (int64OfFloat64 uid) username,
             Effect.next (userContext r (int64OfFloat64 uid) username)]) ∧
    (∀ uid username, claims.get "user_id" = .float64 uid →
      claims.get "username" = .string username →
      env.userExists (int64OfFloat64 uid) username = .ok false →
      JwtVerify env store r
          = [Effect.parse (extractToken r), Effect.queryUser (int64OfFloat64 uid) username,
             SendError 401 "Kullanıcı bulunamadı veya pasif durumda"] ∧
        (JwtVerify env store r).any Effect.isNext = false) := by
  have htr := JwtVerify_of_reaches env store r claims hr
  simp only [hexp, hng, if_false, Bool.false_eq_true] at htr
  refine ⟨?_, ?_⟩
  · intro hnext
    rw [htr] at hnext ⊢
    cases h9 : claims.get "user_id" with
    | float64 uid =>
      cases h10 : claims.get "username" with
      | string username =>
        cases h11 : env.userExists (int64OfFloat64 uid) username with
        | error e =>
          simp [h9, h10, h11, GoVal.asFloat64, GoVal.asString, SendError, SendResponse,
            Effect.isNext] at hnext
        | ok b =>
          cases b with
          | false =>
            simp [h9, h10, h11, GoVal.asFloat64, GoVal.asString, SendError, SendResponse,
              Effect.isNext] at hnext
          | true =>
            exact ⟨uid, username, rfl, rfl, h11,
              by simp [h11, GoVal.asFloat64, GoVal.asString]⟩
      | _ => simp [h9, h10, GoVal.asFloat64, GoVal.asString, Effect.isNext] at hnext
    | _ => simp [h9, GoVal.asFloat64, Effect.isNext] at hnext
  · intro uid username h9 h10 h11
    have h : JwtVerify env store r
        = [Effect.parse (extractToken r), Effect.queryUser (int64OfFloat64 uid) username,
           SendError 401 "Kullanıcı bulunamadı veya pasif durumda"] := by
      rw [htr]
      simp [h9, h10, h11, GoVal.asFloat64, GoVal.asString, StatusUnauthorized]
    refine ⟨h, ?_⟩
    rw [h]
    simp [Effect.isNext, SendError, SendResponse]

/-- The sample token of `(42, "alice")` gets to the claims checks at second 2000, whatever
the user store. -/
theorem alice_reachesClaims (userExists : Int → String → Except String Bool) :
    ReachesClaims (libEnv demoCodec demoKey 2000 (timeUnix 2000) userExists) emptyTokens
      (bearerRequest "aGRy.YWxpY2U.c2ln")
      (userClaims (timeUnix 1000) (timeUnix 1000) "jti-1" 42 "alice").roundTrip :=
  ⟨by decide, by decide,
    ⟨"aGRy.YWxpY2U.c2ln", .HS256,
      .map (userClaims (timeUnix 1000) (timeUnix 1000) "jti-1" 42 "alice").roundTrip, true⟩,
    by
      show (jwtParse demoCodec 2000 (extractToken (bearerRequest "aGRy.YWxpY2U.c2ln"))
        (jwtVerifyKeyFunc demoKey)).err = none
      decide,
    by
      show (jwtParse demoCodec 2000 (extractToken (bearerRequest "aGRy.YWxpY2U.c2ln"))
        (jwtVerifyKeyFunc demoKey)).token = _
      decide,
    rfl, rfl⟩

theorem member_needs_user_row_witness :
    ReachesClaims (libEnv demoCodec demoKey 2000 (timeUnix 2000) (singleUserStore 42 "alicia"))
      emptyTokens (bearerRequest "aGRy.YWxpY2U.c2ln")
      (userClaims (timeUnix 1000) (timeUnix 1000) "jti-1" 42 "alice").roundTrip ∧
    singleUserStore 42 "alicia" (int64OfFloat64 42) "alice" = .ok false ∧
    (JwtVerify (libEnv demoCodec demoKey 2000 (timeUnix 2000) (singleUserStore 42 "alicia"))
          emptyTokens (bearerRequest "aGRy.YWxpY2U.c2ln")
        = [Effect.parse (extractToken (bearerRequest "aGRy.YWxpY2U.c2ln")),
           Effect.queryUser (int64OfFloat64 42) "alice",
           SendError 401 "Kullanıcı bulunamadı veya pasif durumda"] ∧
      (JwtVerify (libEnv demoCodec demoKey 2000 (timeUnix 2000) (singleUserStore 42 "alicia"))
          emptyTokens (bearerRequest "aGRy.YWxpY2U.c2ln")).any Effect.isNext = false) :=
  ⟨alice_reachesClaims _, by rfl,
    (member_needs_user_row _ emptyTokens (bearerRequest "aGRy.YWxpY2U.c2ln") _
      (alice_reachesClaims _) (by decide) (by decide)).2 42 "alice" (by decide) (by decide)
      (by rfl)⟩

/-- C13 (as stated, refuted): the sample token of `(42, "alice")`, valid, unexpired, not
revoked and not a guest token, presented while the user store is down (the query returns an
error): `JwtVerify` writes the status 401, not 500. -/
theorem user_store_error_gives_401 :
    failingUserStore 42 "alice" = .error "connection refused" ∧
    JwtVerify (libEnv demoCodec demoKey 2000 (timeUnix 2000) failingUserStore) emptyTokens
        (bearerRequest "aGRy.YWxpY2U.c2ln")
      = [Effect.parse "aGRy.YWxpY2U.c2ln", Effect.queryUser 42 "alice",
         Effect.write "application/json" 401
           ⟨false, "", .nil, "Kullanıcı bulunamadı veya pasif durumda"⟩] ∧
    (JwtVerify (libEnv demoCodec demoKey 2000 (timeUnix 2000) failingUserStore) emptyTokens
        (bearerRequest "aGRy.YWxpY2U.c2ln")).all (fun e => decide (e.status ≠ some 500))
      = true := by
  refine ⟨by rfl, by decide, by decide⟩

/-- The effects of `RequireAdmin` on a member request whose role query fails. -/
theorem RequireAdmin_of_query_error (roles : RoleStore) (r : Request) (userID : Int)
    (e : String) (hmember : r.ctx.Value "is_guest" = .bool false)
    (hid : r.ctx.Value "userID" = .int userID) (herr : roles userID = .error e) :
    RequireAdmin roles r
      = [Effect.queryRoles userID,
         SendError 500 "Kullanıcı rolleri kontrol edilirken hata oluştu"] := by
  simp [RequireAdmin, hmember, hid, herr, GoVal.asBool, GoVal.asInt, StatusInternalServerError]

/-- C13 (amended): when the user-existence query of `JwtVerify` returns an error for an
otherwise valid, unexpired, non-revoked, non-guest token, the request is treated like one of
a missing user: the response status is 401 (message `Kullanıcı bulunamadı veya pasif
durumda`) and the next handler is not invoked. A 500 response is what `RequireAdmin`
surfaces when its role query returns an error. -/
theorem store_failure_statuses (env : Env) (store : TokenMap) (r : Request)
    (claims : MapClaims) (uid : ℚ) (username : String) (e : String)
    (hr : ReachesClaims env store r claims)
    (hexp : tokenExpired env.now claims = false)
    (hng : isGuestClaim claims = false)
    (huid : claims.get "user_id" = .float64 uid)
    (huname : claims.get "username" = .string username)
    (herr : env.userExists (int64OfFloat64 uid) username = .error e) :
    JwtVerify env store r
        = [Effect.parse (extractToken r), Effect.queryUser (int64OfFloat64 uid) username,
           SendError 401 "Kullanıcı bulunamadı veya pasif durumda"] ∧
      (JwtVerify env store r).any Effect.isNext = false ∧
      (∀ (roles : RoleStore) (r' : Request) (userID : Int) (e' : String),
        r'.ctx.Value "is_guest" = .bool false → r'.ctx.Value "userID" = .int userID →
        roles userID = .error e' →
        RequireAdmin roles r'
          = [Effect.queryRoles userID,
             SendError 500 "Kullanıcı rolleri kontrol edilirken hata oluştu"]) := by
  have h : JwtVerify env store r
      = [Effect.parse (extractToken r), Effect.queryUser (int64OfFloat64 uid) username,
         SendError 401 "Kullanıcı bulunamadı veya pasif durumda"] := by
    rw [JwtVerify_of_reaches env store r claims hr]
    simp [hexp, hng, huid, huname, herr, GoVal.asFloat64, GoVal.asString, StatusUnauthorized]
  refine ⟨h, ?_, ?_⟩
  · rw [h]; simp [Effect.isNext, SendError, SendResponse]
  · intro roles r' userID e' h1 h2 h3
    exact RequireAdmin_of_query_error roles r' userID e' h1 h2 h3

theorem store_failure_statuses_witness :
    ReachesClaims (libEnv demoCodec demoKey 2000 (timeUnix 2000) failingUserStore)
      emptyTokens (bearerRequest "aGRy.YWxpY2U.c2ln")
      (userClaims (timeUnix 1000) (timeUnix 1000) "jti-1" 42 "alice").roundTrip ∧
    failingUserStore (int64OfFloat64 42) "alice" = .error "connection refused" ∧
    JwtVerify (libEnv demoCodec demoKey 2000 (timeUnix 2000) failingUserStore)
        emptyTokens (bearerRequest "aGRy.YWxpY2U.c2ln")
      = [Effect.parse (extractToken (bearerRequest "aGRy.YWxpY2U.c2ln")),
         Effect.queryUser (int64OfFloat64 42) "alice",
         SendError 401 "Kullanıcı bulunamadı veya pasif durumda"] :=
  ⟨alice_reachesClaims _, by rfl,
    (store_failure_statuses _ emptyTokens (bearerRequest "aGRy.YWxpY2U.c2ln") _ 42 "alice"
      "connection refused" (alice_reachesClaims _) (by decide) (by decide) (by decide)
      (by decide) (by rfl)).1⟩

/-! ## The role middleware: claims -/

/-- The loop over rows that are all read: the flag tells whether `"Admin"` is among them. -/
theorem scanRoles_map_ok (names : List String) :
    scanRoles (names.map Except.ok) = .ok (decide ("Admin" ∈ names)) := by
  induction names with
  | nil => simp [scanRoles]
  | cons n rest ih =>
    by_cases h : n = "Admin"
    · simp [scanRoles, h]
    · have h' : ¬ "Admin" = n := fun e => h e.symm
      simp [scanRoles, h, h', ih]

/-- The loop ends without error and with the flag unset only when every row was read and
none of them is `"Admin"`. -/
theorem scanRoles_eq_ok_false (rows : List (Except String String))
    (h : scanRoles rows = .ok false) :
    ∃ names : List String, rows = names.map Except.ok ∧ "Admin" ∉ names := by
  induction rows with
  | nil => exact ⟨[], rfl, by simp⟩
  | cons row rest ih =>
    cases row with
    | error e => simp [scanRoles] at h
    | ok role =>
      by_cases hr : role = "Admin"
      · simp [scanRoles, hr] at h
      · simp only [scanRoles, hr, if_false] at h
        obtain ⟨names, hn, hnot⟩ := ih h
        refine ⟨role :: names, by simp [hn], ?_⟩
        intro hmem
        rcases List.mem_cons.1 hmem with h1 | h1
        · exact hr h1.symm
        · exact hnot h1

/-- A row that cannot be read, after rows that are read and are not `"Admin"`, ends the loop
with its error. -/
theorem scanRoles_error_before_admin (pre : List String) (e : String)
    (post : List (Except String String)) (hpre : "Admin" ∉ pre) :
    scanRoles (pre.map Except.ok ++ Except.error e :: post) = .error e := by
  induction pre with
  | nil => simp [scanRoles]
  | cons n rest ih =>
    have hn : n ≠ "Admin" := fun h => hpre (by simp [h])
    have hrest : "Admin" ∉ rest := fun h => hpre (List.mem_cons_of_mem _ h)
    simp [scanRoles, hn, ih hrest]

/-- The effects of `RequireAdmin` on a request without the boolean false under `is_guest`. -/
theorem RequireAdmin_of_not_member (roles : RoleStore) (r : Request)
    (h : (r.ctx.Value "is_guest").asBool ≠ some false) :
    RequireAdmin roles r
      = [SendError 403 "Bu işlem için üye girişi yapmanız gerekmektedir"] := by
  unfold RequireAdmin
  split
  · rename_i heq
    exact absurd heq h
  · simp [StatusForbidden]

/-- The effects of `RequireAdmin` on a member request, by the answer of the role store. -/
theorem RequireAdmin_of_member (roles : RoleStore) (r : Request) (userID : Int)
    (hmember : r.ctx.Value "is_guest" = .bool false)
    (hid : r.ctx.Value "userID" = .int userID) :
    RequireAdmin roles r = Effect.queryRoles userID ::
      match roles userID with
      | .error _ => [SendError 500 "Kullanıcı rolleri kontrol edilirken hata oluştu"]
      | .ok res =>
        match scanRoles res.rows with
        | .error _ => [SendError 500 "Rol bilgisi okunurken hata"]
        | .ok false => [SendError 403 "Bu işlem için admin yetkisi gerekmektedir"]
        | .ok true => [Effect.next r.ctx] := by
  simp only [RequireAdmin, hmember, hid, GoVal.asBool, GoVal.asInt, StatusForbidden,
    StatusInternalServerError]
  congr 1
  cases roles userID with
  | error e => rfl
  | ok res =>
    simp only
    cases scanRoles res.rows with
    | error e => rfl
    | ok b => cases b <;> simp

/-- C14: for every request whose context has `is_guest = true` or has no boolean under
`is_guest` at all, `RequireAdmin` and `RequireNonGuest` perform exactly one effect, the 403
response: the next handler is not invoked, and `RequireAdmin` makes no role query, so its
effects are the same for every role store. -/
theorem guest_forbidden (r : Request)
    (h : r.ctx.Value "is_guest" = .bool true ∨ (r.ctx.Value "is_guest").asBool = none) :
    (∀ roles : RoleStore,
      RequireAdmin roles r
          = [Effect.write "application/json" 403
              ⟨false, "", .nil, "Bu işlem için üye girişi yapmanız gerekmektedir"⟩] ∧
        (RequireAdmin roles r).any Effect.isRoleQuery = false ∧
        (RequireAdmin roles r).any Effect.isNext = false) ∧
      RequireNonGuest r
        = [Effect.write "application/json" 403
            ⟨false, "", .nil, "Bu işlem için üye girişi yapmanız gerekmektedir"⟩] ∧
      (RequireNonGuest r).any Effect.isNext = false := by
  have hnm : (r.ctx.Value "is_guest").asBool ≠ some false := by
    rcases h with h | h
    · simp [h, GoVal.asBool]
    · simp [h]
  have h2 : RequireNonGuest r
      = [Effect.write "application/json" 403
          ⟨false, "", .nil, "Bu işlem için üye girişi yapmanız gerekmektedir"⟩] := by
    unfold RequireNonGuest
    split
    · rename_i heq
      exact absurd heq hnm
    · simp [SendError, SendResponse, StatusForbidden]
  refine ⟨?_, h2, ?_⟩
  · intro roles
    have h1 := RequireAdmin_of_not_member roles r hnm
    rw [h1]
    simp [SendError, SendResponse, Effect.isRoleQuery, Effect.isNext]
  · rw [h2]; simp [Effect.isNext]

theorem guest_forbidden_witness :
    ((⟨[], [], guestContext bareRequest
          (guestClaims (timeUnix 1000) (timeUnix 1000) "u-1" "jti-5").roundTrip⟩ :
        Request).ctx.Value "is_guest" = .bool true ∨
      ((⟨[], [], guestContext bareRequest
          (guestClaims (timeUnix 1000) (timeUnix 1000) "u-1" "jti-5").roundTrip⟩ :
        Request).ctx.Value "is_guest").asBool = none) ∧
    RequireAdmin (constRoles ["User", "Admin"])
        ⟨[], [], guestContext bareRequest
          (guestClaims (timeUnix 1000) (timeUnix 1000) "u-1" "jti-5").roundTrip⟩
      = [Effect.write "application/json" 403
          ⟨false, "", .nil, "Bu işlem için üye girişi yapmanız gerekmektedir"⟩] :=
  ⟨Or.inl (by decide),
    ((guest_forbidden
      ⟨[], [], guestContext bareRequest
        (guestClaims (timeUnix 1000) (timeUnix 1000) "u-1" "jti-5").roundTrip⟩
      (Or.inl (by decide))).1 (constRoles ["User", "Admin"])).1⟩

/-- C15: for every member request (`is_guest = false`, `userID` an `int`) and every list of
role names that the role lookup returns without error, `RequireAdmin` queries the roles of
that user and then invokes the next handler if and only if the exact string `"Admin"` occurs
in the list; otherwise it responds 403. The list is the rows that the iteration delivers,
whatever `rows.Err()` would report afterwards. -/
theorem admin_iff_role_present (roles : RoleStore) (r : Request) (userID : Int)
    (names : List String) (rowsErr : Option String)
    (hmember : r.ctx.Value "is_guest" = .bool false)
    (hid : r.ctx.Value "userID" = .int userID)
    (hroles : roles userID = .ok ⟨names.map Except.ok, rowsErr⟩) :
    ((RequireAdmin roles r).any Effect.isNext = true ↔ "Admin" ∈ names) ∧
      ("Admin" ∈ names →
        RequireAdmin roles r = [Effect.queryRoles userID, Effect.next r.ctx]) ∧
      ("Admin" ∉ names →
        RequireAdmin roles r
          = [Effect.queryRoles userID,
             Effect.write "application/json" 403
               ⟨false, "", .nil, "Bu işlem için admin yetkisi gerekmektedir"⟩]) := by
  have htr := RequireAdmin_of_member roles r userID hmember hid
  rw [hroles] at htr
  simp only [scanRoles_map_ok] at htr
  by_cases hin : "Admin" ∈ names
  · have h : RequireAdmin roles r = [Effect.queryRoles userID, Effect.next r.ctx] := by
      rw [htr]; simp [hin]
    refine ⟨?_, fun _ => h, fun hn => absurd hin hn⟩
    rw [h]; simp [Effect.isNext, hin]
  · have h : RequireAdmin roles r
        = [Effect.queryRoles userID,
           Effect.write "application/json" 403
             ⟨false, "", .nil, "Bu işlem için admin yetkisi gerekmektedir"⟩] := by
      rw [htr]; simp [hin, SendError, SendResponse]
    refine ⟨?_, fun hy => absurd hy hin, fun _ => h⟩
    rw [h]; simp [Effect.isNext, hin]

theorem admin_iff_role_present_witness :
    (memberRequest 42 "alice").ctx.Value "is_guest" = .bool false ∧
    (memberRequest 42 "alice").ctx.Value "userID" = .int 42 ∧
    RequireAdmin (constRoles ["User"]) (memberRequest 42 "alice")
      = [Effect.queryRoles 42,
         Effect.write "application/json" 403
           ⟨false, "", .nil, "Bu işlem için admin yetkisi gerekmektedir"⟩] ∧
    RequireAdmin (constRoles ["User", "Admin"]) (memberRequest 42 "alice")
      = [Effect.queryRoles 42, Effect.next (memberRequest 42 "alice").ctx] ∧
    RequireAdmin (constRoles []) (memberRequest 42 "alice")
      = [Effect.queryRoles 42,
         Effect.write "application/json" 403
           ⟨false, "", .nil, "Bu işlem için admin yetkisi gerekmektedir"⟩] :=
  ⟨by decide, by decide,
    (admin_iff_role_present (constRoles ["User"]) (memberRequest 42 "alice") 42 ["User"] none
      (by decide) (by decide) rfl).2.2 (by decide),
    (admin_iff_role_present (constRoles ["User", "Admin"]) (memberRequest 42 "alice") 42
      ["User", "Admin"] none (by decide) (by decide) rfl).2.1 (by decide),
    (admin_iff_role_present (constRoles []) (memberRequest 42 "alice") 42 [] none
      (by decide) (by decide) rfl).2.2 (by decide)⟩

/-- C16 (as stated, refuted): a member request whose role rows are `"User"` and then end
because reading them failed (`rows.Next()` returns false, `rows.Err()` holds the error):
`RequireAdmin` never consults `rows.Err()` and responds 403, not 500, although the role list
was not read completely. -/
theorem truncated_read_gives_403 :
    (memberRequest 42 "alice").ctx.Value "is_guest" = .bool false ∧
    (memberRequest 42 "alice").ctx.Value "userID" = .int 42 ∧
    RequireAdmin (fun _ => .ok ⟨[.ok "User"], some "unexpected EOF"⟩)
        (memberRequest 42 "alice")
      = [Effect.queryRoles 42,
         Effect.write "application/json" 403
           ⟨false, "", .nil, "Bu işlem için admin yetkisi gerekmektedir"⟩] := by
  refine ⟨by decide, by decide, by decide⟩

/-- C16 (amended): for every member request (`is_guest = false`, `userID` an `int`), when
`pool.Query` returns an error, or when `rows.Scan` fails on a row before a row `"Admin"` has
been seen, `RequireAdmin` responds 500 after the query and does nothing else (no 403, no call
of the next handler). For every request, a 403 from `RequireAdmin` comes only with a guest or
missing identity, or when every row that the iteration delivered was scanned without error
and none of them is `"Admin"`; the error with which the iteration may have ended is not
consulted, so rows that lack `"Admin"` give 403 also when the read ended early. -/
theorem role_failure_is_500 (roles : RoleStore) (r : Request) (userID : Int)
    (hmember : r.ctx.Value "is_guest" = .bool false)
    (hid : r.ctx.Value "userID" = .int userID) :
    (∀ e, roles userID = .error e →
      RequireAdmin roles r
        = [Effect.queryRoles userID,
           Effect.write "application/json" 500
             ⟨false, "", .nil, "Kullanıcı rolleri kontrol edilirken hata oluştu"⟩]) ∧
    (∀ (pre : List String) (e : String) (post : List (Except String String))
        (rowsErr : Option String),
      roles userID = .ok ⟨pre.map Except.ok ++ Except.error e :: post, rowsErr⟩ →
      "Admin" ∉ pre →
      RequireAdmin roles r
        = [Effect.queryRoles userID,
           Effect.write "application/json" 500
             ⟨false, "", .nil, "Rol bilgisi okunurken hata"⟩]) ∧
    (∀ (names : List String) (rowsErr : Option String),
      roles userID = .ok ⟨names.map Except.ok, rowsErr⟩ → "Admin" ∉ names →
      RequireAdmin roles r
        = [Effect.queryRoles userID,
           Effect.write "application/json" 403
             ⟨false, "", .nil, "Bu işlem için admin yetkisi gerekmektedir"⟩]) ∧
    (∀ (roles' : RoleStore) (r' : Request),
      (∃ x ∈ RequireAdmin roles' r', x.status = some 403) →
      (r'.ctx.Value "is_guest").asBool ≠ some false ∨
        ∃ (uid : Int) (names : List String) (rowsErr : Option String),
          r'.ctx.Value "userID" = .int uid ∧
          roles' uid = .ok ⟨names.map Except.ok, rowsErr⟩ ∧ "Admin" ∉ names) := by
  have htr := RequireAdmin_of_member roles r userID hmember hid
  refine ⟨?_, ?_, ?_, ?_⟩
  · intro e he
    rw [htr, he]
    simp [SendError, SendResponse]
  · intro pre e post rowsErr hrows hpre
    rw [htr, hrows]
    simp only [scanRoles_error_before_admin pre e post hpre]
    simp [SendError, SendResponse]
  · intro names rowsErr hrows hnot
    rw [htr, hrows]
    simp only [scanRoles_map_ok]
    simp [hnot, SendError, SendResponse]
  · intro roles' r' hx
    by_cases hg : (r'.ctx.Value "is_guest").asBool = some false
    swap
    · exact Or.inl hg
    right
    have hm : r'.ctx.Value "is_guest" = .bool false := by
      cases hv : r'.ctx.Value "is_guest" <;> simp [hv, GoVal.asBool] at hg
      simp [hg]
    cases hu : r'.ctx.Value "userID" with
    | int uid =>
      have h' := RequireAdmin_of_member roles' r' uid hm hu
      rw [h'] at hx
      cases hq : roles' uid with
      | error e =>
        simp [hq, SendError, SendResponse, Effect.status] at hx
      | ok res =>
        cases hs : scanRoles res.rows with
        | error e =>
          simp [hq, hs, SendError, SendResponse, Effect.status] at hx
        | ok b =>
          cases b with
          | true => simp [hq, hs, Effect.status] at hx
          | false =>
            obtain ⟨names, hn, hnot⟩ := scanRoles_eq_ok_false res.rows hs
            refine ⟨uid, names, res.err, rfl, ?_, hnot⟩
            rw [← hn, hq]
    | _ =>
      simp [RequireAdmin, hm, hu, GoVal.asBool, GoVal.asInt, Effect.status] at hx

theorem role_failure_is_500_witness :
    (memberRequest 42 "alice").ctx.Value "is_guest" = .bool false ∧
    (memberRequest 42 "alice").ctx.Value "userID" = .int 42 ∧
    RequireAdmin (fun _ => .ok ⟨[.ok "User", .error "scan failed", .ok "Admin"], none⟩)
        (memberRequest 42 "alice")
      = [Effect.queryRoles 42,
         Effect.write "application/json" 500
           ⟨false, "", .nil, "Rol bilgisi okunurken hata"⟩] ∧
    RequireAdmin (fun _ => .error "connection refused") (memberRequest 42 "alice")
      = [Effect.queryRoles 42,
         Effect.write "application/json" 500
           ⟨false, "", .nil, "Kullanıcı rolleri kontrol edilirken hata oluştu"⟩] :=
  ⟨by decide, by decide,
    (role_failure_is_500
      (fun _ => .ok ⟨[.ok "User", .error "scan failed", .ok "Admin"], none⟩)
      (memberRequest 42 "alice") 42 (by decide) (by decide)).2.1 ["User"] "scan failed"
      [.ok "Admin"] none rfl (by decide),
    (role_failure_is_500 (fun _ => .error "connection refused")
      (memberRequest 42 "alice") 42 (by decide) (by decide)).1 "connection refused" rfl⟩

/-! ## `extractToken` -/

/-- The test of line 115 holds exactly when the header is `"Bearer "` followed by a
non-empty rest. -/
theorem bearer_test_iff (h : String) :
    (h.data.length > 7 ∧ h.data.take 7 = "Bearer ".data) ↔
      ∃ rest : String, rest ≠ "" ∧ h = "Bearer " ++ rest := by
  constructor
  · rintro ⟨hlen, htake⟩
    refine ⟨String.mk (h.data.drop 7), ?_, ?_⟩
    · intro hempty
      have hd : (String.mk (h.data.drop 7)).data = ("" : String).data := by rw [hempty]
      have hnil : h.data.drop 7 = [] := by simpa using hd
      rw [List.drop_eq_nil_iff] at hnil
      omega
    · apply String.ext
      rw [String.data_append, ← htake]
      exact (List.take_append_drop 7 h.data).symm
  · rintro ⟨rest, hne, rfl⟩
    have hrest : rest.data ≠ [] := by
      intro hnil
      apply hne
      apply String.ext
      simpa using hnil
    have hpos : 0 < rest.data.length := List.length_pos.2 hrest
    have h7 : "Bearer ".data.length = 7 := by decide
    refine ⟨?_, ?_⟩
    · rw [String.data_append, List.length_append, h7]
      omega
    · rw [String.data_append]
      rw [← h7]
      exact List.take_left' rfl

/-- C17: `extractToken` returns the text after the prefix `"Bearer "` whenever the
`Authorization` header is that prefix followed by a non-empty rest, whatever the cookies;
otherwise it returns the value of the first cookie named `token` when there is one; otherwise
it returns the empty string. -/
theorem extractToken_spec (r : Request) :
    (∀ rest : String, rest ≠ "" → r.HeaderGet "Authorization" = "Bearer " ++ rest →
      extractToken r = rest) ∧
    ((¬ ∃ rest : String, rest ≠ "" ∧ r.HeaderGet "Authorization" = "Bearer " ++ rest) →
      (∀ value, r.Cookie "token" = some value → extractToken r = value) ∧
      (r.Cookie "token" = none → extractToken r = "")) := by
  refine ⟨?_, ?_⟩
  · intro rest hne hh
    have hcond := (bearer_test_iff (r.HeaderGet "Authorization")).2 ⟨rest, hne, hh⟩
    have h7 : "Bearer ".data.length = 7 := by decide
    unfold extractToken
    simp only [hcond, and_self, if_true]
    apply String.ext
    rw [hh, String.data_append]
    show List.drop 7 ("Bearer ".data ++ rest.data) = rest.data
    rw [← h7]
    exact List.drop_left' rfl
  · intro hno
    have hcond : ¬ ((r.HeaderGet "Authorization").data.length > 7 ∧
        (r.HeaderGet "Authorization").data.take 7 = "Bearer ".data) :=
      fun hc => hno ((bearer_test_iff _).1 hc)
    refine ⟨?_, ?_⟩
    · intro value hc
      unfold extractToken
      simp only [hcond, if_false, hc]
    · intro hc
      unfold extractToken
      simp only [hcond, if_false, hc]

theorem extractToken_spec_witness :
    ("abc" : String) ≠ "" ∧
    (⟨[("Authorization", "Bearer abc")], [("token", "xyz")], []⟩ : Request).HeaderGet
      "Authorization" = "Bearer " ++ "abc" ∧
    extractToken ⟨[("Authorization", "Bearer abc")], [("token", "xyz")], []⟩ = "abc" :=
  ⟨by decide, by decide,
    (extractToken_spec ⟨[("Authorization", "Bearer abc")], [("token", "xyz")], []⟩).1 "abc"
      (by decide) (by decide)⟩

/-! ## `Logout` -/

/-- With the library's `jwt.Parse`, the unchecked accesses of `Logout` do not panic. -/
theorem logoutStore_jwtParse_isSome (c : Codec) (nowParse : Int) (tok : String)
    (keyFunc : Token → Except String Key) (store : TokenMap) :
    ∃ store', logoutStore store tok (jwtParse c nowParse tok keyFunc) = some store' := by
  cases herr : (jwtParse c nowParse tok keyFunc).err with
  | some e => exact ⟨store, by simp [logoutStore, herr]⟩
  | none =>
    obtain ⟨m, claims, key, _, _, _, _, htok⟩ := jwtParse_ok c nowParse tok keyFunc herr
    cases hexp : (claims.get "exp").asFloat64 with
    | none => exact ⟨store, by simp [logoutStore, herr, htok, hexp]⟩
    | some x =>
      exact ⟨BlacklistToken store tok (timeUnix (int64OfFloat64 x)),
        by simp [logoutStore, herr, htok, hexp]⟩

/-- The effects of `Logout` with the library's `jwt.Parse`. -/
theorem Logout_effects (c : Codec) (jwtKey : Key) (nowParse : Int) (now : Time)
    (userExists : Int → String → Except String Bool) (store : TokenMap) (r : Request) :
    (Logout (libEnv c jwtKey nowParse now userExists) store r).2
      = if extractToken r ≠ "" then
          [Effect.parse (extractToken r), Effect.setCookie clearedCookie,
           SendSuccess "Başarıyla çıkış yapıldı" .nil]
        else [SendSuccess "Başarıyla çıkış yapıldı" .nil] := by
  by_cases h : extractToken r = ""
  · simp [Logout, h]
  · obtain ⟨store', hs⟩ := logoutStore_jwtParse_isSome c nowParse (extractToken r)
      (logoutKeyFunc jwtKey) store
    simp [Logout, h, libEnv, hs]

/-- C18: for every request and every store, `Logout` writes exactly one response, the 200
success response, as its last effect; run a second time with the same request, on the store
that the first run left and at any later clock reading, it does so again. -/
theorem logout_always_succeeds (c : Codec) (jwtKey : Key) (nowParse nowParse2 : Int)
    (now : Time) (userExists : Int → String → Except String Bool) (store : TokenMap)
    (r : Request) :
    (Logout (libEnv c jwtKey nowParse now userExists) store r).2.getLast?
        = some (Effect.write "application/json" 200
            ⟨true, "Başarıyla çıkış yapıldı", .nil, ""⟩) ∧
      (Logout (libEnv c jwtKey nowParse now userExists) store r).2.filter Effect.isWrite
        = [Effect.write "application/json" 200
            ⟨true, "Başarıyla çıkış yapıldı", .nil, ""⟩] ∧
      (Logout (libEnv c jwtKey nowParse2 now userExists)
          (Logout (libEnv c jwtKey nowParse now userExists) store r).1 r).2.getLast?
        = some (Effect.write "application/json" 200
            ⟨true, "Başarıyla çıkış yapıldı", .nil, ""⟩) ∧
      (Logout (libEnv c jwtKey nowParse2 now userExists)
          (Logout (libEnv c jwtKey nowParse now userExists) store r).1 r).2.filter
          Effect.isWrite
        = [Effect.write "application/json" 200
            ⟨true, "Başarıyla çıkış yapıldı", .nil, ""⟩] := by
  have key : ∀ (np : Int) (st : TokenMap),
      (Logout (libEnv c jwtKey np now userExists) st r).2.getLast?
        = some (Effect.write "application/json" 200
            ⟨true, "Başarıyla çıkış yapıldı", .nil, ""⟩) ∧
      (Logout (libEnv c jwtKey np now userExists) st r).2.filter Effect.isWrite
        = [Effect.write "application/json" 200
            ⟨true, "Başarıyla çıkış yapıldı", .nil, ""⟩] := by
    intro np st
    rw [Logout_effects]
    by_cases h : extractToken r = ""
    · simp [h, SendSuccess, SendResponse, StatusOK, Effect.isWrite]
    · simp [h, SendSuccess, SendResponse, StatusOK, Effect.isWrite, List.filter_cons]
  exact ⟨(key nowParse store).1, (key nowParse store).2, (key nowParse2 _).1,
    (key nowParse2 _).2⟩

/-- The effects of `JwtVerify` on a request whose token is revoked. -/
theorem JwtVerify_of_revoked (env : Env) (store : TokenMap) (r : Request)
    (hne : extractToken r ≠ "")
    (hrev : IsTokenBlacklisted store (extractToken r) = true) :
    JwtVerify env store r = [SendError 401 "Token geçersiz kılınmış"] := by
  simp [JwtVerify, hne, hrev, StatusUnauthorized]

/-- C19: for every request whose token `jwt.Parse`, given the process secret, returns as
valid with a numeric `exp` claim, `Logout` leaves the store `BlacklistToken(token,
time.Unix(int64(exp), 0))`: the token is recorded with that expiry, the entries of all other
tokens are as before, and `JwtVerify` on the same request and the new store answers the 401
of a revoked token. For every request whose token fails to parse or is not valid, or that
carries no token, `Logout` leaves the store unchanged. -/
theorem logout_revokes_valid_token (env : Env) (store : TokenMap) (r : Request) :
    (∀ (t : Token) (claims : MapClaims) (x : ℚ), extractToken r ≠ "" →
      (env.parse (extractToken r) (logoutKeyFunc env.jwtKey)).err = none →
      (env.parse (extractToken r) (logoutKeyFunc env.jwtKey)).token = some t →
      t.Valid = true → t.Claims = .map claims → claims.get "exp" = .float64 x →
      (Logout env store r).1
          = BlacklistToken store (extractToken r) (timeUnix (int64OfFloat64 x)) ∧
        mapLookup (Logout env store r).1 (extractToken r)
          = some (timeUnix (int64OfFloat64 x)) ∧
        (∀ k, k ≠ extractToken r →
          mapLookup (Logout env store r).1 k = mapLookup store k) ∧
        (∀ env' : Env, JwtVerify env' (Logout env store r).1 r
          = [SendError 401 "Token geçersiz kılınmış"])) ∧
    (extractToken r ≠ "" →
      (env.parse (extractToken r) (logoutKeyFunc env.jwtKey)).err ≠ none →
      (Logout env store r).1 = store) ∧
    (∀ t : Token, extractToken r ≠ "" →
      (env.parse (extractToken r) (logoutKeyFunc env.jwtKey)).err = none →
      (env.parse (extractToken r) (logoutKeyFunc env.jwtKey)).token = some t →
      t.Valid = false → (Logout env store r).1 = store) ∧
    (extractToken r = "" → (Logout env store r).1 = store) := by
  refine ⟨?_, ?_, ?_, ?_⟩
  · intro t claims x hne herr htok hvalid hclaims hexp
    have h : (Logout env store r).1
        = BlacklistToken store (extractToken r) (timeUnix (int64OfFloat64 x)) := by
      simp [Logout, hne, logoutStore, herr, htok, hvalid, hclaims, hexp, GoVal.asFloat64]
    rw [h]
    refine ⟨rfl, mapLookup_mapSet_self _ _ _, ?_, ?_⟩
    · intro k hk
      exact mapLookup_mapSet_of_ne store k (extractToken r) _ (fun e => hk e.symm)
    · intro env'
      apply JwtVerify_of_revoked env' _ r hne
      simp [IsTokenBlacklisted, BlacklistToken, mapLookup_mapSet_self]
  · intro hne herr
    cases h : (env.parse (extractToken r) (logoutKeyFunc env.jwtKey)).err with
    | none => exact absurd h herr
    | some e => simp [Logout, hne, logoutStore, h]
  · intro t hne herr htok hvalid
    simp [Logout, hne, logoutStore, herr, htok, hvalid]
  · intro hempty
    simp [Logout, hempty]

theorem logout_revokes_valid_token_witness :
    extractToken (bearerRequest "aGRy.YWxpY2U.c2ln") ≠ "" ∧
    (Logout (libEnv demoCodec demoKey 2000 (timeUnix 2000) failingUserStore) emptyTokens
        (bearerRequest "aGRy.YWxpY2U.c2ln")).1
      = BlacklistToken emptyTokens (extractToken (bearerRequest "aGRy.YWxpY2U.c2ln"))
          (timeUnix (int64OfFloat64 87400)) ∧
    BlacklistToken emptyTokens (extractToken (bearerRequest "aGRy.YWxpY2U.c2ln"))
        (timeUnix (int64OfFloat64 87400)) = [("aGRy.YWxpY2U.c2ln", timeUnix 87400)] :=
  ⟨by decide,
    ((logout_revokes_valid_token
      (libEnv demoCodec demoKey 2000 (timeUnix 2000) failingUserStore) emptyTokens
      (bearerRequest "aGRy.YWxpY2U.c2ln")).1
      ⟨"aGRy.YWxpY2U.c2ln", .HS256,
        .map (userClaims (timeUnix 1000) (timeUnix 1000) "jti-1" 42 "alice").roundTrip, true⟩
      (userClaims (timeUnix 1000) (timeUnix 1000) "jti-1" 42 "alice").roundTrip 87400
      (by decide) (by decide) (by decide) rfl rfl (by decide)).1,
    by decide⟩

/-- C20 (as stated, refuted): on a request that carries no token (no `Authorization`
header, no cookie) `Logout` only writes the success response: no cookie is set. -/
theorem logout_without_token_sets_no_cookie :
    extractToken bareRequest = "" ∧
    (Logout (libEnv demoCodec demoKey 2000 (timeUnix 2000) failingUserStore) emptyTokens
        bareRequest).2
      = [Effect.write "application/json" 200 ⟨true, "Başarıyla çıkış yapıldı", .nil, ""⟩] ∧
    (Logout (libEnv demoCodec demoKey 2000 (timeUnix 2000) failingUserStore) emptyTokens
        bareRequest).2.any Effect.isSetCookie = false := by
  refine ⟨by decide, by decide, by decide⟩

/-- C20 (amended): for every request that carries a non-empty token, whether or not it
parses, `Logout` instructs the client to discard the credential: before the success response
it sets the cookie `token` to the empty value with `MaxAge = -1`, path `/` and `HttpOnly`.
When the request carries no token, no cookie is set. -/
theorem logout_clears_cookie (c : Codec) (jwtKey : Key) (nowParse : Int) (now : Time)
    (userExists : Int → String → Except String Bool) (store : TokenMap) (r : Request) :
    (extractToken r ≠ "" →
      (Logout (libEnv c jwtKey nowParse now userExists) store r).2
        = [Effect.parse (extractToken r),
           Effect.setCookie
             { Name := "token", Value := "", Path := "/", MaxAge := -1, HttpOnly := true },
           Effect.write "application/json" 200
             ⟨true, "Başarıyla çıkış yapıldı", .nil, ""⟩]) ∧
    (extractToken r = "" →
      (Logout (libEnv c jwtKey nowParse now userExists) store r).2.any Effect.isSetCookie
        = false) := by
  rw [Logout_effects]
  refine ⟨?_, ?_⟩
  · intro h
    simp [h, clearedCookie, SendSuccess, SendResponse, StatusOK]
  · intro h
    simp [h, SendSuccess, SendResponse, Effect.isSetCookie]

theorem logout_clears_cookie_witness :
    extractToken bearerNotAJwt ≠ "" ∧
    (Logout (libEnv demoCodec demoKey 2000 (timeUnix 2000) failingUserStore) emptyTokens
        bearerNotAJwt).2
      = [Effect.parse (extractToken bearerNotAJwt),
         Effect.setCookie
           { Name := "token", Value := "", Path := "/", MaxAge := -1, HttpOnly := true },
         Effect.write "application/json" 200
           ⟨true, "Başarıyla çıkış yapıldı", .nil, ""⟩] :=
  ⟨by decide,
    (logout_clears_cookie demoCodec demoKey 2000 (timeUnix 2000) failingUserStore emptyTokens
      bearerNotAJwt).1 (by decide)⟩

/-! ## The revocation store: frame, cleanup as a filter, idempotence -/

theorem mapDelete_mapDelete (m : TokenMap) (k : String) :
    mapDelete (mapDelete m k) k = mapDelete m k := by
  simp [mapDelete, List.filter_filter]

theorem mapDelete_mapSet (m : TokenMap) (k : String) (v : Time) :
    mapDelete (mapSet m k v) k = mapDelete m k := by
  rw [mapSet, mapDelete_cons]
  simp [mapDelete_mapDelete]

/-- C24: `BlacklistToken(t, exp)` changes only the entry of `t`: for every other token the
recorded expiry (hence the presence, hence the answer of `IsTokenBlacklisted`) is the same
before and after the call, and the entries of the other tokens are the same list. A call of
`IsTokenBlacklisted` returns the store it was given. -/
theorem blacklist_changes_only_its_entry (m : TokenMap) (t : String) (exp : Time) :
    (∀ other, other ≠ t →
      mapLookup (BlacklistToken m t exp) other = mapLookup m other ∧
        IsTokenBlacklisted (BlacklistToken m t exp) other = IsTokenBlacklisted m other) ∧
      mapDelete (BlacklistToken m t exp) t = mapDelete m t ∧
      (∀ q, (IsTokenBlacklistedSt m q).2 = m ∧
        (IsTokenBlacklistedSt m q).1 = IsTokenBlacklisted m q) := by
  refine ⟨?_, ?_, ?_⟩
  · intro other hne
    have h : mapLookup (BlacklistToken m t exp) other = mapLookup m other :=
      mapLookup_mapSet_of_ne m other t exp (fun e => hne e.symm)
    exact ⟨h, by simp only [IsTokenBlacklisted, h]⟩
  · exact mapDelete_mapSet m t exp
  · intro q
    exact ⟨rfl, rfl⟩

theorem blacklist_changes_only_its_entry_witness :
    ("u" : String) ≠ "t" ∧
    mapLookup (BlacklistToken [("u", 3), ("t", 2)] "t" 10) "u"
      = mapLookup [("u", 3), ("t", 2)] "u" ∧
    IsTokenBlacklisted (BlacklistToken [("u", 3), ("t", 2)] "t" 10) "u"
      = IsTokenBlacklisted [("u", 3), ("t", 2)] "u" :=
  ⟨by decide,
    (blacklist_changes_only_its_entry [("u", 3), ("t", 2)] "t" 10).1 "u" (by decide)⟩

/-- In a store with one entry per key, two entries under the same key are the same entry. -/
theorem NodupKeys.eq_of_key_eq (m : TokenMap) (h : NodupKeys m) (e x : String × Time)
    (he : e ∈ m) (hx : x ∈ m) (hk : e.1 = x.1) : e = x := by
  induction m with
  | nil => simp at he
  | cons a rest ih =>
    have hnd : a.1 ∉ rest.map Prod.fst ∧ (rest.map Prod.fst).Nodup := by
      simpa [NodupKeys] using h
    rcases List.mem_cons.1 he with rfl | he'
    · rcases List.mem_cons.1 hx with rfl | hx'
      · rfl
      · exact absurd (List.mem_map.2 ⟨x, hx', hk.symm⟩) hnd.1
    · rcases List.mem_cons.1 hx with rfl | hx'
      · exact absurd (List.mem_map.2 ⟨e, he', hk⟩) hnd.1
      · exact ih hnd.2 he' hx'

theorem NodupKeys.filter (m : TokenMap) (p : String × Time → Bool) (h : NodupKeys m) :
    NodupKeys (m.filter p) := by
  unfold NodupKeys at h ⊢
  exact List.Nodup.sublist (List.Sublist.map _ (List.filter_sublist m)) h

theorem NodupKeys.blacklist (m : TokenMap) (t : String) (exp : Time) (h : NodupKeys m) :
    NodupKeys (BlacklistToken m t exp) := by
  have hf := NodupKeys.filter m (fun e => decide (e.1 ≠ t)) h
  unfold NodupKeys at hf ⊢
  simp only [BlacklistToken, mapSet, List.map_cons, List.nodup_cons]
  refine ⟨?_, hf⟩
  intro hmem
  obtain ⟨e, he, hk⟩ := List.mem_map.1 hmem
  simp [mapDelete] at he
  exact he.2 hk

theorem NodupKeys.cleanup (now : Time) (m : TokenMap) (h : NodupKeys m) :
    NodupKeys (cleanupBlacklistedTokens now m) := by
  rw [cleanup_eq_filter]
  exact NodupKeys.filter m _ h

/-- Every store reached from the empty one has one entry per key. -/
theorem NodupKeys.runOps (ops : List StoreOp) (m : TokenMap) (h : NodupKeys m) :
    NodupKeys (runOps ops m) := by
  induction ops generalizing m with
  | nil => simpa [Osym.runOps] using h
  | cons op rest ih =>
    simp only [Osym.runOps, List.foldl_cons]
    apply ih
    cases op with
    | blacklist t e => exact NodupKeys.blacklist m t e h
    | cleanup now => exact NodupKeys.cleanup now m h

/-- With one entry per key, the loop of `cleanupBlacklistedTokens` is the filter that keeps
the entries which `now` is not after. -/
theorem cleanup_eq_filter_of_nodup (now : Time) (m : TokenMap) (h : NodupKeys m) :
    cleanupBlacklistedTokens now m = m.filter (fun e => !now.After e.2) := by
  rw [cleanup_eq_filter]
  apply List.filter_congr
  intro x hx
  by_cases ha : now.After x.2 = true
  · have : (m.all fun e => !(now.After e.2 && decide (e.1 = x.1))) = false := by
      rw [Bool.eq_false_iff]
      intro hall
      rw [List.all_eq_true] at hall
      have := hall x hx
      simp [ha] at this
    rw [this, ha]
    rfl
  · simp only [Bool.not_eq_true] at ha
    have : (m.all fun e => !(now.After e.2 && decide (e.1 = x.1))) = true := by
      rw [List.all_eq_true]
      intro e he
      by_cases hk : e.1 = x.1
      · have := NodupKeys.eq_of_key_eq m h e x he hx hk
        subst this
        simp [ha]
      · simp [hk]
    rw [this, ha]
    rfl

/-- A second cleanup at the same clock reading removes nothing. -/
theorem cleanup_idempotent (now : Time) (m : TokenMap) :
    cleanupBlacklistedTokens now (cleanupBlacklistedTokens now m)
      = cleanupBlacklistedTokens now m := by
  conv_lhs => rw [cleanup_eq_filter]
  rw [List.filter_eq_self]
  intro x _
  rw [List.all_eq_true]
  intro e he
  rw [mem_cleanup] at he
  have hna : now.After e.2 = false := by
    by_contra hc
    simp only [Bool.not_eq_false] at hc
    exact he.2 e he.1 hc rfl
  simp [hna]

/-- C25: on a store with one entry per key (as every Go map, and every store reached from
the empty one, is), `cleanupBlacklistedTokens` at the clock reading `now` leaves the previous
store filtered to the entries whose expiry is not strictly before `now`; an entry whose
expiry equals `now` is kept with its expiry; and a second run with the same `now` leaves the
store of the first run. -/
theorem cleanup_is_filter (m : TokenMap) (now : Time) (h : NodupKeys m) :
    cleanupBlacklistedTokens now m = m.filter (fun e => decide (¬ e.2 < now)) ∧
      (∀ t, mapLookup m t = some now →
        mapLookup (cleanupBlacklistedTokens now m) t = some now) ∧
      cleanupBlacklistedTokens now (cleanupBlacklistedTokens now m)
        = cleanupBlacklistedTokens now m ∧
      (∀ ops, NodupKeys (runOps ops emptyTokens)) := by
  have hf : cleanupBlacklistedTokens now m = m.filter (fun e => decide (¬ e.2 < now)) := by
    rw [cleanup_eq_filter_of_nodup now m h]
    apply List.filter_congr
    intro x _
    by_cases hlt : x.2 < now <;> simp [Time.After, hlt]
  refine ⟨hf, ?_, cleanup_idempotent now m, ?_⟩
  · intro t ht
    rw [hf, mapLookup_filter_of_key m t _ ?_]
    · exact ht
    · intro e he hk
      have hmem := mapLookup_mem m t now ht
      have := NodupKeys.eq_of_key_eq m h e (t, now) he hmem hk
      subst this
      simp
  · intro ops
    exact NodupKeys.runOps ops emptyTokens (by simp [NodupKeys, emptyTokens])

theorem cleanup_is_filter_witness :
    NodupKeys [("a", 5), ("b", 10), ("c", 20)] ∧
    cleanupBlacklistedTokens 10 [("a", 5), ("b", 10), ("c", 20)]
      = [("a", 5), ("b", 10), ("c", 20)].filter (fun e => decide (¬ e.2 < 10)) ∧
    [("a", (5 : Time)), ("b", 10), ("c", 20)].filter (fun e => decide (¬ e.2 < 10))
      = [("b", 10), ("c", 20)] :=
  ⟨by unfold NodupKeys; decide,
    (cleanup_is_filter [("a", 5), ("b", 10), ("c", 20)] 10 (by unfold NodupKeys; decide)).1,
    by decide⟩

/-- C26: revoking is idempotent and the last write wins: `BlacklistToken(t, e)` applied
twice leaves the store of one application, `BlacklistToken(t, e1)` followed by
`BlacklistToken(t, e2)` leaves the store of `BlacklistToken(t, e2)` alone, and `Logout` run a
second time (at any clock reading) on a request whose token the first run parsed as valid
leaves the store of the first run. -/
theorem blacklist_idempotent_last_wins (c : Codec) (jwtKey : Key) (nowParse nowParse2 : Int)
    (now : Time) (userExists : Int → String → Except String Bool) (store : TokenMap)
    (r : Request)
    (hvalid : (jwtParse c nowParse (extractToken r) (logoutKeyFunc jwtKey)).err = none) :
    (∀ (m : TokenMap) (t : String) (e : Time),
      BlacklistToken (BlacklistToken m t e) t e = BlacklistToken m t e) ∧
    (∀ (m : TokenMap) (t : String) (e1 e2 : Time),
      BlacklistToken (BlacklistToken m t e1) t e2 = BlacklistToken m t e2) ∧
    (Logout (libEnv c jwtKey nowParse2 now userExists)
        (Logout (libEnv c jwtKey nowParse now userExists) store r).1 r).1
      = (Logout (libEnv c jwtKey nowParse now userExists) store r).1 := by
  have hlast : ∀ (m : TokenMap) (t : String) (e1 e2 : Time),
      BlacklistToken (BlacklistToken m t e1) t e2 = BlacklistToken m t e2 := by
    intro m t e1 e2
    simp only [BlacklistToken]
    rw [mapSet, mapDelete_mapSet, mapSet]
  refine ⟨fun m t e => hlast m t e e, hlast, ?_⟩
  by_cases hne : extractToken r = ""
  · simp [Logout, hne]
  obtain ⟨m, claims, key, hdec, _, _, _, htok⟩ := jwtParse_ok c nowParse _ _ hvalid
  have second : ∀ st : TokenMap, ∀ x,
      ((claims.get "exp").asFloat64 = some x →
        (Logout (libEnv c jwtKey nowParse2 now userExists) st r).1 = st ∨
        (Logout (libEnv c jwtKey nowParse2 now userExists) st r).1
          = BlacklistToken st (extractToken r) (timeUnix (int64OfFloat64 x))) ∧
      ((claims.get "exp").asFloat64 = none →
        (Logout (libEnv c jwtKey nowParse2 now userExists) st r).1 = st) := by
    intro st x
    cases herr2 : (jwtParse c nowParse2 (extractToken r) (logoutKeyFunc jwtKey)).err with
    | some e =>
      refine ⟨fun _ => Or.inl ?_, fun _ => ?_⟩ <;>
        simp [Logout, hne, libEnv, logoutStore, herr2]
    | none =>
      obtain ⟨m2, claims2, key2, hdec2, _, _, _, htok2⟩ := jwtParse_ok c nowParse2 _ _ herr2
      rw [hdec] at hdec2
      simp only [Option.some.injEq, Prod.mk.injEq] at hdec2
      obtain ⟨rfl, rfl⟩ := hdec2
      refine ⟨fun hx => Or.inr ?_, fun hx => ?_⟩ <;>
        simp [Logout, hne, libEnv, logoutStore, herr2, htok2, hx]
  cases hexp : (claims.get "exp").asFloat64 with
  | none =>
    exact (second _ 0).2 hexp
  | some x =>
    have h1 : (Logout (libEnv c jwtKey nowParse now userExists) store r).1
        = BlacklistToken store (extractToken r) (timeUnix (int64OfFloat64 x)) := by
      simp [Logout, hne, libEnv, logoutStore, hvalid, htok, hexp]
    rcases (second (Logout (libEnv c jwtKey nowParse now userExists) store r).1 x).1 hexp
      with h2 | h2
    · exact h2
    · rw [h2, h1]
      exact hlast _ _ _ _

theorem blacklist_idempotent_last_wins_witness :
    (jwtParse demoCodec 2000 (extractToken (bearerRequest "aGRy.YWxpY2U.c2ln"))
      (logoutKeyFunc demoKey)).err = none ∧
    (Logout (libEnv demoCodec demoKey 3000 (timeUnix 2000) failingUserStore)
        (Logout (libEnv demoCodec demoKey 2000 (timeUnix 2000) failingUserStore)
          [("u", 5)] (bearerRequest "aGRy.YWxpY2U.c2ln")).1
        (bearerRequest "aGRy.YWxpY2U.c2ln")).1
      = (Logout (libEnv demoCodec demoKey 2000 (timeUnix 2000) failingUserStore)
          [("u", 5)] (bearerRequest "aGRy.YWxpY2U.c2ln")).1 ∧
    (Logout (libEnv demoCodec demoKey 2000 (timeUnix 2000) failingUserStore)
        [("u", 5)] (bearerRequest "aGRy.YWxpY2U.c2ln")).1
      = [("aGRy.YWxpY2U.c2ln", timeUnix 87400), ("u", 5)] :=
  ⟨by decide,
    (blacklist_idempotent_last_wins demoCodec demoKey 2000 3000 (timeUnix 2000)
      failingUserStore [("u", 5)] (bearerRequest "aGRy.YWxpY2U.c2ln") (by decide)).2.2,
    by decide⟩

/-! ## Issue-time claims -/

theorem unix_add_day (t : Time) : (t.Add (timeHour * 24)).Unix = t.Unix + 86400 := by
  simp only [Time.Add, Time.Unix, timeHour]
  omega

/-- C21 (as stated, refuted): `GenerateJWT(42, "alice")` run with its first clock reading
(for `exp`) one nanosecond before second 1001 and its second clock reading (for `iat`) at
second 1001 returns a token whose claims are `exp = 87400` and `iat = 1001`: `exp` is
`iat + 86399`, not `iat + 86400`. -/
theorem exp_iat_straddle_second :
    GenerateJWT straddleCodec demoKey 1000999999999 1001000000000 "jti-6" 42 "alice"
      = .ok "aGRy.c3RyYWRkbGU.c2ln" ∧
    (userClaims 1000999999999 1001000000000 "jti-6" 42 "alice").get "exp" = .int64 87400 ∧
    (userClaims 1000999999999 1001000000000 "jti-6" 42 "alice").get "iat" = .int64 1001 ∧
    (straddleCodec.decodeSegments "aGRy.c3RyYWRkbGU.c2ln").map (fun d => d.2.get "exp")
      = some (.float64 87400) ∧
    (straddleCodec.decodeSegments "aGRy.c3RyYWRkbGU.c2ln").map (fun d => d.2.get "iat")
      = some (.float64 1001) ∧
    (87400 : Int) ≠ 1001 + 86400 := by
  refine ⟨by rfl, by decide, by decide, by decide, by decide, by decide⟩

/-- C21 (amended): in every token of `GenerateJWT` and of `GenerateGuestJWT` the claim `exp`
is the Unix second of the first clock reading plus exactly 86400 and the claim `iat` is the
Unix second of the second clock reading. When the two readings fall in the same second,
`exp = iat + 86400`; when the clock does not run backwards between them,
`exp ≤ iat + 86400`. -/
theorem exp_is_issue_second_plus_day (nowExp nowIat : Time) (jti guestUuid : String)
    (userID : Int) (username : String) :
    (userClaims nowExp nowIat jti userID username).get "exp" = .int64 (nowExp.Unix + 86400) ∧
    (userClaims nowExp nowIat jti userID username).get "iat" = .int64 nowIat.Unix ∧
    (guestClaims nowExp nowIat guestUuid jti).get "exp" = .int64 (nowExp.Unix + 86400) ∧
    (guestClaims nowExp nowIat guestUuid jti).get "iat" = .int64 nowIat.Unix ∧
    (nowExp.Unix = nowIat.Unix →
      (userClaims nowExp nowIat jti userID username).get "exp"
          = .int64 (nowIat.Unix + 86400) ∧
        (guestClaims nowExp nowIat guestUuid jti).get "exp"
          = .int64 (nowIat.Unix + 86400)) ∧
    (nowExp ≤ nowIat → nowExp.Unix + 86400 ≤ nowIat.Unix + 86400) := by
  refine ⟨?_, ?_, ?_, ?_, ?_, ?_⟩
  · simp [userClaims, MapClaims.get, unix_add_day]
  · simp [userClaims, MapClaims.get]
  · simp [guestClaims, MapClaims.get, unix_add_day]
  · simp [guestClaims, MapClaims.get]
  · intro h
    rw [← h]
    exact ⟨by simp [userClaims, MapClaims.get, unix_add_day],
      by simp [guestClaims, MapClaims.get, unix_add_day]⟩
  · intro h
    have h2 : nowExp.Unix ≤ nowIat.Unix := Int.ediv_le_ediv (by decide) h
    exact Int.add_le_add_right h2 86400

theorem exp_is_issue_second_plus_day_witness :
    (timeUnix 1000).Unix = (timeUnix 1000 + 5).Unix ∧
    (userClaims (timeUnix 1000) (timeUnix 1000 + 5) "jti-1" 42 "alice").get "exp"
      = .int64 ((timeUnix 1000 + 5).Unix + 86400) ∧
    (userClaims (timeUnix 1000) (timeUnix 1000 + 5) "jti-1" 42 "alice").get "iat"
      = .int64 (timeUnix 1000 + 5).Unix :=
  ⟨by decide,
    ((exp_is_issue_second_plus_day (timeUnix 1000) (timeUnix 1000 + 5) "jti-1" "u-1" 42
      "alice").2.2.2.2.1 (by decide)).1,
    (exp_is_issue_second_plus_day (timeUnix 1000) (timeUnix 1000 + 5) "jti-1" "u-1" 42
      "alice").2.1⟩

/-! ## Which branch of `JwtVerify` a token takes -/

/-- A request either gets to the claims checks of `JwtVerify`, or `JwtVerify` ends without a
user-store query and without a call of the next handler. -/
theorem JwtVerify_reaches_or_stops (env : Env) (store : TokenMap) (r : Request) :
    (∃ claims, ReachesClaims env store r claims) ∨
      ((JwtVerify env store r).any Effect.isNext = false ∧
        (JwtVerify env store r).any Effect.isQuery = false) := by
  by_cases h1 : extractToken r = ""
  · right
    simp [JwtVerify, h1, SendError, SendResponse, Effect.isNext, Effect.isQuery]
  by_cases h2 : IsTokenBlacklisted store (extractToken r) = true
  · right
    simp [JwtVerify, h1, h2, SendError, SendResponse, Effect.isNext, Effect.isQuery]
  simp only [Bool.not_eq_true] at h2
  cases h3 : (env.parse (extractToken r) (jwtVerifyKeyFunc env.jwtKey)).err with
  | some e =>
    right
    simp [JwtVerify, h1, h2, h3, SendError, SendResponse, Effect.isNext, Effect.isQuery]
  | none =>
    cases h4 : (env.parse (extractToken r) (jwtVerifyKeyFunc env.jwtKey)).token with
    | none =>
      right
      simp [JwtVerify, h1, h2, h3, h4, Effect.isNext, Effect.isQuery]
    | some t =>
      by_cases h5 : t.Valid = true
      swap
      · right
        simp [JwtVerify, h1, h2, h3, h4, h5, SendError, SendResponse, Effect.isNext,
          Effect.isQuery]
      cases h6 : t.Claims with
      | other =>
        right
        simp [JwtVerify, h1, h2, h3, h4, h5, h6, SendError, SendResponse, Effect.isNext,
          Effect.isQuery]
      | map claims => exact Or.inl ⟨claims, h1, h2, t, h3, h4, h5, h6⟩

/-- The claims that a request gets to the claims checks with are those of the token that
`jwt.Parse` returns. -/
theorem ReachesClaims.claims_eq (env : Env) (store : TokenMap) (r : Request)
    (claims known : MapClaims) (h : ReachesClaims env store r claims)
    (hknown : ∀ t, (env.parse (extractToken r) (jwtVerifyKeyFunc env.jwtKey)).token = some t →
      t.Claims = .map known) :
    claims = known := by
  obtain ⟨_, _, t, _, htok, _, hclaims⟩ := h
  have := hknown t htok
  rw [hclaims] at this
  simpa using this

theorem get_guestClaims_roundTrip (nowExp nowIat : Time) (guestUuid jti : String) :
    (guestClaims nowExp nowIat guestUuid jti).roundTrip.get "user_id"
        = .string ("guest_" ++ guestUuid) ∧
      (guestClaims nowExp nowIat guestUuid jti).roundTrip.get "username" = .string "guest" ∧
      (guestClaims nowExp nowIat guestUuid jti).roundTrip.get "is_guest" = .bool true := by
  simp [guestClaims, MapClaims.roundTrip, MapClaims.get, jsonRoundTrip]

/-- The effects of `JwtVerify` on a request that gets to the claims checks with the claims
of a `GenerateJWT` token. -/
theorem JwtVerify_of_userClaims (env : Env) (store : TokenMap) (r : Request)
    (nowExp nowIat : Time) (jti : String) (userID : Int) (username : String)
    (h : ReachesClaims env store r (userClaims nowExp nowIat jti userID username).roundTrip) :
    JwtVerify env store r = Effect.parse (extractToken r) ::
      (if tokenExpired env.now (userClaims nowExp nowIat jti userID username).roundTrip then
        [SendError StatusUnauthorized "Token süresi dolmuş"]
      else
        Effect.queryUser (int64OfFloat64 ((float64OfInt userID : Int) : ℚ)) username ::
        match env.userExists (int64OfFloat64 ((float64OfInt userID : Int) : ℚ)) username with
        | .error _ =>
          [SendError StatusUnauthorized "Kullanıcı bulunamadı veya pasif durumda"]
        | .ok false =>
          [SendError StatusUnauthorized "Kullanıcı bulunamadı veya pasif durumda"]
        | .ok true =>
          [Effect.next (userContext r (int64OfFloat64 ((float64OfInt userID : Int) : ℚ))
            username)]) := by
  obtain ⟨huid, huname, _, _, _, hguest⟩ :=
    get_userClaims_roundTrip nowExp nowIat jti userID username
  have hng : isGuestClaim (userClaims nowExp nowIat jti userID username).roundTrip = false := by
    simp [isGuestClaim, hguest, GoVal.asBool]
  rw [JwtVerify_of_reaches env store r _ h]
  simp only [hng, huid, huname, GoVal.asFloat64, GoVal.asString, if_false,
    Bool.false_eq_true]

/-- The effects of `JwtVerify` on a request that gets to the claims checks with the claims
of a `GenerateGuestJWT` token. -/
theorem JwtVerify_of_guestClaims (env : Env) (store : TokenMap) (r : Request)
    (nowExp nowIat : Time) (guestUuid jti : String)
    (h : ReachesClaims env store r (guestClaims nowExp nowIat guestUuid jti).roundTrip) :
    JwtVerify env store r = Effect.parse (extractToken r) ::
      (if tokenExpired env.now (guestClaims nowExp nowIat guestUuid jti).roundTrip then
        [SendError StatusUnauthorized "Token süresi dolmuş"]
      else
        [Effect.next (guestContext r (guestClaims nowExp nowIat guestUuid jti).roundTrip)]) := by
  obtain ⟨_, _, hguest⟩ := get_guestClaims_roundTrip nowExp nowIat guestUuid jti
  have hg : isGuestClaim (guestClaims nowExp nowIat guestUuid jti).roundTrip = true :=
    (isGuestClaim_eq_true_iff _).2 hguest
  rw [JwtVerify_of_reaches env store r _ h]
  simp only [hg, if_true]

/-- Claims of the shape that `GenerateJWT` signs send a request down the member branch of
`JwtVerify` only, claims of the shape that `GenerateGuestJWT` signs down the guest branch
only, for every behaviour of `jwt.Parse` that returns them. -/
theorem claims_take_their_branch (nowExp nowIat : Time) (jti guestUuid : String)
    (userID : Int) (username : String) (env : Env) (store : TokenMap) (r : Request) :
    ((guestClaims nowExp nowIat guestUuid jti).roundTrip.get "is_guest" = .bool true ∧
      (guestClaims nowExp nowIat guestUuid jti).roundTrip.get "username" = .string "guest" ∧
      (guestClaims nowExp nowIat guestUuid jti).roundTrip.get "user_id"
        = .string ("guest_" ++ guestUuid) ∧
      ("guest_" ++ guestUuid).data = "guest_".data ++ guestUuid.data) ∧
    ((userClaims nowExp nowIat jti userID username).roundTrip.get "is_guest" = .nil ∧
      isGuestClaim (userClaims nowExp nowIat jti userID username).roundTrip = false) ∧
    ((∀ t, (env.parse (extractToken r) (jwtVerifyKeyFunc env.jwtKey)).token = some t →
        t.Claims = .map (userClaims nowExp nowIat jti userID username).roundTrip) →
      ∀ ctx, Effect.next ctx ∈ JwtVerify env store r →
        ctx = userContext r (int64OfFloat64 ((float64OfInt userID : Int) : ℚ)) username ∧
          ctx.Value "is_guest" = .bool false ∧
          Effect.queryUser (int64OfFloat64 ((float64OfInt userID : Int) : ℚ)) username
            ∈ JwtVerify env store r) ∧
    ((∀ t, (env.parse (extractToken r) (jwtVerifyKeyFunc env.jwtKey)).token = some t →
        t.Claims = .map (guestClaims nowExp nowIat guestUuid jti).roundTrip) →
      (JwtVerify env store r).any Effect.isQuery = false ∧
        ∀ ctx, Effect.next ctx ∈ JwtVerify env store r →
          ctx = guestContext r (guestClaims nowExp nowIat guestUuid jti).roundTrip ∧
            ctx.Value "is_guest" = .bool true) := by
  obtain ⟨hgid, hgname, hgguest⟩ := get_guestClaims_roundTrip nowExp nowIat guestUuid jti
  obtain ⟨_, _, _, _, _, huguest⟩ :=
    get_userClaims_roundTrip nowExp nowIat jti userID username
  refine ⟨⟨hgguest, hgname, hgid, String.data_append _ _⟩,
    ⟨huguest, by simp [isGuestClaim, huguest, GoVal.asBool]⟩, ?_, ?_⟩
  · intro hknown ctx hctx
    rcases JwtVerify_reaches_or_stops env store r with ⟨claims, hr⟩ | ⟨hn, _⟩
    · have hc := ReachesClaims.claims_eq env store r claims _ hr hknown
      subst hc
      have htr := JwtVerify_of_userClaims env store r nowExp nowIat jti userID username hr
      rw [htr] at hctx ⊢
      by_cases he : tokenExpired env.now
          (userClaims nowExp nowIat jti userID username).roundTrip = true
      · simp [he, SendError, SendResponse] at hctx
      · simp only [he, if_false, Bool.false_eq_true] at hctx ⊢
        cases hq : env.userExists (int64OfFloat64 ((float64OfInt userID : Int) : ℚ))
            username with
        | error e => simp [hq, SendError, SendResponse] at hctx
        | ok b =>
          cases b with
          | false => simp [hq, SendError, SendResponse] at hctx
          | true =>
            simp only [hq, List.mem_cons, List.mem_singleton, Effect.next.injEq,
              List.not_mem_nil, or_false, reduceCtorEq, false_or] at hctx
            subst hctx
            refine ⟨rfl, by simp [userContext, Context.WithValue, Context.Value], ?_⟩
            simp
    · exfalso
      rw [List.any_eq_false] at hn
      exact absurd (by simp [Effect.isNext]) (hn _ hctx)
  · intro hknown
    rcases JwtVerify_reaches_or_stops env store r with ⟨claims, hr⟩ | ⟨hn, hq⟩
    · have hc := ReachesClaims.claims_eq env store r claims _ hr hknown
      subst hc
      have htr := JwtVerify_of_guestClaims env store r nowExp nowIat guestUuid jti hr
      rw [htr]
      by_cases he : tokenExpired env.now
          (guestClaims nowExp nowIat guestUuid jti).roundTrip = true
      · simp [he, SendError, SendResponse, Effect.isQuery]
      · simp only [he, if_false, Bool.false_eq_true]
        refine ⟨by simp [Effect.isQuery], ?_⟩
        intro ctx hctx
        simp only [List.mem_cons, List.mem_singleton, Effect.next.injEq,
          List.not_mem_nil, or_false, reduceCtorEq, false_or] at hctx
        subst hctx
        exact ⟨rfl, by simp [guestContext, Context.WithValue, Context.Value]⟩
    · refine ⟨hq, ?_⟩
      intro ctx hctx
      exfalso
      rw [List.any_eq_false] at hn
      exact absurd (by simp [Effect.isNext]) (hn _ hctx)

/-- The token that the library's `jwt.Parse` returns carries the claims that the codec
decodes. -/
theorem jwtParse_token_claims (c : Codec) (nowParse : Int) (tok : String)
    (keyFunc : Token → Except String Key) (m : SigningMethod) (claims : MapClaims)
    (hdec : c.decodeSegments tok = some (m, claims)) (t : Token)
    (ht : (jwtParse c nowParse tok keyFunc).token = some t) : t.Claims = .map claims := by
  unfold jwtParse at ht
  split at ht
  · simp at ht
  · rw [hdec] at ht
    simp only at ht
    cases hk : keyFunc ⟨tok, m, .map claims, false⟩ with
    | error e =>
      simp only [hk, Option.some.injEq] at ht
      rw [← ht]
    | ok key =>
      simp only [hk] at ht
      split at ht
      · simp only [Option.some.injEq] at ht
        rw [← ht]
      · simp only [Option.some.injEq] at ht
        rw [← ht]

theorem uuidString_length (u : UUID) : (uuidString u).length = 36 := by
  simp [uuidString, hexByte, String.length]

theorem uuidString_ne_empty (u : UUID) : uuidString u ≠ "" := by
  intro h
  have := uuidString_length u
  rw [h] at this
  simp at this

/-- C22: the token that `GenerateGuestJWT` returns is the signed form of claims with
`is_guest = true`, `username = "guest"` and the `user_id` string `"guest_"` followed by the
36 characters of a fresh UUID; the token that `GenerateJWT` returns is the signed form of
claims without an `is_guest` claim. Hence (the codec reading back the tokens it issued), on
every request that carries the `GenerateJWT` token `JwtVerify` invokes the next handler only
after the user-store query and with the member context, never the guest branch; and on every
request that carries the `GenerateGuestJWT` token `JwtVerify` makes no user-store query and
invokes the next handler only with the guest context, never the database branch. -/
theorem issued_tokens_take_their_branch (c : Codec) (jwtKey : Key) (nowExp nowIat : Time)
    (jti : String) (guestUuid guestJti : UUID) (userID : Int) (username : String)
    (userTok guestTok : String) (nowParse : Int) (now : Time)
    (userExists : Int → String → Except String Bool) (store : TokenMap)
    (rUser rGuest : Request)
    (hgenU : GenerateJWT c jwtKey nowExp nowIat jti userID username = .ok userTok)
    (hbackU : c.ReadsBack .HS256 (userClaims nowExp nowIat jti userID username) jwtKey userTok)
    (hreqU : extractToken rUser = userTok)
    (hgenG : GenerateGuestJWT c jwtKey nowExp nowIat guestUuid guestJti = .ok guestTok)
    (hbackG : c.ReadsBack .HS256
      (guestClaims nowExp nowIat (uuidString guestUuid) (uuidString guestJti)) jwtKey guestTok)
    (hreqG : extractToken rGuest = guestTok) :
    (c.signedString .HS256
          (guestClaims nowExp nowIat (uuidString guestUuid) (uuidString guestJti)) jwtKey
        = .ok guestTok ∧
      ∃ claims, c.decodeSegments guestTok = some (.HS256, claims) ∧
        claims.get "is_guest" = .bool true ∧
        claims.get "username" = .string "guest" ∧
        claims.get "user_id" = .string ("guest_" ++ uuidString guestUuid) ∧
        ("guest_" ++ uuidString guestUuid).data.take 6 = "guest_".data ∧
        ("guest_" ++ uuidString guestUuid).data.drop 6 = (uuidString guestUuid).data ∧
        (uuidString guestUuid).length = 36 ∧ uuidString guestUuid ≠ "") ∧
    (c.signedString .HS256 (userClaims nowExp nowIat jti userID username) jwtKey
        = .ok userTok ∧
      ∃ claims, c.decodeSegments userTok = some (.HS256, claims) ∧
        claims.get "is_guest" = .nil ∧ isGuestClaim claims = false) ∧
    (∀ ctx, Effect.next ctx ∈ JwtVerify (libEnv c jwtKey nowParse now userExists) store rUser →
      ctx = userContext rUser (int64OfFloat64 ((float64OfInt userID : Int) : ℚ)) username ∧
        ctx.Value "is_guest" = .bool false ∧
        Effect.queryUser (int64OfFloat64 ((float64OfInt userID : Int) : ℚ)) username
          ∈ JwtVerify (libEnv c jwtKey nowParse now userExists) store rUser) ∧
    ((JwtVerify (libEnv c jwtKey nowParse now userExists) store rGuest).any Effect.isQuery
        = false ∧
      ∀ ctx, Effect.next ctx ∈ JwtVerify (libEnv c jwtKey nowParse now userExists) store rGuest →
        ctx = guestContext rGuest
            (guestClaims nowExp nowIat (uuidString guestUuid) (uuidString guestJti)).roundTrip ∧
          ctx.Value "is_guest" = .bool true) := by
  have hsignU : c.signedString .HS256 (userClaims nowExp nowIat jti userID username) jwtKey
      = .ok userTok := by
    unfold GenerateJWT at hgenU
    simp only at hgenU
    split at hgenU
    · simp at hgenU
    · rename_i tokenString hs
      rw [hs]
      simpa using hgenU
  have hsignG : c.signedString .HS256
      (guestClaims nowExp nowIat (uuidString guestUuid) (uuidString guestJti)) jwtKey
      = .ok guestTok := by
    unfold GenerateGuestJWT at hgenG
    simp only at hgenG
    split at hgenG
    · simp at hgenG
    · rename_i tokenString hs
      rw [hs]
      simpa using hgenG
  have hbranch := fun (r : Request) =>
    claims_take_their_branch nowExp nowIat jti (uuidString guestUuid) userID username
      (libEnv c jwtKey nowParse now userExists) store r
  have hshape := claims_take_their_branch nowExp nowIat (uuidString guestJti)
    (uuidString guestUuid) userID username (libEnv c jwtKey nowParse now userExists) store
    rGuest
  have h6 : "guest_".data.length = 6 := by decide
  refine ⟨⟨hsignG, _, hbackG.2.1, hshape.1.1, hshape.1.2.1, hshape.1.2.2.1, ?_, ?_,
    uuidString_length guestUuid, uuidString_ne_empty guestUuid⟩,
    ⟨hsignU, _, hbackU.2.1, (hbranch rUser).2.1.1, (hbranch rUser).2.1.2⟩, ?_, ?_⟩
  · rw [String.data_append, ← h6]
    exact List.take_left' rfl
  · rw [String.data_append, ← h6]
    exact List.drop_left' rfl
  · apply (hbranch rUser).2.2.1
    intro t ht
    rw [hreqU] at ht
    exact jwtParse_token_claims c nowParse userTok _ .HS256 _ hbackU.2.1 t ht
  · apply hshape.2.2.2
    intro t ht
    rw [hreqG] at ht
    exact jwtParse_token_claims c nowParse guestTok _ .HS256 _ hbackG.2.1 t ht

theorem issued_tokens_take_their_branch_witness :
    GenerateJWT issuedCodec demoKey (timeUnix 1000) (timeUnix 1000) "jti-1" 42 "alice"
      = .ok "aGRy.YWxpY2U.c2ln" ∧
    GenerateGuestJWT issuedCodec demoKey (timeUnix 1000) (timeUnix 1000) demoUuid demoJtiUuid
      = .ok "aGRy.Z3V1aWQ.c2ln" ∧
    issuedCodec.ReadsBack .HS256
      (userClaims (timeUnix 1000) (timeUnix 1000) "jti-1" 42 "alice") demoKey
      "aGRy.YWxpY2U.c2ln" ∧
    issuedCodec.ReadsBack .HS256
      (guestClaims (timeUnix 1000) (timeUnix 1000) (uuidString demoUuid)
        (uuidString demoJtiUuid)) demoKey "aGRy.Z3V1aWQ.c2ln" ∧
    extractToken (bearerRequest "aGRy.YWxpY2U.c2ln") = "aGRy.YWxpY2U.c2ln" ∧
    extractToken (cookieRequest "aGRy.Z3V1aWQ.c2ln") = "aGRy.Z3V1aWQ.c2ln" ∧
    (JwtVerify (libEnv issuedCodec demoKey 2000 (timeUnix 2000) failingUserStore) emptyTokens
      (cookieRequest "aGRy.Z3V1aWQ.c2ln")).any Effect.isQuery = false ∧
    JwtVerify (libEnv issuedCodec demoKey 2000 (timeUnix 2000) failingUserStore) emptyTokens
        (cookieRequest "aGRy.Z3V1aWQ.c2ln")
      = [Effect.parse "aGRy.Z3V1aWQ.c2ln",
         Effect.next [("is_guest", .bool true), ("username", .string "guest"),
           ("userID", .string "guest_0b30557a-9fc4-e90e-3358-7da2c7ec1136")]] :=
  ⟨by rfl, by rfl, ⟨by decide, by decide, by decide⟩, ⟨by decide, by decide, by decide⟩,
    by decide, by decide,
    (issued_tokens_take_their_branch issuedCodec demoKey (timeUnix 1000) (timeUnix 1000)
      "jti-1" demoUuid demoJtiUuid 42 "alice" "aGRy.YWxpY2U.c2ln" "aGRy.Z3V1aWQ.c2ln" 2000
      (timeUnix 2000) failingUserStore emptyTokens (bearerRequest "aGRy.YWxpY2U.c2ln")
      (cookieRequest "aGRy.Z3V1aWQ.c2ln") (by rfl) ⟨by decide, by decide, by decide⟩
      (by decide) (by rfl) ⟨by decide, by decide, by decide⟩ (by decide)).2.2.2.1,
    by decide⟩

/-! ## The unchecked type assertions -/

/-- An integer within the range of `int64` converts to itself. -/
theorem int64OfFloat64_intCast (n : Int) (h1 : -9223372036854775808 ≤ n)
    (h2 : n < 9223372036854775808) : int64OfFloat64 ((n : Int) : ℚ) = n := by
  unfold int64OfFloat64
  simp only [Rat.num_intCast, Rat.den_intCast, Nat.cast_one, Int.tdiv_one]
  rw [if_pos]
  norm_num
  constructor <;> omega

/-- C27: for every token of `GenerateJWT` the claim `user_id` decodes as a number and the
claim `username` as a string, so that on every request that gets to the claims checks with
such a token `JwtVerify` does not panic; a token of `GenerateGuestJWT` takes the guest
branch or is rejected as expired, so it does not panic either. The recovered id is the
issued `userID` whenever that is exactly representable as a `float64` (within the range of
`int64`). -/
theorem issued_tokens_do_not_panic (nowExp nowIat : Time) (jti guestUuid : String)
    (userID : Int) (username : String) (env : Env) (store : TokenMap) (r : Request) :
    ((userClaims nowExp nowIat jti userID username).roundTrip.get "user_id").asFloat64
        = some ((float64OfInt userID : Int) : ℚ) ∧
    ((userClaims nowExp nowIat jti userID username).roundTrip.get "username").asString
        = some username ∧
    (ReachesClaims env store r (userClaims nowExp nowIat jti userID username).roundTrip →
      (JwtVerify env store r).any Effect.isPanic = false) ∧
    (ReachesClaims env store r (guestClaims nowExp nowIat guestUuid jti).roundTrip →
      (JwtVerify env store r).any Effect.isPanic = false) ∧
    (float64OfInt userID = userID → -9223372036854775808 ≤ userID →
      userID < 9223372036854775808 →
      int64OfFloat64 ((float64OfInt userID : Int) : ℚ) = userID) := by
  obtain ⟨huid, huname, _⟩ := get_userClaims_roundTrip nowExp nowIat jti userID username
  refine ⟨by simp [huid, GoVal.asFloat64], by simp [huname, GoVal.asString], ?_, ?_, ?_⟩
  · intro hr
    rw [JwtVerify_of_userClaims env store r nowExp nowIat jti userID username hr]
    by_cases he : tokenExpired env.now
        (userClaims nowExp nowIat jti userID username).roundTrip = true
    · simp [he, SendError, SendResponse, Effect.isPanic]
    · simp only [he, if_false, Bool.false_eq_true]
      cases hq : env.userExists (int64OfFloat64 ((float64OfInt userID : Int) : ℚ))
          username with
      | error e => simp [SendError, SendResponse, Effect.isPanic]
      | ok b => cases b <;> simp [SendError, SendResponse, Effect.isPanic]
  · intro hr
    rw [JwtVerify_of_guestClaims env store r nowExp nowIat guestUuid jti hr]
    by_cases he : tokenExpired env.now
        (guestClaims nowExp nowIat guestUuid jti).roundTrip = true
    · simp [he, SendError, SendResponse, Effect.isPanic]
    · simp [he, Effect.isPanic]
  · intro hrep h1 h2
    rw [hrep]
    exact int64OfFloat64_intCast userID h1 h2

theorem issued_tokens_do_not_panic_witness :
    ReachesClaims (libEnv demoCodec demoKey 2000 (timeUnix 2000) failingUserStore)
      emptyTokens (bearerRequest "aGRy.YWxpY2U.c2ln")
      (userClaims (timeUnix 1000) (timeUnix 1000) "jti-1" 42 "alice").roundTrip ∧
    (JwtVerify (libEnv demoCodec demoKey 2000 (timeUnix 2000) failingUserStore)
      emptyTokens (bearerRequest "aGRy.YWxpY2U.c2ln")).any Effect.isPanic = false ∧
    (float64OfInt 42 = 42 ∧ int64OfFloat64 ((float64OfInt 42 : Int) : ℚ) = 42) :=
  ⟨alice_reachesClaims _,
    (issued_tokens_do_not_panic (timeUnix 1000) (timeUnix 1000) "jti-1" "u-1" 42 "alice"
      (libEnv demoCodec demoKey 2000 (timeUnix 2000) failingUserStore) emptyTokens
      (bearerRequest "aGRy.YWxpY2U.c2ln")).2.2.1 (alice_reachesClaims _),
    by decide,
    (issued_tokens_do_not_panic (timeUnix 1000) (timeUnix 1000) "jti-1" "u-1" 42 "alice"
      (libEnv demoCodec demoKey 2000 (timeUnix 2000) failingUserStore) emptyTokens
      (bearerRequest "aGRy.YWxpY2U.c2ln")).2.2.2.2 (by decide) (by decide) (by decide)⟩

/-- The context of a call of the next handler by `JwtVerify` is the guest context or a
member context. -/
theorem JwtVerify_next_context (env : Env) (store : TokenMap) (r : Request) (ctx : Context)
    (h : Effect.next ctx ∈ JwtVerify env store r) :
    (∃ claims, ctx = guestContext r claims) ∨
      (∃ userID username, ctx = userContext r userID username) := by
  rcases JwtVerify_reaches_or_stops env store r with ⟨claims, hr⟩ | ⟨hn, _⟩
  · rw [JwtVerify_of_reaches env store r claims hr] at h
    by_cases he : tokenExpired env.now claims = true
    · simp [he, SendError, SendResponse] at h
    simp only [he, if_false, Bool.false_eq_true] at h
    by_cases hg : isGuestClaim claims = true
    · simp only [hg, if_true, List.mem_cons, List.mem_singleton, Effect.next.injEq,
        List.not_mem_nil, or_false, reduceCtorEq, false_or] at h
      exact Or.inl ⟨claims, h⟩
    simp only [hg, if_false, Bool.false_eq_true] at h
    cases h9 : (claims.get "user_id").asFloat64 with
    | none => simp [h9] at h
    | some uid =>
      cases h10 : (claims.get "username").asString with
      | none => simp [h9, h10] at h
      | some username =>
        cases h11 : env.userExists (int64OfFloat64 uid) username with
        | error e => simp [h9, h10, h11, SendError, SendResponse] at h
        | ok b =>
          cases b with
          | false => simp [h9, h10, h11, SendError, SendResponse] at h
          | true =>
            simp only [h9, h10, h11, List.mem_cons, List.mem_singleton, Effect.next.injEq,
              List.not_mem_nil, or_false, reduceCtorEq, false_or] at h
            exact Or.inr ⟨_, _, h⟩
  · exfalso
    rw [List.any_eq_false] at hn
    exact absurd (by simp [Effect.isNext]) (hn _ h)

/-- C28: in every context that `JwtVerify` hands to the next handler, `is_guest` is a
boolean; when it is false, `userID` is an `int`; when `userID` is not an `int`, `is_guest`
is true. Hence `RequireAdmin`, run on a request with such a context, does not panic: past
its guest check the assertion `r.Context().Value("userID").(int)` succeeds. -/
theorem admin_assertion_cannot_fail (env : Env) (store : TokenMap) (r : Request)
    (ctx : Context) (h : Effect.next ctx ∈ JwtVerify env store r) :
    (ctx.Value "is_guest" = .bool true ∨ ctx.Value "is_guest" = .bool false) ∧
    (ctx.Value "is_guest" = .bool false → ∃ n, ctx.Value "userID" = .int n) ∧
    ((ctx.Value "userID").asInt = none → ctx.Value "is_guest" = .bool true) ∧
    (∀ (roles : RoleStore) (hdr cookies : List (String × String)),
      (RequireAdmin roles ⟨hdr, cookies, ctx⟩).any Effect.isPanic = false) := by
  rcases JwtVerify_next_context env store r ctx h with ⟨claims, rfl⟩ | ⟨uid, name, rfl⟩
  · have hg : (guestContext r claims).Value "is_guest" = .bool true := by
      simp [guestContext, Context.WithValue, Context.Value]
    refine ⟨Or.inl hg, ?_, fun _ => hg, ?_⟩
    · intro hf
      rw [hg] at hf
      simp at hf
    · intro roles hdr cookies
      rw [RequireAdmin_of_not_member roles ⟨hdr, cookies, guestContext r claims⟩
        (by simp [hg, GoVal.asBool])]
      simp [SendError, SendResponse, Effect.isPanic]
  · have hg : (userContext r uid name).Value "is_guest" = .bool false := by
      simp [userContext, Context.WithValue, Context.Value]
    have hu : (userContext r uid name).Value "userID" = .int uid := by
      simp [userContext, Context.WithValue, Context.Value]
    refine ⟨Or.inr hg, fun _ => ⟨uid, hu⟩, ?_, ?_⟩
    · intro hn
      rw [hu] at hn
      simp [GoVal.asInt] at hn
    · intro roles hdr cookies
      rw [RequireAdmin_of_member roles ⟨hdr, cookies, userContext r uid name⟩ uid hg hu]
      cases hq : roles uid with
      | error e => simp [SendError, SendResponse, Effect.isPanic]
      | ok res =>
        cases hs : scanRoles res.rows with
        | error e => simp [hs, SendError, SendResponse, Effect.isPanic]
        | ok b => cases b <;> simp [hs, SendError, SendResponse, Effect.isPanic]

theorem admin_assertion_cannot_fail_witness :
    Effect.next (userContext (bearerRequest "aGRy.YWxpY2U.c2ln") 42 "alice")
      ∈ JwtVerify (libEnv demoCodec demoKey 2000 (timeUnix 2000) (singleUserStore 42 "alice"))
          emptyTokens (bearerRequest "aGRy.YWxpY2U.c2ln") ∧
    (RequireAdmin (constRoles ["User", "Admin"])
      ⟨[], [], userContext (bearerRequest "aGRy.YWxpY2U.c2ln") 42 "alice"⟩).any
        Effect.isPanic = false :=
  ⟨by decide,
    (admin_assertion_cannot_fail
      (libEnv demoCodec demoKey 2000 (timeUnix 2000) (singleUserStore 42 "alice"))
      emptyTokens (bearerRequest "aGRy.YWxpY2U.c2ln")
      (userContext (bearerRequest "aGRy.YWxpY2U.c2ln") 42 "alice") (by decide)).2.2.2
      (constRoles ["User", "Admin"]) [] []⟩

/-! ## The expiry re-check -/

/-- A non-negative `float64` below `2^63` converts to its integer part. -/
theorem int64OfFloat64_eq_floor (x : ℚ) (h0 : 0 ≤ x) (h1 : x < 9223372036854775808) :
    int64OfFloat64 x = ⌊x⌋ := by
  have hnum : 0 ≤ x.num := Rat.num_nonneg.2 h0
  have ht : Int.tdiv x.num x.den = ⌊x⌋ := by
    rw [Int.tdiv_eq_ediv hnum (Int.natCast_nonneg _), Rat.floor_def]
  have hfl0 : 0 ≤ ⌊x⌋ := Int.floor_nonneg.2 h0
  have hfl1 : ⌊x⌋ < 9223372036854775808 := Int.floor_lt.2 (by exact_mod_cast h1)
  unfold int64OfFloat64
  simp only [ht]
  rw [if_pos]
  norm_num
  constructor <;> omega

theorem tokenExpired_iff (now : Time) (claims : MapClaims) :
    tokenExpired now claims = true ↔
      ∃ x, claims.get "exp" = .float64 x ∧ int64OfFloat64 x < now.Unix := by
  unfold tokenExpired
  cases h : claims.get "exp" <;> simp [GoVal.asFloat64]

/-- C29: the expiry re-check of `JwtVerify` rejects exactly when the claim `exp` is a number
and the current Unix second is strictly greater than `int64(exp)`, which for a number between
0 and `2^63` is the same as strictly greater than the number itself; at the second equal to
`exp` the check passes; and when the claims hold no numeric `exp` the check passes (the
clock is not compared) and a request that got to the claims checks goes on to the guest or
the user branch. -/
theorem expiry_recheck_exact (now : Time) (claims : MapClaims) :
    (tokenExpired now claims = true ↔
      ∃ x, claims.get "exp" = .float64 x ∧ int64OfFloat64 x < now.Unix) ∧
    (∀ x : ℚ, 0 ≤ x → x < 9223372036854775808 →
      (int64OfFloat64 x < now.Unix ↔ x < ((now.Unix : Int) : ℚ))) ∧
    (∀ n : Int, -9223372036854775808 ≤ n → n < 9223372036854775808 →
      claims.get "exp" = .float64 ((n : Int) : ℚ) → now.Unix = n →
      tokenExpired now claims = false) ∧
    ((claims.get "exp").asFloat64 = none →
      tokenExpired now claims = false ∧
        ∀ (env : Env) (store : TokenMap) (r : Request), env.now = now →
          ReachesClaims env store r claims →
          JwtVerify env store r = Effect.parse (extractToken r) ::
            (if isGuestClaim claims then
              [Effect.next (guestContext r claims)]
            else
              match (claims.get "user_id").asFloat64 with
              | none => [Effect.panic "interface conversion: user_id is not float64"]
              | some uid =>
                match (claims.get "username").asString with
                | none => [Effect.panic "interface conversion: username is not string"]
                | some username =>
                  Effect.queryUser (int64OfFloat64 uid) username ::
                  match env.userExists (int64OfFloat64 uid) username with
                  | .error _ =>
                    [SendError StatusUnauthorized "Kullanıcı bulunamadı veya pasif durumda"]
                  | .ok false =>
                    [SendError StatusUnauthorized "Kullanıcı bulunamadı veya pasif durumda"]
                  | .ok true =>
                    [Effect.next (userContext r (int64OfFloat64 uid) username)])) := by
  refine ⟨tokenExpired_iff now claims, ?_, ?_, ?_⟩
  · intro x h0 h1
    rw [int64OfFloat64_eq_floor x h0 h1]
    exact Int.floor_lt
  · intro n h1 h2 hexp hnow
    cases hte : tokenExpired now claims with
    | false => rfl
    | true =>
      obtain ⟨x, hx, hlt⟩ := (tokenExpired_iff now claims).1 hte
      rw [hexp] at hx
      simp only [GoVal.float64.injEq] at hx
      rw [← hx, int64OfFloat64_intCast n h1 h2, hnow] at hlt
      exact absurd hlt (lt_irrefl _)
  · intro hnone
    have hte : tokenExpired now claims = false := by
      unfold tokenExpired
      rw [hnone]
    refine ⟨hte, ?_⟩
    intro env store r henv hr
    rw [JwtVerify_of_reaches env store r claims hr, henv, hte]
    simp only [if_false, Bool.false_eq_true]

theorem expiry_recheck_exact_witness :
    ((0 : ℚ) ≤ 87400 ∧ (87400 : ℚ) < 9223372036854775808) ∧
    (int64OfFloat64 87400 < (timeUnix 87401).Unix ↔
      (87400 : ℚ) < (((timeUnix 87401).Unix : Int) : ℚ)) ∧
    tokenExpired (timeUnix 87400)
      (userClaims (timeUnix 1000) (timeUnix 1000) "jti-1" 42 "alice").roundTrip = false ∧
    tokenExpired (timeUnix 87401)
      (userClaims (timeUnix 1000) (timeUnix 1000) "jti-1" 42 "alice").roundTrip = true :=
  ⟨by norm_num,
    (expiry_recheck_exact (timeUnix 87401)
      (userClaims (timeUnix 1000) (timeUnix 1000) "jti-1" 42 "alice").roundTrip).2.1 87400
      (by norm_num) (by norm_num),
    (expiry_recheck_exact (timeUnix 87400)
      (userClaims (timeUnix 1000) (timeUnix 1000) "jti-1" 42 "alice").roundTrip).2.2.1 87400
      (by decide) (by decide) (by decide) (by decide),
    by decide⟩

/-! ## The role handlers: the `User` role -/

theorem hasUserRole_iff (roles : List String) : hasUserRole roles = true ↔ "User" ∈ roles := by
  induction roles with
  | nil => simp [hasUserRole]
  | cons role rest ih =>
    by_cases h : role = "User"
    · simp [hasUserRole, h]
    · have h' : ¬ "User" = role := fun e => h e.symm
      simp [hasUserRole, h, h', ih]

/-- C23: for every request whose decoded list `roles` contains the string `"User"` at any
position, `UpdateUserRoles` performs exactly one effect, the 403 response: no transaction is
begun and no statement is executed. `AddUserRole` and `RemoveUserRole` likewise only write
their 403 response when `role_name` is `"User"`. -/
theorem user_role_is_protected (db : RoleDb) (userID : String) (roles : List String)
    (h : "User" ∈ roles) :
    UpdateUserRoles db userID (.ok roles)
        = [.respond (Effect.write "application/json" 403
            ⟨false, "", .nil, "Cannot modify User role"⟩)] ∧
      (UpdateUserRoles db userID (.ok roles)).any HandlerEffect.isDb = false ∧
      AddUserRole db userID (.ok "User")
        = [.respond (Effect.write "application/json" 403
            ⟨false, "", .nil, "Cannot modify User role"⟩)] ∧
      (AddUserRole db userID (.ok "User")).any HandlerEffect.isDb = false ∧
      RemoveUserRole db userID (.ok "User")
        = [.respond (Effect.write "application/json" 403
            ⟨false, "", .nil, "Cannot remove User role"⟩)] ∧
      (RemoveUserRole db userID (.ok "User")).any HandlerEffect.isDb = false := by
  have hu := (hasUserRole_iff roles).2 h
  have h1 : UpdateUserRoles db userID (.ok roles)
      = [.respond (Effect.write "application/json" 403
          ⟨false, "", .nil, "Cannot modify User role"⟩)] := by
    simp [UpdateUserRoles, hu, SendError, SendResponse, StatusForbidden]
  have h2 : AddUserRole db userID (.ok "User")
      = [.respond (Effect.write "application/json" 403
          ⟨false, "", .nil, "Cannot modify User role"⟩)] := by
    simp [AddUserRole, SendError, SendResponse, StatusForbidden]
  have h3 : RemoveUserRole db userID (.ok "User")
      = [.respond (Effect.write "application/json" 403
          ⟨false, "", .nil, "Cannot remove User role"⟩)] := by
    simp [RemoveUserRole, SendError, SendResponse, StatusForbidden]
  refine ⟨h1, ?_, h2, ?_, h3, ?_⟩
  · rw [h1]; simp [HandlerEffect.isDb]
  · rw [h2]; simp [HandlerEffect.isDb]
  · rw [h3]; simp [HandlerEffect.isDb]

theorem user_role_is_protected_witness :
    "User" ∈ ["Admin", "User"] ∧
    UpdateUserRoles permissiveRoleDb "42" (.ok ["Admin", "User"])
      = [.respond (Effect.write "application/json" 403
          ⟨false, "", .nil, "Cannot modify User role"⟩)] ∧
    UpdateUserRoles permissiveRoleDb "42" (.ok ["Admin"])
      = [.dbBegin, .dbExec deleteRolesSql [.string "42"],
         .dbQueryRow selectRoleSql [.string "Admin"],
         .dbExec insertRoleSql [.string "42", .int 7], .dbCommit,
         .respond (Effect.write "application/json" 200
           ⟨true, "User roles updated successfully", .nil, ""⟩),
         .dbRollback] :=
  ⟨by decide,
    (user_role_is_protected permissiveRoleDb "42" ["Admin", "User"] (by decide)).1,
    by decide⟩

/-! ## The question filter -/

theorem numberedConditions_length (start : Nat) (l : List (List String × String)) :
    (numberedConditions start l).length = l.length := by
  induction l generalizing start with
  | nil => rfl
  | cons f rest ih => simp [numberedConditions, ih]

theorem numberedConditions_getElem? (start : Nat) (l : List (List String × String))
    (i : Nat) :
    (numberedConditions start l)[i]?
      = (l[i]?).map (fun f => sprintfPlaceholder f.1 (start + i)) := by
  induction l generalizing start i with
  | nil => simp [numberedConditions]
  | cons f rest ih =>
    cases i with
    | zero => simp [numberedConditions]
    | succ j =>
      simp only [numberedConditions, List.getElem?_cons_succ, ih]
      congr 1
      funext g
      congr 1
      omega

/-- The loop-free reading of `questionFilter`: the conditions are the formats of the filters
that are set, numbered from 1, and the arguments are their values. -/
theorem questionFilter_eq (search subCategoryID categoryID difficulty : String) :
    (questionFilter search subCategoryID categoryID difficulty).conditions
        = numberedConditions 1 (activeFilters search subCategoryID categoryID difficulty) ∧
      (questionFilter search subCategoryID categoryID difficulty).args
        = (activeFilters search subCategoryID categoryID difficulty).map Prod.snd ∧
      (questionFilter search subCategoryID categoryID difficulty).argCount
        = 1 + (activeFilters search subCategoryID categoryID difficulty).length := by
  by_cases h1 : search = "" <;> by_cases h2 : subCategoryID = "" <;>
    by_cases h3 : categoryID = "" <;> by_cases h4 : difficulty = "" <;>
    simp [questionFilter, addFilter, activeFilters, filterEntry, numberedConditions,
      h1, h2, h3, h4]

/-- C30: for every combination of the four filters of `GetQuestions`, as many conditions as
arguments are generated; the `i`-th condition is the format of the `i`-th filter that is set
(in the order search, sub-category, category, difficulty) with every placeholder filled with
`$i`, the formats themselves holding no `$`; the `i`-th argument is the value of that filter
(the search value wrapped in `%...%`); and with no filter set there is no condition, no
argument, and the query is the base query followed by the ordering. -/
theorem question_filter_placeholders (search subCategoryID categoryID difficulty : String) :
    (questionFilter search subCategoryID categoryID difficulty).conditions.length
        = (questionFilter search subCategoryID categoryID difficulty).args.length ∧
    (∀ i : Nat,
      (questionFilter search subCategoryID categoryID difficulty).conditions[i]?
          = ((activeFilters search subCategoryID categoryID difficulty)[i]?).map
              (fun f => sprintfPlaceholder f.1 (i + 1)) ∧
        (questionFilter search subCategoryID categoryID difficulty).args[i]?
          = ((activeFilters search subCategoryID categoryID difficulty)[i]?).map Prod.snd) ∧
    activeFilters search subCategoryID categoryID difficulty
      = filterEntry search searchFormat ("%" ++ search ++ "%") ++
          filterEntry subCategoryID subCategoryFormat subCategoryID ++
          filterEntry categoryID categoryFormat categoryID ++
          filterEntry difficulty difficultyFormat difficulty ∧
    (∀ f ∈ [searchFormat, subCategoryFormat, categoryFormat, difficultyFormat],
      ∀ piece ∈ f, '$' ∉ piece.data) ∧
    (search = "" → subCategoryID = "" → categoryID = "" → difficulty = "" →
      (questionFilter search subCategoryID categoryID difficulty).conditions = [] ∧
        (questionFilter search subCategoryID categoryID difficulty).args = [] ∧
        questionsQuery search subCategoryID categoryID difficulty
          = baseQuery ++ " ORDER BY q.id DESC") := by
  obtain ⟨hc, ha, _⟩ := questionFilter_eq search subCategoryID categoryID difficulty
  refine ⟨?_, ?_, rfl, by decide, ?_⟩
  · rw [hc, ha, numberedConditions_length, List.length_map]
  · intro i
    refine ⟨?_, ?_⟩
    · rw [hc, numberedConditions_getElem?]
      congr 1
      funext f
      congr 1
      omega
    · rw [ha, List.getElem?_map]
  · intro h1 h2 h3 h4
    subst h1 h2 h3 h4
    refine ⟨by decide, by decide, ?_⟩
    simp [questionsQuery, questionFilter, addFilter]

theorem question_filter_placeholders_witness :
    (questionFilter "abc" "" "" "3").conditions
      = ["(q.path_url ILIKE $1 OR q.solution_url ILIKE $1)", "q.difficulty_level = $2"] ∧
    (questionFilter "abc" "" "" "3").args = ["%abc%", "3"] ∧
    (questionFilter "abc" "" "" "3").conditions[1]?
      = ((activeFilters "abc" "" "" "3")[1]?).map (fun f => sprintfPlaceholder f.1 (1 + 1)) ∧
    ((questionFilter "" "" "" "").conditions = [] ∧
      (questionFilter "" "" "" "").args = [] ∧
      questionsQuery "" "" "" "" = baseQuery ++ " ORDER BY q.id DESC") :=
  ⟨by decide, by decide,
    ((question_filter_placeholders "abc" "" "" "3").2.1 1).1,
    (question_filter_placeholders "" "" "" "").2.2.2.2 rfl rfl rfl rfl⟩

end Osym
